import Mathlib

/-!
# SLiM subpopulation kernel: diploid fitness evaluation

A shallow embedding of `Subpopulation::FitnessOfParentWithGenomeIndices`
(`core/subpopulation.cpp`) and the properties of the fitness merge.

Conventions of the embedding.

* `float`/`double` quantities (selection coefficients, dominance coefficients, fitness) are
  exact rationals `ℚ`; `int` positions are `Int` (they are only compared, never added to).
* Pointers are addresses (`Nat`) into an immutable memory `Memory`; a genome holds the
  addresses of its mutation records, a mutation holds the address of its mutation type.
  Pointer comparison is comparison of addresses.
* An iterator `[iter, max)` over a genome is the list of the records still ahead of it.
* `return 0.0` out of the middle of a loop is the outcome `none` of that loop; `some w`
  carries the running product on.
-/

namespace SLiM

/-! ## Data model -/

/-- Modelled from the spec: the chromosome-type tag of a genome (`GenomeType` of `genome.h`,
which is not among the sources): autosome, X or Y. -/
inductive GenomeType where
  | kAutosome
  | kXChromosome
  | kYChromosome
  deriving DecidableEq, Repr

/-- Modelled from the spec: the mutation-type descriptor (`mutation_type.h`); the fitness code
reads only its dominance coefficient. -/
structure MutationType where
  dominance_coeff_ : ℚ
  deriving DecidableEq, Repr

/-- Modelled from the spec: a mutation record (`mutation.h`): the address of its mutation
type, its position and its selection coefficient. -/
structure Mutation where
  mutation_type_ptr_ : Nat
  position_ : Int
  selection_coeff_ : ℚ
  deriving DecidableEq, Repr

/-- Modelled from the spec: a genome (`genome.h`): type tag, null flag and the sequence of
addresses of its mutation records (`begin_pointer()` .. `end_pointer()`). -/
structure Genome where
  genome_type_ : GenomeType
  is_null_ : Bool
  mutations_ : List Nat
  deriving DecidableEq, Repr

/-- The immutable records reachable through pointers: mutation records and mutation-type
descriptors, by address. -/
structure Memory where
  mutation : Nat → Mutation
  mutation_type : Nat → MutationType

/-- The fields of `Subpopulation` that `subpopulation.cpp` reads and writes. A sampler
(`gsl_ran_discrete_t *`) is represented by the weight vector it was built from. -/
structure Subpopulation where
  sex_enabled_ : Bool
  parent_subpop_size_ : Int
  child_subpop_size_ : Int
  parent_sex_ratio_ : ℚ
  child_sex_ratio_ : ℚ
  parent_first_male_index_ : Int
  child_first_male_index_ : Int
  modeled_chromosome_type_ : GenomeType
  x_chromosome_dominance_coeff_ : ℚ
  parent_genomes_ : List Genome
  child_genomes_ : List Genome
  lookup_parent_ : List ℚ
  lookup_female_parent_ : List ℚ
  lookup_male_parent_ : List ℚ

/-! ## Fitness of one individual -/

/-- The records a genome's pointers lead to, in genome order (`*genome_iter` for each
iterator position). -/
def Genome.records (mem : Memory) (g : Genome) : List Mutation :=
  g.mutations_.map mem.mutation

/-- The dominance-scaled factor `1.0 + mutation_type_ptr_->dominance_coeff_ * selection_coeff`
of a mutation expressed heterozygously. -/
def hetFactor (mem : Memory) (m : Mutation) : ℚ :=
  1 + (mem.mutation_type m.mutation_type_ptr_).dominance_coeff_ * m.selection_coeff_

/-- The simple scan loops of the fitness function (lines 258-272, 277-291, 463-477, 480-494):
every mutation with a non-zero selection coefficient multiplies `w` by `factor`, and the
function returns `0.0` (outcome `none`) as soon as `w <= 0.0`. -/
def scanLoop (factor : Mutation → ℚ) : List Mutation → ℚ → Option ℚ
  | [], w => some w
  | m :: rest, w =>
    if m.selection_coeff_ ≠ 0 then
      if w * factor m ≤ 0 then none else scanLoop factor rest (w * factor m)
    else scanLoop factor rest w

/-- The match scan (lines 375-386 and 420-430): walk the other genome from `scan` while its
mutations sit at `position`, and report whether one of them has the same mutation-type pointer
and an equal selection coefficient. -/
def matchscan (position : Int) (mutation_type_ptr : Nat) (selection_coeff : ℚ) :
    List Mutation → Bool
  | [] => false
  | m :: rest =>
    if m.position_ = position then
      if mutation_type_ptr = m.mutation_type_ptr_ ∧ selection_coeff = m.selection_coeff_ then true
      else matchscan position mutation_type_ptr selection_coeff rest
    else false

/-- The effect on `w` of one genome-1 mutation of a tied run (lines 366-396): nothing when the
selection coefficient is zero; `w *= 1 + s` when the match scan over genome 2 succeeds (no
test of `w` follows); else the dominance-scaled factor followed by the `w <= 0.0` test. -/
def genome1_tied_step (mem : Memory) (position : Int) (genome2_iter : List Mutation)
    (m : Mutation) (w : ℚ) : Option ℚ :=
  if m.selection_coeff_ ≠ 0 then
    if matchscan position m.mutation_type_ptr_ m.selection_coeff_ genome2_iter then
      some (w * (1 + m.selection_coeff_))
    else if w * hetFactor mem m ≤ 0 then none else some (w * hetFactor mem m)
  else some w

/-- The effect on `w` of one genome-2 mutation of a tied run (lines 411-440): nothing when the
selection coefficient is zero or when the match scan over genome 1 (from `genome1_start`)
succeeds; else the dominance-scaled factor followed by the `w <= 0.0` test. -/
def genome2_tied_step (mem : Memory) (position : Int) (genome1_start : List Mutation)
    (m : Mutation) (w : ℚ) : Option ℚ :=
  if m.selection_coeff_ ≠ 0 then
    if matchscan position m.mutation_type_ptr_ m.selection_coeff_ genome1_start then some w
    else if w * hetFactor mem m ≤ 0 then none else some (w * hetFactor mem m)
  else some w

/-- The do-while loops over a tied run (lines 364-406 for genome 1 with `genome1_tied_step`,
lines 409-450 for genome 2 with `genome2_tied_step`): process the current mutation, advance,
stop at the end of the genome or at the first mutation whose position differs. The result is
the advanced iterator and the running product. The loop body is entered with a current
mutation, so the empty case is never reached from the merge loop. -/
def tiedRun (step : Mutation → ℚ → Option ℚ) (position : Int) :
    List Mutation → ℚ → Option (List Mutation × ℚ)
  | [], w => some ([], w)
  | m :: rest, w =>
    match step m w with
    | none => none
    | some w1 =>
      match rest with
      | [] => some ([], w1)
      | m1 :: rest1 =>
        if m1.position_ = position then tiedRun step position (m1 :: rest1) w1
        else some (m1 :: rest1, w1)

/-- The effect on `w` of a mutation that leads the merge (lines 316-324 and 338-346): the
dominance-scaled factor when the selection coefficient is non-zero, followed by the
`w <= 0.0` test. -/
def leading_step (mem : Memory) (m : Mutation) (w : ℚ) : Option ℚ :=
  if m.selection_coeff_ ≠ 0 then
    if w * hetFactor mem m ≤ 0 then none else some (w * hetFactor mem m)
  else some w

/-- The merge loop `do { ... } while (true)` of lines 306-457, entered only when both iterators
have a current mutation. Each pass compares the two current positions: the genome with the
strictly smaller one has its mutation applied heterozygously and advances; on a tie the two
tied runs are processed, genome 1 first. Every `break` of the source leaves the loop exactly
when one iterator has reached its end, which is the last case here. The result is the two
iterators and the running product at the `assert` of line 460. -/
def mergeLoop (mem : Memory) :
    List Mutation → List Mutation → ℚ → Option (List Mutation × List Mutation × ℚ)
  | m1 :: r1, m2 :: r2, w =>
    if m1.position_ < m2.position_ then
      match leading_step mem m1 w with
      | none => none
      | some w1 => mergeLoop mem r1 (m2 :: r2) w1
    else if m1.position_ > m2.position_ then
      match leading_step mem m2 w with
      | none => none
      | some w1 => mergeLoop mem (m1 :: r1) r2 w1
    else
      match h1 : tiedRun (genome1_tied_step mem m1.position_ (m2 :: r2)) m1.position_
          (m1 :: r1) w with
      | none => none
      | some (g1, w1) =>
        match h2 : tiedRun (genome2_tied_step mem m1.position_ (m1 :: r1)) m1.position_
            (m2 :: r2) w1 with
        | none => none
        | some (g2, w2) => mergeLoop mem g1 g2 w2
  | g1, g2, w => some (g1, g2, w)
termination_by g1 g2 _ => g1.length + g2.length
decreasing_by
  · simp_wf
  · simp_wf
  · have key : ∀ (step : Mutation → ℚ → Option ℚ) (p : Int) (l : List Mutation) (w : ℚ)
        (l1 : List Mutation) (w1 : ℚ),
        tiedRun step p l w = some (l1, w1) → l1.length ≤ l.length - 1 := by
      intro step p l
      induction l with
      | nil =>
        intro w l1 w1 h
        simp [tiedRun] at h
        simp [h.1]
      | cons m rest ih =>
        intro w l1 w1 h
        unfold tiedRun at h
        cases hs : step m w with
        | none => simp [hs] at h
        | some w2 =>
          simp only [hs] at h
          cases rest with
          | nil =>
            simp at h
            simp [h.1]
          | cons m1 rest1 =>
            by_cases hp : m1.position_ = p
            · simp only [hp, if_true] at h
              have := ih w2 l1 w1 h
              simp at this ⊢
              omega
            · simp only [hp, if_false, Option.some.injEq, Prod.mk.injEq] at h
              simp [← h.1]
    have b1 := key _ _ _ _ _ _ h1
    have b2 := key _ _ _ _ _ _ h2
    simp_wf
    simp at b1 b2
    omega

/-- One pass of the body of the merge loop (lines 313-455), entered with the current
mutations `m1` and `m2` of the two iterators: the iterators and the running product after
the pass, or `none` for `return 0.0`. -/
def merge_pass (mem : Memory) (m1 : Mutation) (r1 : List Mutation) (m2 : Mutation)
    (r2 : List Mutation) (w : ℚ) : Option (List Mutation × List Mutation × ℚ) :=
  if m1.position_ < m2.position_ then
    match leading_step mem m1 w with
    | none => none
    | some w1 => some (r1, m2 :: r2, w1)
  else if m1.position_ > m2.position_ then
    match leading_step mem m2 w with
    | none => none
    | some w1 => some (m1 :: r1, r2, w1)
  else
    match tiedRun (genome1_tied_step mem m1.position_ (m2 :: r2)) m1.position_ (m1 :: r1) w with
    | none => none
    | some (g1, w1) =>
      match tiedRun (genome2_tied_step mem m1.position_ (m1 :: r1)) m1.position_
          (m2 :: r2) w1 with
      | none => none
      | some (g2, w2) => some (g1, g2, w2)

/-- The merge loop followed by the two loops that finish whichever genome is left (lines
463-494), started from a running product `w`; `none` is `return 0.0`. -/
def mergeAll (mem : Memory) (g1 g2 : List Mutation) (w : ℚ) : Option ℚ :=
  match mergeLoop mem g1 g2 w with
  | none => none
  | some (genome1_iter, genome2_iter, w1) =>
    match scanLoop (hetFactor mem) genome1_iter w1 with
    | none => none
    | some w2 => scanLoop (hetFactor mem) genome2_iter w2

/-- The fitness of the individual made of `genome1` and `genome2` (the body of
`FitnessOfParentWithGenomeIndices` after the two genomes have been fetched), for a
subpopulation whose X-dominance coefficient is `x_chromosome_dominance_coeff`. -/
def fitnessOfGenomes (mem : Memory) (x_chromosome_dominance_coeff : ℚ)
    (genome1 genome2 : Genome) : ℚ :=
  if genome1.is_null_ = true ∧ genome2.is_null_ = true then 1
  else if genome1.is_null_ = true ∨ genome2.is_null_ = true then
    let genome := if genome1.is_null_ = true then genome2 else genome1
    if genome.genome_type_ = GenomeType.kXChromosome then
      (scanLoop (fun m => 1 + x_chromosome_dominance_coeff * m.selection_coeff_)
        (genome.records mem) 1).getD 0
    else
      (scanLoop (fun m => 1 + m.selection_coeff_) (genome.records mem) 1).getD 0
  else
    match mergeLoop mem (genome1.records mem) (genome2.records mem) 1 with
    | none => 0
    | some (genome1_iter, genome2_iter, w) =>
      match scanLoop (hetFactor mem) genome1_iter w with
      | none => 0
      | some w1 => (scanLoop (hetFactor mem) genome2_iter w1).getD 0

/-- `Subpopulation::FitnessOfParentWithGenomeIndices` (lines 235-498): the fitness of the
individual made of the parent genomes at the two indices. Indexing the parent buffer out of
range is undefined in the source; here it gives `none`. -/
def FitnessOfParentWithGenomeIndices (sp : Subpopulation) (mem : Memory)
    (p_genome_index1 p_genome_index2 : Nat) : Option ℚ :=
  match sp.parent_genomes_[p_genome_index1]?, sp.parent_genomes_[p_genome_index2]? with
  | some genome1, some genome2 =>
    some (fitnessOfGenomes mem sp.x_chromosome_dominance_coeff_ genome1 genome2)
  | _, _ => none

/-! ## The merge with explicit iterators

A second embedding of the branch of `FitnessOfParentWithGenomeIndices` for two non-null
genomes (lines 298-497). Here an iterator is an index into the mutations of its genome,
`end_pointer()` is the length, every dereference is checked, and the `assert` of line 460 is
a test. Every loop takes a bound on the number of its passes. The list embedding above is
proved equal to this one. -/

/-- What can go wrong in a run with explicit iterators. -/
inductive Fault where
  | read_past_end
  | assertion_failed
  | out_of_fuel
  deriving DecidableEq, Repr

/-- The read `*iter` of the mutation at index `iter` of a genome: a fault at or past the
end. -/
def deref (g : List Mutation) (iter : Nat) : Except Fault Mutation :=
  match g[iter]? with
  | some m => Except.ok m
  | none => Except.error Fault.read_past_end

/-- The match scan with an explicit pointer `scan` (lines 375-386 and 420-430):
`while (scan != max && (*scan)->position_ == position)`, with a match ending the scan. -/
def matchscan_checked (g : List Mutation) (position : Int) (mutation_type_ptr : Nat)
    (selection_coeff : ℚ) : Nat → Nat → Except Fault Bool
  | 0, _ => Except.error Fault.out_of_fuel
  | fuel + 1, scan =>
    if scan ≠ g.length then
      match deref g scan with
      | Except.error e => Except.error e
      | Except.ok m =>
        if m.position_ = position then
          if mutation_type_ptr = m.mutation_type_ptr_ ∧ selection_coeff = m.selection_coeff_ then
            Except.ok true
          else matchscan_checked g position mutation_type_ptr selection_coeff fuel (scan + 1)
        else Except.ok false
    else Except.ok false

/-- The three variables the merge loop keeps for one genome: `genome1_iter`,
`genome1_mutation` and `genome1_iter_position` (and the same for genome 2). -/
structure Iterator where
  iter : Nat
  mutation : Mutation
  position : Int

/-- The end of every branch of the loop body (lines 326-333, 348-355, 398-405, 442-449):
`iter++`, then either the end is reached (`true`, a `break`) or the current mutation and its
position are read. -/
def advance (g : List Mutation) (c : Iterator) : Except Fault (Bool × Iterator) :=
  if c.iter + 1 = g.length then Except.ok (true, { c with iter := c.iter + 1 })
  else
    match deref g (c.iter + 1) with
    | Except.error e => Except.error e
    | Except.ok m => Except.ok (false, ⟨c.iter + 1, m, m.position_⟩)

/-- The body of the genome-1 tied run for the current mutation `m` (lines 366-396), with the
match scan over genome 2 started at `genome2_iter`; `none` is `return 0.0`. -/
def genome1_tied_step_checked (mem : Memory) (g2 : List Mutation) (position : Int)
    (genome2_iter : Nat) (bound : Nat) (m : Mutation) (w : ℚ) : Except Fault (Option ℚ) :=
  if m.selection_coeff_ ≠ 0 then
    match matchscan_checked g2 position m.mutation_type_ptr_ m.selection_coeff_ bound
        genome2_iter with
    | Except.error e => Except.error e
    | Except.ok true => Except.ok (some (w * (1 + m.selection_coeff_)))
    | Except.ok false =>
      if w * hetFactor mem m ≤ 0 then Except.ok none else Except.ok (some (w * hetFactor mem m))
  else Except.ok (some w)

/-- The body of the genome-2 tied run for the current mutation `m` (lines 411-440), with the
match scan over genome 1 started at `genome1_start`; `none` is `return 0.0`. -/
def genome2_tied_step_checked (mem : Memory) (g1 : List Mutation) (position : Int)
    (genome1_start : Nat) (bound : Nat) (m : Mutation) (w : ℚ) : Except Fault (Option ℚ) :=
  if m.selection_coeff_ ≠ 0 then
    match matchscan_checked g1 position m.mutation_type_ptr_ m.selection_coeff_ bound
        genome1_start with
    | Except.error e => Except.error e
    | Except.ok true => Except.ok (some w)
    | Except.ok false =>
      if w * hetFactor mem m ≤ 0 then Except.ok none else Except.ok (some (w * hetFactor mem m))
  else Except.ok (some w)

/-- The do-while loop over a tied run (lines 364-406 and 409-450) with an explicit iterator:
process the current mutation, advance, stop at the end of the genome or at a mutation whose
position differs. -/
def tied_run_checked (g : List Mutation) (step : Mutation → ℚ → Except Fault (Option ℚ))
    (position : Int) : Nat → Iterator → ℚ → Except Fault (Option (Iterator × ℚ))
  | 0, _, _ => Except.error Fault.out_of_fuel
  | fuel + 1, c, w =>
    match step c.mutation w with
    | Except.error e => Except.error e
    | Except.ok none => Except.ok none
    | Except.ok (some w1) =>
      match advance g c with
      | Except.error e => Except.error e
      | Except.ok (true, c1) => Except.ok (some (c1, w1))
      | Except.ok (false, c1) =>
        if c1.position = position then tied_run_checked g step position fuel c1 w1
        else Except.ok (some (c1, w1))

/-- The merge loop (lines 311-457) with explicit iterators; `none` is `return 0.0`, and a
result is the state at the `assert` of line 460. `bound` bounds the inner loops. -/
def merge_loop_checked (mem : Memory) (g1 g2 : List Mutation) (bound : Nat) :
    Nat → Iterator → Iterator → ℚ → Except Fault (Option (Iterator × Iterator × ℚ))
  | 0, _, _, _ => Except.error Fault.out_of_fuel
  | fuel + 1, c1, c2, w =>
    if c1.position < c2.position then
      match leading_step mem c1.mutation w with
      | none => Except.ok none
      | some w1 =>
        match advance g1 c1 with
        | Except.error e => Except.error e
        | Except.ok (true, c1a) => Except.ok (some (c1a, c2, w1))
        | Except.ok (false, c1a) => merge_loop_checked mem g1 g2 bound fuel c1a c2 w1
    else if c1.position > c2.position then
      match leading_step mem c2.mutation w with
      | none => Except.ok none
      | some w1 =>
        match advance g2 c2 with
        | Except.error e => Except.error e
        | Except.ok (true, c2a) => Except.ok (some (c1, c2a, w1))
        | Except.ok (false, c2a) => merge_loop_checked mem g1 g2 bound fuel c1 c2a w1
    else
      match tied_run_checked g1
          (genome1_tied_step_checked mem g2 c1.position c2.iter bound) c1.position bound c1 w with
      | Except.error e => Except.error e
      | Except.ok none => Except.ok none
      | Except.ok (some (c1a, w1)) =>
        match tied_run_checked g2
            (genome2_tied_step_checked mem g1 c1.position c1.iter bound) c1.position bound c2
            w1 with
        | Except.error e => Except.error e
        | Except.ok none => Except.ok none
        | Except.ok (some (c2a, w2)) =>
          if c1a.iter = g1.length ∨ c2a.iter = g2.length then Except.ok (some (c1a, c2a, w2))
          else merge_loop_checked mem g1 g2 bound fuel c1a c2a w2

/-- The loops that finish a genome (lines 463-477 and 480-494) with an explicit iterator;
`none` is `return 0.0`. -/
def scan_checked (factor : Mutation → ℚ) (g : List Mutation) :
    Nat → Nat → ℚ → Except Fault (Option ℚ)
  | 0, _, _ => Except.error Fault.out_of_fuel
  | fuel + 1, iter, w =>
    if iter ≠ g.length then
      match deref g iter with
      | Except.error e => Except.error e
      | Except.ok m =>
        if m.selection_coeff_ ≠ 0 then
          if w * factor m ≤ 0 then Except.ok none
          else scan_checked factor g fuel (iter + 1) (w * factor m)
        else scan_checked factor g fuel (iter + 1) w
    else Except.ok (some w)

/-- Lines 298-460 with explicit iterators: the two iterators and `w` at the `assert`; `none`
is `return 0.0`. -/
def merge_checked (mem : Memory) (g1 g2 : List Mutation) (fuel : Nat) :
    Except Fault (Option (Nat × Nat × ℚ)) :=
  if 0 ≠ g1.length ∧ 0 ≠ g2.length then
    match deref g1 0 with
    | Except.error e => Except.error e
    | Except.ok genome1_mutation =>
      match deref g2 0 with
      | Except.error e => Except.error e
      | Except.ok genome2_mutation =>
        match merge_loop_checked mem g1 g2 fuel fuel
            ⟨0, genome1_mutation, genome1_mutation.position_⟩
            ⟨0, genome2_mutation, genome2_mutation.position_⟩ 1 with
        | Except.error e => Except.error e
        | Except.ok none => Except.ok none
        | Except.ok (some (c1, c2, w)) => Except.ok (some (c1.iter, c2.iter, w))
  else Except.ok (some (0, 0, 1))

/-- The branch of `FitnessOfParentWithGenomeIndices` for two non-null genomes with the
mutations `g1` and `g2` (lines 298-497), with explicit iterators, checked reads and the
`assert` as a test. -/
def fitness_checked (mem : Memory) (g1 g2 : List Mutation) (fuel : Nat) : Except Fault ℚ :=
  match merge_checked mem g1 g2 fuel with
  | Except.error e => Except.error e
  | Except.ok none => Except.ok 0
  | Except.ok (some (genome1_iter, genome2_iter, w)) =>
    if genome1_iter ≠ g1.length ∧ genome2_iter ≠ g2.length then
      Except.error Fault.assertion_failed
    else
      match scan_checked (hetFactor mem) g1 fuel genome1_iter w with
      | Except.error e => Except.error e
      | Except.ok none => Except.ok 0
      | Except.ok (some w1) =>
        match scan_checked (hetFactor mem) g2 fuel genome2_iter w1 with
        | Except.error e => Except.error e
        | Except.ok none => Except.ok 0
        | Except.ok (some w2) => Except.ok w2

/-! ## The trace of a fitness evaluation

The fitness code applies a sequence of multiplications to `w`. The definitions of this section
describe such a sequence abstractly; they are used only to state and prove lemmas about the
code above. -/

/-- One multiplication of the running product: `skip` leaves `w` alone (selection coefficient
zero, or a genome-2 mutation already counted), `hom f` multiplies without testing `w`
(homozygous match), `het f` multiplies and then tests `w <= 0.0`. -/
inductive Event where
  | skip
  | hom (f : ℚ)
  | het (f : ℚ)
  deriving DecidableEq, Repr

/-- Apply one event to the running product; `none` is `return 0.0`. -/
def Event.apply : Event → ℚ → Option ℚ
  | Event.skip, w => some w
  | Event.hom f, w => some (w * f)
  | Event.het f, w => if w * f ≤ 0 then none else some (w * f)

/-- Apply a sequence of events in order. -/
def runEvents : List Event → ℚ → Option ℚ
  | [], w => some w
  | e :: es, w =>
    match e.apply w with
    | none => none
    | some w1 => runEvents es w1

/-- The factor an event multiplies by. -/
def Event.factor : Event → ℚ
  | Event.skip => 1
  | Event.hom f => f
  | Event.het f => f

/-- A tested factor that is zero or negative. -/
def Event.lethal : Event → Bool
  | Event.het f => decide (f ≤ 0)
  | _ => false

/-- The value of a trace whose untested factors are non-negative: zero if some tested factor
is zero or negative, else the product of all factors. -/
def traceValue (es : List Event) : ℚ :=
  if es.any Event.lethal then 0 else (es.map Event.factor).prod

/-- The event of a mutation in a simple scan loop with the given factor. -/
def scanEvent (factor : Mutation → ℚ) (m : Mutation) : Event :=
  if m.selection_coeff_ = 0 then Event.skip else Event.het (factor m)

/-- Whether genome `g` holds a mutation with the same position, the same mutation-type pointer
and an equal selection coefficient as `a`. -/
def hasMatch (g : List Mutation) (a : Mutation) : Bool :=
  g.any (fun b => decide (b.position_ = a.position_ ∧ b.mutation_type_ptr_ = a.mutation_type_ptr_
    ∧ b.selection_coeff_ = a.selection_coeff_))

/-- The event of a genome-1 mutation `a` when the other genome is `g2`. -/
def genome1Event (mem : Memory) (g2 : List Mutation) (a : Mutation) : Event :=
  if a.selection_coeff_ = 0 then Event.skip
  else if hasMatch g2 a then Event.hom (1 + a.selection_coeff_)
  else Event.het (hetFactor mem a)

/-- The event of a genome-2 mutation `b` when the other genome is `g1`. -/
def genome2Event (mem : Memory) (g1 : List Mutation) (b : Mutation) : Event :=
  if b.selection_coeff_ = 0 then Event.skip
  else if hasMatch g1 b then Event.skip
  else Event.het (hetFactor mem b)

/-- The event of a genome-1 mutation inside a tied run, as the code decides it: by the match
scan over genome 2 from its iterator. -/
def tiedEvent1 (mem : Memory) (position : Int) (genome2_iter : List Mutation)
    (m : Mutation) : Event :=
  if m.selection_coeff_ = 0 then Event.skip
  else if matchscan position m.mutation_type_ptr_ m.selection_coeff_ genome2_iter then
    Event.hom (1 + m.selection_coeff_)
  else Event.het (hetFactor mem m)

/-- The event of a genome-2 mutation inside a tied run, as the code decides it: by the match
scan over genome 1 from the start of its tied run. -/
def tiedEvent2 (mem : Memory) (position : Int) (genome1_start : List Mutation)
    (m : Mutation) : Event :=
  if m.selection_coeff_ = 0 then Event.skip
  else if matchscan position m.mutation_type_ptr_ m.selection_coeff_ genome1_start then
    Event.skip
  else Event.het (hetFactor mem m)

/-- Ascending (non-strict) order by position. -/
def PositionSorted (l : List Mutation) : Prop :=
  l.Pairwise (fun a b => a.position_ ≤ b.position_)

/-- An event that touches the running product. -/
def Event.effective : Event → Bool
  | Event.skip => false
  | _ => true

/-- The events of a merge of two sorted genomes in the order the code applies them, for given
event functions `e1` (genome 1) and `e2` (genome 2): before a genome-1 mutation `a` come the
genome-2 mutations at strictly smaller positions, and `a` comes before the genome-2 mutations
at its own position. -/
def mergeOrder (e1 e2 : Mutation → Event) : List Mutation → List Mutation → List Event
  | [], g2 => g2.map e2
  | a :: r1, g2 =>
    (g2.takeWhile (fun b => decide (b.position_ < a.position_))).map e2 ++
      e1 a :: mergeOrder e1 e2 r1 (g2.dropWhile (fun b => decide (b.position_ < a.position_)))

/-! ## Genome buffer fitting and the generation swap

`exit(EXIT_FAILURE)` and an exception that nobody catches end the run; both are the outcome
`Except.error`. An `int` has 32 bits: the product `2 * size` that does not fit one, and the
conversion of a `long` that does not fit one, are modelled by `twice` and `to_int`. The sex
ratios are exact rationals and the product `(1.0 - ratio) * size` is taken exactly, where the
source takes it in doubles. The capacity of a vector is not modelled: `reserve` only throws
or does nothing. -/

/-- Modelled from the spec: `Genome()`, the default genome that `std::vector::resize` creates
(`genome.h`; the source comments say "default Genome objects of type
GenomeType::kAutosome"): an autosome, not null, without mutations. -/
def default_genome : Genome := ⟨GenomeType.kAutosome, false, []⟩

/-- Modelled from the spec: `Genome(type, is_null)` (`genome.h`): a genome of the given type
and null flag, without mutations. -/
def new_genome (p_genome_type : GenomeType) (p_is_null : Bool) : Genome :=
  ⟨p_genome_type, p_is_null, []⟩

/-- The generation a sex-ratio error message names. -/
inductive Generation where
  | parent
  | child
  deriving DecidableEq, Repr

/-- The ways `GenerateChildrenToFit` ends the run: the two error messages of lines 49-70, each
with the generation and the sex ratio it prints, and the `std::length_error` that `resize` and
`reserve` throw for a negative count. -/
inductive FitError where
  | no_females (role : Generation) (sex_ratio : ℚ)
  | no_males (role : Generation) (sex_ratio : ℚ)
  | length_error
  deriving DecidableEq, Repr

/-- The C library function `lround` on exact rationals: the nearest integer, halfway cases
away from zero. -/
def lround (x : ℚ) : Int :=
  if 0 ≤ x then ⌊x + 1 / 2⌋ else -⌊-x + 1 / 2⌋

/-- The conversion `static_cast<int>` of the `long` that `lround` returns (lines 45 and 60):
a value that does not fit a 32-bit `int` is reduced modulo `2^32`. -/
def to_int (x : Int) : Int :=
  (x + 2147483648) % 4294967296 - 2147483648

/-- The `int` product `2 * size` that lines 78, 80, 89, 107, 130 and 132 hand to `resize` and
`reserve`. A product that does not fit a 32-bit `int` is a signed overflow, which the language
leaves undefined. The compiled code wraps it: from the size `2^30` on the count is negative
and `resize` and `reserve` throw `std::length_error`; below the size `-2^30` the wrapped count
is not negative, and what follows is not defined by the language. The model ends the run with
`length_error` for every product that does not fit. -/
def twice (size : Int) : Except FitError Int :=
  if 2 * size < -2147483648 ∨ 2147483648 ≤ 2 * size then Except.error FitError.length_error
  else Except.ok (2 * size)

/-- `std::vector<Genome>::resize(count)`: a negative `int` converts to a `size_t` beyond
`max_size()` and throws; else the vector is cut or filled with default genomes. -/
def resize (v : List Genome) (count : Int) : Except FitError (List Genome) :=
  if count < 0 then Except.error FitError.length_error
  else Except.ok (v.take count.toNat ++ List.replicate (count.toNat - v.length) default_genome)

/-- `std::vector<Genome>::reserve(count)`: a negative `int` converts to a `size_t` beyond
`max_size()` and throws; else only the capacity changes, which is not modelled. -/
def reserve (v : List Genome) (count : Int) : Except FitError (List Genome) :=
  if count < 0 then Except.error FitError.length_error else Except.ok v

/-- The call `genomes.resize(2 * size)` of lines 78, 80, 130 and 132. -/
def resize_to_fit (v : List Genome) (size : Int) : Except FitError (List Genome) :=
  match twice size with
  | Except.error e => Except.error e
  | Except.ok count => resize v count

/-- The call `genomes.reserve(2 * size)` of lines 89 and 107. -/
def reserve_to_fit (v : List Genome) (size : Int) : Except FitError (List Genome) :=
  match twice size with
  | Except.error e => Except.error e
  | Except.ok count => reserve v count

/-- A loop that pushes the pair `first`, `second` onto the back of `v` once per pass (lines
92-96, 99-103, 110-114, 117-121), for the given number of passes. -/
def push_pairs (first second : Genome) : Nat → List Genome → List Genome
  | 0, v => v
  | n + 1, v => push_pairs first second n (v ++ [first, second])

/-- The value `static_cast<int>(lround((1.0 - child_sex_ratio_) * child_subpop_size_))` of
line 45, with the product taken in exact rationals. -/
def child_index (sp : Subpopulation) : Int :=
  to_int (lround ((1 - sp.child_sex_ratio_) * (sp.child_subpop_size_ : ℚ)))

/-- The value `static_cast<int>(lround((1.0 - parent_sex_ratio_) * parent_subpop_size_))` of
line 60, with the product taken in exact rationals. -/
def parent_index (sp : Subpopulation) : Int :=
  to_int (lround ((1 - sp.parent_sex_ratio_) * (sp.parent_subpop_size_ : ℚ)))

/-- Lines 44-72 of `GenerateChildrenToFit`: set the first male index of the child generation
from its sex ratio and exit if it leaves no females or no males; then, with
`p_parents_also`, the same for the parent generation. -/
def first_male_index_checks (sp : Subpopulation) (p_parents_also : Bool) :
    Except FitError Subpopulation :=
  let sp1 : Subpopulation := { sp with child_first_male_index_ := child_index sp }
  if sp1.child_first_male_index_ ≤ 0 then
    Except.error (FitError.no_females Generation.child sp1.child_sex_ratio_)
  else if sp1.child_first_male_index_ ≥ sp1.child_subpop_size_ then
    Except.error (FitError.no_males Generation.child sp1.child_sex_ratio_)
  else if p_parents_also = true then
    let sp2 : Subpopulation := { sp1 with parent_first_male_index_ := parent_index sp1 }
    if sp2.parent_first_male_index_ ≤ 0 then
      Except.error (FitError.no_females Generation.parent sp2.parent_sex_ratio_)
    else if sp2.parent_first_male_index_ ≥ sp2.parent_subpop_size_ then
      Except.error (FitError.no_males Generation.parent sp2.parent_sex_ratio_)
    else Except.ok sp2
  else Except.ok sp1

/-- Lines 78-80 and 130-132 of `GenerateChildrenToFit`: resize the child buffer to
`2 * child_subpop_size_` default genomes and, with `p_parents_also`, the parent buffer to
`2 * parent_subpop_size_`. -/
def resize_buffers (sp : Subpopulation) (p_parents_also : Bool) :
    Except FitError Subpopulation :=
  match resize_to_fit sp.child_genomes_ sp.child_subpop_size_ with
  | Except.error e => Except.error e
  | Except.ok child =>
    if p_parents_also = true then
      match resize_to_fit sp.parent_genomes_ sp.parent_subpop_size_ with
      | Except.error e => Except.error e
      | Except.ok parent =>
        Except.ok { sp with child_genomes_ := child, parent_genomes_ := parent }
    else Except.ok { sp with child_genomes_ := child }

/-- Lines 84-123 of `GenerateChildrenToFit`, the cases `kXChromosome` and `kYChromosome`:
after `reserve(2 * size)`, females get two Xs, males an X and a Y; the chromosome that is not
modeled is null. -/
def push_sex_chromosomes (sp : Subpopulation) (p_parents_also : Bool) :
    Except FitError Subpopulation :=
  let x_model : Genome := new_genome GenomeType.kXChromosome
    (decide (sp.modeled_chromosome_type_ ≠ GenomeType.kXChromosome))
  let y_model : Genome := new_genome GenomeType.kYChromosome
    (decide (sp.modeled_chromosome_type_ ≠ GenomeType.kYChromosome))
  match reserve_to_fit sp.child_genomes_ sp.child_subpop_size_ with
  | Except.error e => Except.error e
  | Except.ok reserved_child =>
    let child : List Genome :=
      push_pairs x_model y_model (sp.child_subpop_size_ - sp.child_first_male_index_).toNat
        (push_pairs x_model x_model sp.child_first_male_index_.toNat reserved_child)
    if p_parents_also = true then
      match reserve_to_fit sp.parent_genomes_ sp.parent_subpop_size_ with
      | Except.error e => Except.error e
      | Except.ok reserved_parent =>
        Except.ok { sp with
          child_genomes_ := child
          parent_genomes_ :=
            push_pairs x_model y_model
              (sp.parent_subpop_size_ - sp.parent_first_male_index_).toNat
              (push_pairs x_model x_model sp.parent_first_male_index_.toNat reserved_parent) }
    else Except.ok { sp with child_genomes_ := child }

/-- `Subpopulation::GenerateChildrenToFit` (lines 30-138): throw out the child genomes (and the
parent genomes with `p_parents_also`) and make new ones that fit the child (and parent) size
and sex ratio. -/
def GenerateChildrenToFit (sp : Subpopulation) (p_parents_also : Bool) :
    Except FitError Subpopulation :=
  let cleared : Subpopulation :=
    { sp with
      child_genomes_ := []
      parent_genomes_ := if p_parents_also = true then [] else sp.parent_genomes_ }
  if cleared.sex_enabled_ = true then
    match first_male_index_checks cleared p_parents_also with
    | Except.error e => Except.error e
    | Except.ok checked =>
      match checked.modeled_chromosome_type_ with
      | GenomeType.kAutosome => resize_buffers checked p_parents_also
      | GenomeType.kXChromosome => push_sex_chromosomes checked p_parents_also
      | GenomeType.kYChromosome => push_sex_chromosomes checked p_parents_also
  else resize_buffers cleared p_parents_also

/-- The local `will_need_new_children` of `SwapChildAndParentGenomes` (lines 502-507): whether
the size, the sex ratio or the first male index differs between parents and children. -/
def will_need_new_children (sp : Subpopulation) : Bool :=
  decide (sp.parent_subpop_size_ ≠ sp.child_subpop_size_ ∨
    sp.parent_sex_ratio_ ≠ sp.child_sex_ratio_ ∨
    sp.parent_first_male_index_ ≠ sp.child_first_male_index_)

/-- Lines 509-515 of `SwapChildAndParentGenomes`: exchange the two genome buffers and give the
parents the size, sex ratio and first male index of the children. -/
def exchange_generations (sp : Subpopulation) : Subpopulation :=
  { sp with
    child_genomes_ := sp.parent_genomes_
    parent_genomes_ := sp.child_genomes_
    parent_subpop_size_ := sp.child_subpop_size_
    parent_sex_ratio_ := sp.child_sex_ratio_
    parent_first_male_index_ := sp.child_first_male_index_ }

/-- `Subpopulation::SwapChildAndParentGenomes` (lines 500-520). -/
def SwapChildAndParentGenomes (sp : Subpopulation) : Except FitError Subpopulation :=
  if will_need_new_children sp = true then GenerateChildrenToFit (exchange_generations sp) false
  else Except.ok (exchange_generations sp)

/-- The state after `n` consecutive calls of `SwapChildAndParentGenomes`. -/
def swap_generations : Nat → Subpopulation → Except FitError Subpopulation
  | 0, sp => Except.ok sp
  | n + 1, sp =>
    match SwapChildAndParentGenomes sp with
    | Except.error e => Except.error e
    | Except.ok sp1 => swap_generations n sp1

/-- Modelled from the spec: the sex of an individual (`IndividualSex`, declared in a header
that is not among the sources). -/
inductive IndividualSex where
  | kHermaphrodite
  | kFemale
  | kMale
  deriving DecidableEq, Repr

/-- `Subpopulation::SexOfChild` (lines 186-194). -/
def SexOfChild (sp : Subpopulation) (p_child_index : Int) : IndividualSex :=
  if ¬ (sp.sex_enabled_ = true) then IndividualSex.kHermaphrodite
  else if p_child_index < sp.child_first_male_index_ then IndividualSex.kFemale
  else IndividualSex.kMale

/-- The loops of `UpdateFitness` that fill a weight array (lines 208-209, 217-218, 228-229):
entry `i`, for `i` from 0 below `count`, is the fitness of the individual `i + first`, made
of the parent genomes `2 * (i + first)` and `2 * (i + first) + 1`. `none` when an index is
out of range. -/
def fitness_weights (sp : Subpopulation) (mem : Memory) (first : Nat) :
    Nat → Option (List ℚ)
  | 0 => some []
  | count + 1 =>
    match fitness_weights sp mem first count with
    | none => none
    | some weights =>
      match FitnessOfParentWithGenomeIndices sp mem (2 * (count + first))
          (2 * (count + first) + 1) with
      | none => none
      | some w => some (weights ++ [w])

/-- `Subpopulation::UpdateFitness` (lines 196-233). A sampler is the weight vector handed to
`gsl_ran_discrete_preproc`; the checks GSL makes on that vector are outside the model. An
array of negative length and a parent index out of range are undefined in the source; here
they give `none`. -/
def UpdateFitness (sp : Subpopulation) (mem : Memory) : Option Subpopulation :=
  if sp.sex_enabled_ = true then
    if sp.parent_first_male_index_ < 0 then none
    else
      match fitness_weights sp mem 0 sp.parent_first_male_index_.toNat with
      | none => none
      | some A =>
        if sp.parent_subpop_size_ - sp.parent_first_male_index_ < 0 then none
        else
          match fitness_weights sp mem sp.parent_first_male_index_.toNat
              (sp.parent_subpop_size_ - sp.parent_first_male_index_).toNat with
          | none => none
          | some B => some { sp with lookup_female_parent_ := A, lookup_male_parent_ := B }
  else
    if sp.parent_subpop_size_ < 0 then none
    else
      match fitness_weights sp mem 0 sp.parent_subpop_size_.toNat with
      | none => none
      | some A => some { sp with lookup_parent_ := A }

/-- The buffer a successful fit produces for a generation of the given size and first male
index, in closed form. -/
def fitted_buffer (sex_enabled : Bool) (modeled : GenomeType) (size first_male_index : Int) :
    List Genome :=
  if sex_enabled = true ∧ modeled ≠ GenomeType.kAutosome then
    push_pairs
      (new_genome GenomeType.kXChromosome (decide (modeled ≠ GenomeType.kXChromosome)))
      (new_genome GenomeType.kYChromosome (decide (modeled ≠ GenomeType.kYChromosome)))
      (size - first_male_index).toNat
      (push_pairs
        (new_genome GenomeType.kXChromosome (decide (modeled ≠ GenomeType.kXChromosome)))
        (new_genome GenomeType.kXChromosome (decide (modeled ≠ GenomeType.kXChromosome)))
        first_male_index.toNat [])
  else List.replicate (2 * size).toNat default_genome

/-- The state a successful fit produces, in closed form. -/
def fitted (sp : Subpopulation) (p_parents_also : Bool) : Subpopulation :=
  { sp with
    child_first_male_index_ :=
      if sp.sex_enabled_ = true then child_index sp else sp.child_first_male_index_
    parent_first_male_index_ :=
      if sp.sex_enabled_ = true ∧ p_parents_also = true then parent_index sp
      else sp.parent_first_male_index_
    child_genomes_ :=
      fitted_buffer sp.sex_enabled_ sp.modeled_chromosome_type_ sp.child_subpop_size_
        (child_index sp)
    parent_genomes_ :=
      if p_parents_also = true then
        fitted_buffer sp.sex_enabled_ sp.modeled_chromosome_type_ sp.parent_subpop_size_
          (parent_index sp)
      else sp.parent_genomes_ }

/-- The outcome of `GenerateChildrenToFit` in closed form: which test or which count ends the
run, and `fitted` when none does. -/
def fit_outcome (sp : Subpopulation) (p_parents_also : Bool) : Except FitError Subpopulation :=
  if sp.sex_enabled_ = true then
    if child_index sp ≤ 0 then
      Except.error (FitError.no_females Generation.child sp.child_sex_ratio_)
    else if child_index sp ≥ sp.child_subpop_size_ then
      Except.error (FitError.no_males Generation.child sp.child_sex_ratio_)
    else if p_parents_also = true ∧ parent_index sp ≤ 0 then
      Except.error (FitError.no_females Generation.parent sp.parent_sex_ratio_)
    else if p_parents_also = true ∧ parent_index sp ≥ sp.parent_subpop_size_ then
      Except.error (FitError.no_males Generation.parent sp.parent_sex_ratio_)
    else if 1073741824 ≤ sp.child_subpop_size_ then Except.error FitError.length_error
    else if p_parents_also = true ∧ 1073741824 ≤ sp.parent_subpop_size_ then
      Except.error FitError.length_error
    else Except.ok (fitted sp p_parents_also)
  else if sp.child_subpop_size_ < 0 ∨ 1073741824 ≤ sp.child_subpop_size_ then
    Except.error FitError.length_error
  else if p_parents_also = true ∧
      (sp.parent_subpop_size_ < 0 ∨ 1073741824 ≤ sp.parent_subpop_size_) then
    Except.error FitError.length_error
  else Except.ok (fitted sp p_parents_also)

/-! ## The constructors

A constructor starts from the object `members` whose data members hold their default member
initialisers (they are in the class declaration, which is not among the sources; the theorems
state what they need of them), applies its member initialiser list and runs its body. -/

/-- The local array `A` (or `B`) of a constructor with every entry set to `1.0` (lines 145-148,
160-163, 169-172). An array of negative length is undefined in the source; here it gives
`none`. -/
def equal_weights (count : Int) : Option (List ℚ) :=
  if count < 0 then none else some (List.replicate count.toNat 1)

/-- The body of the constructor `Subpopulation::Subpopulation(int p_subpop_size)` (lines
141-151), run on the object `sp0` that the member initialisers have set up: `Except.error`
when the fit ends the run, `Except.ok none` for undefined behaviour. -/
def Subpopulation_new_body (sp0 : Subpopulation) : Except FitError (Option Subpopulation) :=
  match GenerateChildrenToFit sp0 true with
  | Except.error e => Except.error e
  | Except.ok sp =>
    match equal_weights sp.parent_subpop_size_ with
    | none => Except.ok none
    | some A => Except.ok (some { sp with lookup_parent_ := A })

/-- The constructor `Subpopulation::Subpopulation(int p_subpop_size)` (lines 140-151): the
member initialiser list of line 140, then the body. -/
def Subpopulation_new (members : Subpopulation) (p_subpop_size : Int) :
    Except FitError (Option Subpopulation) :=
  Subpopulation_new_body
    { members with parent_subpop_size_ := p_subpop_size, child_subpop_size_ := p_subpop_size }

/-- The body of the sex-enabled constructor (lines 156-175), run on the object `sp0` that the
member initialisers have set up: `Except.error` when the fit ends the run, `Except.ok none`
for undefined behaviour. -/
def Subpopulation_new_sex_body (sp0 : Subpopulation) : Except FitError (Option Subpopulation) :=
  match GenerateChildrenToFit sp0 true with
  | Except.error e => Except.error e
  | Except.ok sp =>
    match equal_weights sp.parent_first_male_index_ with
    | none => Except.ok none
    | some A =>
      let num_males := sp.parent_subpop_size_ - sp.parent_first_male_index_
      match equal_weights num_males with
      | none => Except.ok none
      | some B => Except.ok (some { sp with lookup_female_parent_ := A, lookup_male_parent_ := B })

/-- The constructor `Subpopulation::Subpopulation(int p_subpop_size, double p_sex_ratio,
GenomeType p_modeled_chromosome_type, double p_x_chromosome_dominance_coeff)` (lines 154-175):
the member initialiser list of line 155, then the body. -/
def Subpopulation_new_sex (members : Subpopulation) (p_subpop_size : Int) (p_sex_ratio : ℚ)
    (p_modeled_chromosome_type : GenomeType) (p_x_chromosome_dominance_coeff : ℚ) :
    Except FitError (Option Subpopulation) :=
  Subpopulation_new_sex_body
    { members with
      sex_enabled_ := true
      parent_subpop_size_ := p_subpop_size
      child_subpop_size_ := p_subpop_size
      parent_sex_ratio_ := p_sex_ratio
      child_sex_ratio_ := p_sex_ratio
      modeled_chromosome_type_ := p_modeled_chromosome_type
      x_chromosome_dominance_coeff_ := p_x_chromosome_dominance_coeff }

/-! ## Command-line parsing (`main.cpp`)

The arguments are `argv[1]` to `argv[argc - 1]`, as a list of strings; `strcmp(a, b) == 0` is
equality of strings. `atoi` is a parameter. -/

/-- The local variables of `main` that the argument loop sets (lines 43-46); a null pointer is
`none`. -/
structure ParsedArguments where
  override_seed_ptr : Option Int
  input_file : Option String
  keep_time : Bool
  deriving DecidableEq, Repr

/-- How `main` goes on after looking at its arguments: `usage_and_die` is `PrintUsageAndDie()`
(lines 34-38: the usage line on standard error, then `exit(EXIT_FAILURE)`); `run` is line 87,
where the simulation is created from `input_file` and `override_seed_ptr`. -/
inductive MainOutcome where
  | usage_and_die
  | run (input_file : String) (override_seed_ptr : Option Int) (keep_time : Bool)
  deriving DecidableEq, Repr

/-- The argument loop of `main` (lines 48-77) over the arguments still to be read; `none` is a
call of `PrintUsageAndDie()`. -/
def parse_arguments (atoi : String → Int) :
    List String → ParsedArguments → Option ParsedArguments
  | [], st => some st
  | arg :: rest, st =>
    if arg = "-seed" then
      match rest with
      | [] => none
      | value :: rest1 =>
        parse_arguments atoi rest1 { st with override_seed_ptr := some (atoi value) }
    else if arg = "-time" then parse_arguments atoi rest { st with keep_time := true }
    else if rest ≠ [] then none
    else parse_arguments atoi rest { st with input_file := some arg }

/-- The function `main` (lines 40-87) up to the creation of the simulation: the argument loop,
then the test of `input_file` (lines 80-81). -/
def main (atoi : String → Int) (args : List String) : MainOutcome :=
  match parse_arguments atoi args ⟨none, none, false⟩ with
  | none => MainOutcome.usage_and_die
  | some st =>
    match st.input_file with
    | none => MainOutcome.usage_and_die
    | some input_file => MainOutcome.run input_file st.override_seed_ptr st.keep_time

/-! ## Values stated by the specification -/

/-- The value the specification states for a genome scanned on its own with the given factor:
zero if some mutation with a non-zero selection coefficient has a factor that is zero or
negative, else the product of the factors of the mutations with a non-zero selection
coefficient. -/
def expectedUnpaired (factor : Mutation → ℚ) (l : List Mutation) : ℚ :=
  if ∃ m ∈ l, m.selection_coeff_ ≠ 0 ∧ factor m ≤ 0 then 0
  else ((l.filter (fun m => decide (m.selection_coeff_ ≠ 0))).map factor).prod

/-- The value the specification states for two non-null genomes whose applied factors are all
positive: for every genome-1 mutation with `s != 0`, `1 + s` if genome 2 holds a match and
the dominance-scaled factor otherwise; for every genome-2 mutation with `s != 0` and no match
in genome 1, the dominance-scaled factor. -/
def expectedFitnessProduct (mem : Memory) (g1 g2 : List Mutation) : ℚ :=
  ((g1.filter (fun a => decide (a.selection_coeff_ ≠ 0))).map
      (fun a => if hasMatch g2 a then 1 + a.selection_coeff_ else hetFactor mem a)).prod *
    ((g2.filter (fun b => decide (b.selection_coeff_ ≠ 0) && !hasMatch g1 b)).map
      (hetFactor mem)).prod

/-- No two mutations of the sequence have the same position, the same mutation type and an
equal selection coefficient. -/
def NoRepeatedValue (l : List Mutation) : Prop :=
  l.Pairwise (fun a b => ¬ (a.position_ = b.position_ ∧
    a.mutation_type_ptr_ = b.mutation_type_ptr_ ∧ a.selection_coeff_ = b.selection_coeff_))

/-- The layout the specification states for a buffer of a sex-enabled generation when the
modeled chromosome is X or Y: females (individuals below the first male index) hold two X
genomes, males an X and a Y; every genome is an X or a Y, an X genome is null iff X is not
modeled, a Y genome is null iff Y is not modeled. -/
def SexChromosomeLayout (modeled : GenomeType) (buffer : List Genome)
    (first_male_index size : Int) : Prop :=
  (∀ i : Nat, (i : Int) < first_male_index →
    ∃ g1 g2, buffer[2 * i]? = some g1 ∧ buffer[2 * i + 1]? = some g2 ∧
      g1.genome_type_ = GenomeType.kXChromosome ∧ g2.genome_type_ = GenomeType.kXChromosome) ∧
  (∀ i : Nat, first_male_index ≤ (i : Int) → (i : Int) < size →
    ∃ g1 g2, buffer[2 * i]? = some g1 ∧ buffer[2 * i + 1]? = some g2 ∧
      g1.genome_type_ = GenomeType.kXChromosome ∧ g2.genome_type_ = GenomeType.kYChromosome) ∧
  (∀ g ∈ buffer,
    (g.genome_type_ = GenomeType.kXChromosome ∧
      (g.is_null_ = true ↔ modeled ≠ GenomeType.kXChromosome)) ∨
    (g.genome_type_ = GenomeType.kYChromosome ∧
      (g.is_null_ = true ↔ modeled ≠ GenomeType.kYChromosome)))

/-- One option of the command line: `-time`, or `-seed` followed by one argument. -/
inductive OptionGroup : List String → Prop where
  | time : OptionGroup ["-time"]
  | seed (value : String) : OptionGroup ["-seed", value]

/-- The form `( '-time' | '-seed' <any one argument> )* <parameter file>` of an argument list,
with a parameter file that is neither `-seed` nor `-time`. -/
def UsageForm (args : List String) : Prop :=
  ∃ (groups : List (List String)) (file : String),
    (∀ g ∈ groups, OptionGroup g) ∧ file ≠ "-seed" ∧ file ≠ "-time" ∧
      args = groups.flatten ++ [file]

/-! ## Example data -/

/-- An example memory. Mutation types: address 0 has dominance 1/2, every other address
dominance 1. Mutation records: see the table in the body. -/
def exMem : Memory where
  mutation_type := fun a => if a = 0 then ⟨1 / 2⟩ else ⟨1⟩
  mutation := fun a =>
    match a with
    | 0 => ⟨0, 100, -1 / 10⟩
    | 1 => ⟨0, 100, -1 / 10⟩
    | 2 => ⟨0, 50, 1 / 5⟩
    | 3 => ⟨1, 100, -1 / 10⟩
    | 4 => ⟨0, 100, -2⟩
    | 5 => ⟨0, 100, -2⟩
    | 6 => ⟨0, 200, -3⟩
    | 7 => ⟨0, 100, 1⟩
    | 8 => ⟨0, 100, 1⟩
    | 9 => ⟨0, 100, 1⟩
    | 10 => ⟨1, 100, -2⟩
    | _ => ⟨0, 0, 0⟩

/-- A sex-disabled subpopulation with the given X-dominance coefficient and parent genomes;
the child buffer holds default genomes. -/
def exSubpop (xd : ℚ) (parents : List Genome) : Subpopulation where
  sex_enabled_ := false
  parent_subpop_size_ := parents.length / 2
  child_subpop_size_ := parents.length / 2
  parent_sex_ratio_ := 0
  child_sex_ratio_ := 0
  parent_first_male_index_ := 0
  child_first_male_index_ := 0
  modeled_chromosome_type_ := GenomeType.kAutosome
  x_chromosome_dominance_coeff_ := xd
  parent_genomes_ := parents
  child_genomes_ := List.replicate parents.length ⟨GenomeType.kAutosome, false, []⟩
  lookup_parent_ := []
  lookup_female_parent_ := []
  lookup_male_parent_ := []

/-- A sex-enabled subpopulation whose two generations have the given size and sex ratio, with
empty buffers and first male indices not yet set. -/
def exSexSubpop (size : Int) (ratio : ℚ) (modeled : GenomeType) : Subpopulation where
  sex_enabled_ := true
  parent_subpop_size_ := size
  child_subpop_size_ := size
  parent_sex_ratio_ := ratio
  child_sex_ratio_ := ratio
  parent_first_male_index_ := 0
  child_first_male_index_ := 0
  modeled_chromosome_type_ := modeled
  x_chromosome_dominance_coeff_ := 1
  parent_genomes_ := []
  child_genomes_ := []
  lookup_parent_ := []
  lookup_female_parent_ := []
  lookup_male_parent_ := []

/-! ## Lemmas on traces -/

theorem runEvents_append (es1 es2 : List Event) (w : ℚ) :
    runEvents (es1 ++ es2) w =
      match runEvents es1 w with
      | none => none
      | some w1 => runEvents es2 w1 := by
  induction es1 generalizing w with
  | nil => simp [runEvents]
  | cons e es ih =>
    simp only [List.cons_append, runEvents]
    cases e.apply w with
    | none => rfl
    | some w1 => simp [ih]

/-- The outcome of a trace started from a non-negative `w`, when no untested factor is
negative. -/
theorem runEvents_spec (es : List Event) :
    ∀ w : ℚ, 0 ≤ w → (∀ f, Event.hom f ∈ es → 0 ≤ f) →
      (runEvents es w = none ∧
        ((∃ e ∈ es, e.lethal = true) ∨ w * (es.map Event.factor).prod = 0)) ∨
      (∃ v, runEvents es w = some v ∧ (∀ e ∈ es, e.lethal = false) ∧
        v = w * (es.map Event.factor).prod ∧ 0 ≤ v) := by
  induction es with
  | nil =>
    intro w hw _
    right
    exact ⟨w, rfl, by simp, by simp, hw⟩
  | cons e es ih =>
    intro w hw hhom
    have hhom1 : ∀ f, Event.hom f ∈ es → 0 ≤ f := fun f hf => hhom f (List.mem_cons_of_mem _ hf)
    cases e with
    | skip =>
      rcases ih w hw hhom1 with ⟨h1, h2⟩ | ⟨v, h1, h2, h3, h4⟩
      · left
        refine ⟨by simp [runEvents, Event.apply, h1], ?_⟩
        rcases h2 with ⟨e, he, hl⟩ | h2
        · exact Or.inl ⟨e, List.mem_cons_of_mem _ he, hl⟩
        · right
          simpa [Event.factor] using h2
      · right
        refine ⟨v, by simp [runEvents, Event.apply, h1], ?_, by simpa [Event.factor] using h3, h4⟩
        intro e he
        rcases List.mem_cons.1 he with rfl | he
        · rfl
        · exact h2 e he
    | hom f =>
      have hf : 0 ≤ f := hhom f (List.mem_cons_self _ _)
      rcases ih (w * f) (mul_nonneg hw hf) hhom1 with ⟨h1, h2⟩ | ⟨v, h1, h2, h3, h4⟩
      · left
        refine ⟨by simp [runEvents, Event.apply, h1], ?_⟩
        rcases h2 with ⟨e, he, hl⟩ | h2
        · exact Or.inl ⟨e, List.mem_cons_of_mem _ he, hl⟩
        · right
          simpa [Event.factor, mul_assoc] using h2
      · right
        refine ⟨v, by simp [runEvents, Event.apply, h1], ?_,
          by simpa [Event.factor, mul_assoc] using h3, h4⟩
        intro e he
        rcases List.mem_cons.1 he with rfl | he
        · rfl
        · exact h2 e he
    | het f =>
      by_cases hwf : w * f ≤ 0
      · left
        refine ⟨by simp [runEvents, Event.apply, hwf], ?_⟩
        by_cases hf : f ≤ 0
        · exact Or.inl ⟨Event.het f, List.mem_cons_self _ _, by simp [Event.lethal, hf]⟩
        · right
          have hf1 : 0 < f := lt_of_not_le hf
          have hw0 : w * f = 0 := le_antisymm hwf (mul_nonneg hw hf1.le)
          simp [Event.factor, ← mul_assoc, hw0]
      · have hpos : 0 < w * f := lt_of_not_le hwf
        have hf : 0 < f := by
          rcases lt_or_ge 0 f with h | h
          · exact h
          · exact absurd (mul_nonpos_of_nonneg_of_nonpos hw h) hwf
        rcases ih (w * f) hpos.le hhom1 with ⟨h1, h2⟩ | ⟨v, h1, h2, h3, h4⟩
        · left
          refine ⟨by simp [runEvents, Event.apply, hwf, h1], ?_⟩
          rcases h2 with ⟨e, he, hl⟩ | h2
          · exact Or.inl ⟨e, List.mem_cons_of_mem _ he, hl⟩
          · right
            simpa [Event.factor, mul_assoc] using h2
        · right
          refine ⟨v, by simp [runEvents, Event.apply, hwf, h1], ?_,
            by simpa [Event.factor, mul_assoc] using h3, h4⟩
          intro e he
          rcases List.mem_cons.1 he with rfl | he
          · simp [Event.lethal, hf]
          · exact h2 e he

/-- The value returned after a trace started from `w = 1.0`. -/
theorem runEvents_value (es : List Event) (hhom : ∀ f, Event.hom f ∈ es → 0 ≤ f) :
    (runEvents es 1).getD 0 = traceValue es := by
  unfold traceValue
  rcases runEvents_spec es 1 zero_le_one hhom with ⟨h1, h2⟩ | ⟨v, h1, h2, h3, _⟩
  · rw [h1]
    rcases h2 with ⟨e, he, hl⟩ | h2
    · have : es.any Event.lethal = true := List.any_eq_true.2 ⟨e, he, hl⟩
      simp [this]
    · by_cases hany : es.any Event.lethal = true
      · simp [hany]
      · simp only [hany, Option.getD_none]
        simpa using h2.symm
  · rw [h1]
    have : es.any Event.lethal = false := by
      rw [List.any_eq_false]
      intro e he
      simp [h2 e he]
    simp [this, h3]

/-- The value of a trace depends only on the multiset of its events. -/
theorem traceValue_perm {es1 es2 : List Event} (h : es1.Perm es2) :
    traceValue es1 = traceValue es2 := by
  unfold traceValue
  have h1 : es1.any Event.lethal = es2.any Event.lethal := by
    rw [Bool.eq_iff_iff, List.any_eq_true, List.any_eq_true]
    constructor
    · rintro ⟨e, he, hl⟩
      exact ⟨e, h.mem_iff.1 he, hl⟩
    · rintro ⟨e, he, hl⟩
      exact ⟨e, h.mem_iff.2 he, hl⟩
  rw [h1, (h.map Event.factor).prod_eq]

/-- A simple scan loop is the trace of its scan events. -/
theorem scanLoop_eq_runEvents (factor : Mutation → ℚ) (l : List Mutation) (w : ℚ) :
    scanLoop factor l w = runEvents (l.map (scanEvent factor)) w := by
  induction l generalizing w with
  | nil => rfl
  | cons m rest ih =>
    by_cases hs : m.selection_coeff_ = 0
    · simp [scanLoop, scanEvent, runEvents, Event.apply, hs, ih]
    · by_cases hw : w * factor m ≤ 0
      · simp [scanLoop, scanEvent, runEvents, Event.apply, hs, hw]
      · simp [scanLoop, scanEvent, runEvents, Event.apply, hs, hw, ih]

/-! ## Lemmas on the merge -/

theorem mergeLoop_nil_left (mem : Memory) (g2 : List Mutation) (w : ℚ) :
    mergeLoop mem [] g2 w = some ([], g2, w) := by
  rw [mergeLoop]
  intro m1 r1 m2 r2 h
  cases h

theorem mergeLoop_nil_right (mem : Memory) (g1 : List Mutation) (w : ℚ) :
    mergeLoop mem g1 [] w = some (g1, [], w) := by
  rw [mergeLoop]
  intro m1 r1 m2 r2 _ h
  cases h

theorem mergeLoop_lt (mem : Memory) (m1 m2 : Mutation) (r1 r2 : List Mutation) (w : ℚ)
    (h : m1.position_ < m2.position_) :
    mergeLoop mem (m1 :: r1) (m2 :: r2) w =
      match leading_step mem m1 w with
      | none => none
      | some w1 => mergeLoop mem r1 (m2 :: r2) w1 := by
  rw [mergeLoop]
  simp only [h, if_true]

theorem mergeLoop_gt (mem : Memory) (m1 m2 : Mutation) (r1 r2 : List Mutation) (w : ℚ)
    (h : m2.position_ < m1.position_) :
    mergeLoop mem (m1 :: r1) (m2 :: r2) w =
      match leading_step mem m2 w with
      | none => none
      | some w1 => mergeLoop mem (m1 :: r1) r2 w1 := by
  rw [mergeLoop]
  have h1 : ¬ m1.position_ < m2.position_ := not_lt.2 h.le
  simp only [h1, if_false, gt_iff_lt, h, if_true]

theorem mergeLoop_tie (mem : Memory) (m1 m2 : Mutation) (r1 r2 : List Mutation) (w : ℚ)
    (h : m1.position_ = m2.position_) :
    mergeLoop mem (m1 :: r1) (m2 :: r2) w =
      match tiedRun (genome1_tied_step mem m1.position_ (m2 :: r2)) m1.position_
          (m1 :: r1) w with
      | none => none
      | some (g1, w1) =>
        match tiedRun (genome2_tied_step mem m1.position_ (m1 :: r1)) m1.position_
            (m2 :: r2) w1 with
        | none => none
        | some (g2, w2) => mergeLoop mem g1 g2 w2 := by
  rw [mergeLoop]
  have h1 : ¬ m1.position_ < m2.position_ := by rw [h]; exact lt_irrefl _
  have h2 : ¬ m1.position_ > m2.position_ := by rw [h]; exact lt_irrefl _
  simp only [h1, h2, if_false]
  split
  · rename_i e1
    simp only [e1]
  · rename_i g1 w1 e1
    simp only [e1]
    split
    · rename_i e2
      simp only [e2]
    · rename_i g2 w2 e2
      simp only [e2]

theorem mergeAll_nil_left (mem : Memory) (g2 : List Mutation) (w : ℚ) :
    mergeAll mem [] g2 w = scanLoop (hetFactor mem) g2 w := by
  simp [mergeAll, mergeLoop_nil_left, scanLoop]

theorem mergeAll_nil_right (mem : Memory) (g1 : List Mutation) (w : ℚ) :
    mergeAll mem g1 [] w = scanLoop (hetFactor mem) g1 w := by
  simp only [mergeAll, mergeLoop_nil_right]
  cases scanLoop (hetFactor mem) g1 w <;> simp [scanLoop]

theorem mergeAll_lt (mem : Memory) (m1 m2 : Mutation) (r1 r2 : List Mutation) (w : ℚ)
    (h : m1.position_ < m2.position_) :
    mergeAll mem (m1 :: r1) (m2 :: r2) w =
      match leading_step mem m1 w with
      | none => none
      | some w1 => mergeAll mem r1 (m2 :: r2) w1 := by
  simp only [mergeAll, mergeLoop_lt mem m1 m2 r1 r2 w h]
  cases leading_step mem m1 w <;> rfl

theorem mergeAll_gt (mem : Memory) (m1 m2 : Mutation) (r1 r2 : List Mutation) (w : ℚ)
    (h : m2.position_ < m1.position_) :
    mergeAll mem (m1 :: r1) (m2 :: r2) w =
      match leading_step mem m2 w with
      | none => none
      | some w1 => mergeAll mem (m1 :: r1) r2 w1 := by
  simp only [mergeAll, mergeLoop_gt mem m1 m2 r1 r2 w h]
  cases leading_step mem m2 w <;> rfl

theorem mergeAll_tie (mem : Memory) (m1 m2 : Mutation) (r1 r2 : List Mutation) (w : ℚ)
    (h : m1.position_ = m2.position_) :
    mergeAll mem (m1 :: r1) (m2 :: r2) w =
      match tiedRun (genome1_tied_step mem m1.position_ (m2 :: r2)) m1.position_
          (m1 :: r1) w with
      | none => none
      | some (g1, w1) =>
        match tiedRun (genome2_tied_step mem m1.position_ (m1 :: r1)) m1.position_
            (m2 :: r2) w1 with
        | none => none
        | some (g2, w2) => mergeAll mem g1 g2 w2 := by
  simp only [mergeAll, mergeLoop_tie mem m1 m2 r1 r2 w h]
  cases tiedRun (genome1_tied_step mem m1.position_ (m2 :: r2)) m1.position_ (m1 :: r1) w with
  | none => rfl
  | some x =>
    obtain ⟨g1, w1⟩ := x
    simp only
    cases tiedRun (genome2_tied_step mem m1.position_ (m1 :: r1)) m1.position_
        (m2 :: r2) w1 with
    | none => rfl
    | some y =>
      obtain ⟨g2, w2⟩ := y
      rfl

theorem leading_step_eq (mem : Memory) (m : Mutation) (w : ℚ) :
    leading_step mem m w = (scanEvent (hetFactor mem) m).apply w := by
  by_cases hs : m.selection_coeff_ = 0
  · simp [leading_step, scanEvent, Event.apply, hs]
  · simp [leading_step, scanEvent, Event.apply, hs]

/-- A tied run is the trace of the events of the mutations at the tied position, and leaves
the iterator at the first mutation past them. -/
theorem tiedRun_eq (step : Mutation → ℚ → Option ℚ) (ev : Mutation → Event)
    (hstep : ∀ m w, step m w = (ev m).apply w) (p : Int) :
    ∀ (r : List Mutation) (m : Mutation) (w : ℚ),
      tiedRun step p (m :: r) w =
        match runEvents ((m :: r.takeWhile (fun b => decide (b.position_ = p))).map ev) w with
        | none => none
        | some w1 => some (r.dropWhile (fun b => decide (b.position_ = p)), w1) := by
  intro r
  induction r with
  | nil =>
    intro m w
    simp only [tiedRun, hstep, List.takeWhile_nil, List.map_cons, List.map_nil, runEvents,
      List.dropWhile_nil]
    cases (ev m).apply w <;> rfl
  | cons m1 rest1 ih =>
    intro m w
    by_cases hp : m1.position_ = p
    · have hp1 : decide (m1.position_ = p) = true := by simp [hp]
      rw [List.takeWhile_cons_of_pos (p := fun b : Mutation => decide (b.position_ = p)) (a := m1) (l := rest1) hp1,
        List.dropWhile_cons_of_pos (p := fun b : Mutation => decide (b.position_ = p)) (a := m1) (l := rest1) hp1]
      rw [tiedRun]
      simp only [hstep, List.map_cons, runEvents]
      cases (ev m).apply w with
      | none => rfl
      | some w1 =>
        simp only [if_pos hp]
        rw [ih m1 w1]
        simp only [List.map_cons, runEvents]
    · have hp1 : ¬ (decide (m1.position_ = p) = true) := by simp [hp]
      rw [List.takeWhile_cons_of_neg (p := fun b : Mutation => decide (b.position_ = p)) (a := m1) (l := rest1) hp1,
        List.dropWhile_cons_of_neg (p := fun b : Mutation => decide (b.position_ = p)) (a := m1) (l := rest1) hp1]
      rw [tiedRun]
      simp only [hstep, List.map_cons, List.map_nil, runEvents]
      cases (ev m).apply w with
      | none => rfl
      | some w1 => simp only [if_neg hp]

theorem matchscan_eq_true_iff (p : Int) (tp : Nat) (s : ℚ) (g : List Mutation) :
    matchscan p tp s g = true ↔
      ∃ b ∈ g.takeWhile (fun b => decide (b.position_ = p)),
        tp = b.mutation_type_ptr_ ∧ s = b.selection_coeff_ := by
  induction g with
  | nil => simp [matchscan]
  | cons m rest ih =>
    by_cases hp : m.position_ = p
    · have hp1 : decide (m.position_ = p) = true := by simp [hp]
      rw [List.takeWhile_cons_of_pos (p := fun b : Mutation => decide (b.position_ = p)) (a := m) (l := rest) hp1, matchscan]
      simp only [if_pos hp]
      by_cases hm : tp = m.mutation_type_ptr_ ∧ s = m.selection_coeff_
      · simp only [if_pos hm, true_iff]
        exact ⟨m, List.mem_cons_self _ _, hm⟩
      · simp only [if_neg hm, ih]
        constructor
        · rintro ⟨b, hb, hb1⟩
          exact ⟨b, List.mem_cons_of_mem _ hb, hb1⟩
        · rintro ⟨b, hb, hb1⟩
          rcases List.mem_cons.1 hb with rfl | hb
          · exact absurd hb1 hm
          · exact ⟨b, hb, hb1⟩
    · have hp1 : ¬ (decide (m.position_ = p) = true) := by simp [hp]
      rw [List.takeWhile_cons_of_neg (p := fun b : Mutation => decide (b.position_ = p)) (a := m) (l := rest) hp1, matchscan]
      simp [hp]

theorem hasMatch_eq_true_iff (g : List Mutation) (a : Mutation) :
    hasMatch g a = true ↔ ∃ b ∈ g, b.position_ = a.position_ ∧
      b.mutation_type_ptr_ = a.mutation_type_ptr_ ∧ b.selection_coeff_ = a.selection_coeff_ := by
  simp [hasMatch]

theorem hasMatch_iff_mem (g : List Mutation) (a : Mutation) :
    hasMatch g a = true ↔ a ∈ g := by
  rw [hasMatch_eq_true_iff]
  constructor
  · rintro ⟨b, hb, h1, h2, h3⟩
    have : b = a := by
      cases a; cases b; simp_all
    exact this ▸ hb
  · intro h
    exact ⟨a, h, rfl, rfl, rfl⟩

theorem hasMatch_append (g g1 : List Mutation) (a : Mutation) :
    hasMatch (g ++ g1) a = (hasMatch g a || hasMatch g1 a) := by
  simp [hasMatch]

theorem hasMatch_eq_false_of_position (g : List Mutation) (a : Mutation)
    (h : ∀ b ∈ g, b.position_ ≠ a.position_) : hasMatch g a = false := by
  rw [← Bool.not_eq_true, hasMatch_eq_true_iff]
  rintro ⟨b, hb, h1, _⟩
  exact h b hb h1

/-- Past the tied run of a sorted genome every position is strictly larger. -/
theorem lt_of_mem_dropWhile (p : Int) (g : List Mutation) (hs : PositionSorted g)
    (hge : ∀ x ∈ g, p ≤ x.position_) :
    ∀ x ∈ g.dropWhile (fun b => decide (b.position_ = p)), p < x.position_ := by
  induction g with
  | nil => simp
  | cons m rest ih =>
    have hs1 := List.pairwise_cons.1 hs
    by_cases hp : m.position_ = p
    · have hp1 : decide (m.position_ = p) = true := by simp [hp]
      rw [List.dropWhile_cons_of_pos (p := fun b : Mutation => decide (b.position_ = p)) (a := m) (l := rest) hp1]
      exact ih hs1.2 (fun x hx => hge x (List.mem_cons_of_mem _ hx))
    · have hp1 : ¬ (decide (m.position_ = p) = true) := by simp [hp]
      rw [List.dropWhile_cons_of_neg (p := fun b : Mutation => decide (b.position_ = p)) (a := m) (l := rest) hp1]
      have hm : p < m.position_ := lt_of_le_of_ne (hge m (List.mem_cons_self _ _)) (Ne.symm hp)
      intro x hx
      rcases List.mem_cons.1 hx with rfl | hx
      · exact hm
      · exact lt_of_lt_of_le hm (hs1.1 x hx)

/-- On a sorted genome whose iterator stands at the tied position, the match scan finds
exactly the matches the whole remaining genome holds. -/
theorem matchscan_eq_hasMatch (g : List Mutation) (a : Mutation) (hs : PositionSorted g)
    (hge : ∀ x ∈ g, a.position_ ≤ x.position_) :
    matchscan a.position_ a.mutation_type_ptr_ a.selection_coeff_ g = hasMatch g a := by
  rw [Bool.eq_iff_iff, matchscan_eq_true_iff, hasMatch_eq_true_iff]
  constructor
  · rintro ⟨b, hb, h1, h2⟩
    refine ⟨b, (List.takeWhile_sublist _).subset hb, ?_, h1.symm, h2.symm⟩
    simpa using List.mem_takeWhile_imp hb
  · rintro ⟨b, hb, h1, h2, h3⟩
    refine ⟨b, ?_, h2.symm, h3.symm⟩
    rw [← List.takeWhile_append_dropWhile (fun b => decide (b.position_ = a.position_)) g] at hb
    rcases List.mem_append.1 hb with hb | hb
    · exact hb
    · have := lt_of_mem_dropWhile a.position_ g hs hge b hb
      omega

theorem genome1_tied_step_eq (mem : Memory) (p : Int) (g2 : List Mutation) (m : Mutation)
    (w : ℚ) : genome1_tied_step mem p g2 m w = (tiedEvent1 mem p g2 m).apply w := by
  unfold genome1_tied_step tiedEvent1
  by_cases hs : m.selection_coeff_ = 0
  · simp [hs, Event.apply]
  · by_cases hm : matchscan p m.mutation_type_ptr_ m.selection_coeff_ g2 = true
    · simp [hs, hm, Event.apply]
    · simp [hs, hm, Event.apply]

theorem genome2_tied_step_eq (mem : Memory) (p : Int) (g1 : List Mutation) (m : Mutation)
    (w : ℚ) : genome2_tied_step mem p g1 m w = (tiedEvent2 mem p g1 m).apply w := by
  unfold genome2_tied_step tiedEvent2
  by_cases hs : m.selection_coeff_ = 0
  · simp [hs, Event.apply]
  · by_cases hm : matchscan p m.mutation_type_ptr_ m.selection_coeff_ g1 = true
    · simp [hs, hm, Event.apply]
    · simp [hs, hm, Event.apply]

theorem tiedEvent1_eq (mem : Memory) (g2 : List Mutation) (m : Mutation)
    (hs : PositionSorted g2) (hge : ∀ x ∈ g2, m.position_ ≤ x.position_) :
    tiedEvent1 mem m.position_ g2 m = genome1Event mem g2 m := by
  simp only [tiedEvent1, genome1Event, matchscan_eq_hasMatch g2 m hs hge]

theorem tiedEvent2_eq (mem : Memory) (g1 : List Mutation) (m : Mutation)
    (hs : PositionSorted g1) (hge : ∀ x ∈ g1, m.position_ ≤ x.position_) :
    tiedEvent2 mem m.position_ g1 m = genome2Event mem g1 m := by
  simp only [tiedEvent2, genome2Event, matchscan_eq_hasMatch g1 m hs hge]

theorem genome1Event_of_position_ne (mem : Memory) (g2 : List Mutation) (a : Mutation)
    (h : ∀ b ∈ g2, b.position_ ≠ a.position_) :
    genome1Event mem g2 a = scanEvent (hetFactor mem) a := by
  simp [genome1Event, scanEvent, hasMatch_eq_false_of_position g2 a h]

theorem genome2Event_of_position_ne (mem : Memory) (g1 : List Mutation) (b : Mutation)
    (h : ∀ a ∈ g1, a.position_ ≠ b.position_) :
    genome2Event mem g1 b = scanEvent (hetFactor mem) b := by
  simp [genome2Event, scanEvent, hasMatch_eq_false_of_position g1 b h]

/-- Mutations of the other genome at other positions do not change a genome-1 event. -/
theorem genome1Event_append_left (mem : Memory) (g g2 : List Mutation) (a : Mutation)
    (h : ∀ b ∈ g, b.position_ ≠ a.position_) :
    genome1Event mem (g ++ g2) a = genome1Event mem g2 a := by
  simp [genome1Event, hasMatch_append, hasMatch_eq_false_of_position g a h]

/-- Mutations of the other genome at other positions do not change a genome-2 event. -/
theorem genome2Event_append_left (mem : Memory) (g g1 : List Mutation) (b : Mutation)
    (h : ∀ a ∈ g, a.position_ ≠ b.position_) :
    genome2Event mem (g ++ g1) b = genome2Event mem g1 b := by
  simp [genome2Event, hasMatch_append, hasMatch_eq_false_of_position g b h]

/-- On sorted genomes the merge applies, in some order, exactly one event per mutation: the
genome-1 event of every genome-1 mutation and the genome-2 event of every genome-2
mutation. -/
theorem mergeAll_trace (mem : Memory) :
    ∀ (n : Nat) (g1 g2 : List Mutation), g1.length + g2.length ≤ n →
      PositionSorted g1 → PositionSorted g2 →
      ∃ es : List Event,
        es.Perm (g1.map (genome1Event mem g2) ++ g2.map (genome2Event mem g1)) ∧
        ∀ w, mergeAll mem g1 g2 w = runEvents es w := by
  intro n
  induction n with
  | zero =>
    intro g1 g2 hlen _ _
    have h1 : g1 = [] := List.length_eq_zero.1 (by omega)
    have h2 : g2 = [] := List.length_eq_zero.1 (by omega)
    subst h1 h2
    exact ⟨[], by simp, fun w => by simp [mergeAll_nil_left, scanLoop, runEvents]⟩
  | succ n ih =>
    intro g1 g2 hlen hs1 hs2
    cases g1 with
    | nil =>
      refine ⟨g2.map (scanEvent (hetFactor mem)), ?_, fun w => ?_⟩
      · have : g2.map (genome2Event mem []) = g2.map (scanEvent (hetFactor mem)) :=
          List.map_congr_left (fun b _ => genome2Event_of_position_ne mem [] b (by simp))
        simp [this]
      · rw [mergeAll_nil_left, scanLoop_eq_runEvents]
    | cons m1 r1 =>
      cases g2 with
      | nil =>
        refine ⟨(m1 :: r1).map (scanEvent (hetFactor mem)), ?_, fun w => ?_⟩
        · have : (m1 :: r1).map (genome1Event mem []) =
              (m1 :: r1).map (scanEvent (hetFactor mem)) :=
            List.map_congr_left (fun a _ => genome1Event_of_position_ne mem [] a (by simp))
          simp only [this, List.map_nil, List.append_nil]
          exact List.Perm.refl _
        · rw [mergeAll_nil_right, scanLoop_eq_runEvents]
      | cons m2 r2 =>
        have hs1c := List.pairwise_cons.1 hs1
        have hs2c := List.pairwise_cons.1 hs2
        simp only [List.length_cons] at hlen
        rcases lt_trichotomy m1.position_ m2.position_ with hlt | heq | hgt
        · -- genome 1 leads
          obtain ⟨es, hperm, hrun⟩ := ih r1 (m2 :: r2) (by simp only [List.length_cons]; omega)
            hs1c.2 hs2
          have hge2 : ∀ b ∈ m2 :: r2, m1.position_ < b.position_ := by
            intro b hb
            rcases List.mem_cons.1 hb with rfl | hb
            · exact hlt
            · exact lt_of_lt_of_le hlt (hs2c.1 b hb)
          have e1 : genome1Event mem (m2 :: r2) m1 = scanEvent (hetFactor mem) m1 :=
            genome1Event_of_position_ne mem _ m1 (fun b hb => (hge2 b hb).ne')
          have e2 : (m2 :: r2).map (genome2Event mem (m1 :: r1)) =
              (m2 :: r2).map (genome2Event mem r1) :=
            List.map_congr_left (fun b hb =>
              genome2Event_append_left mem [m1] r1 b (by
                intro a ha
                rw [List.mem_singleton.1 ha]
                exact (hge2 b hb).ne))
          refine ⟨scanEvent (hetFactor mem) m1 :: es, ?_, fun w => ?_⟩
          · rw [e2, List.map_cons, e1, List.cons_append]
            exact hperm.cons _
          · rw [mergeAll_lt mem m1 m2 r1 r2 w hlt, leading_step_eq, runEvents]
            cases (scanEvent (hetFactor mem) m1).apply w with
            | none => rfl
            | some w1 => exact hrun w1
        · -- tied positions
          let q : Mutation → Bool := fun b => decide (b.position_ = m1.position_)
          have hsplit1 : m1 :: r1 = (m1 :: r1.takeWhile q) ++ r1.dropWhile q := by
            rw [List.cons_append, List.takeWhile_append_dropWhile]
          have hsplit2 : m2 :: r2 = (m2 :: r2.takeWhile q) ++ r2.dropWhile q := by
            rw [List.cons_append, List.takeWhile_append_dropWhile]
          have hrun1 : ∀ a ∈ m1 :: r1.takeWhile q, a.position_ = m1.position_ := by
            intro a ha
            rcases List.mem_cons.1 ha with rfl | ha
            · rfl
            · simpa [q] using List.mem_takeWhile_imp ha
          have hrun2 : ∀ b ∈ m2 :: r2.takeWhile q, b.position_ = m1.position_ := by
            intro b hb
            rcases List.mem_cons.1 hb with rfl | hb
            · exact heq.symm
            · simpa [q] using List.mem_takeWhile_imp hb
          have hrest1 : ∀ a ∈ r1.dropWhile q, m1.position_ < a.position_ :=
            lt_of_mem_dropWhile m1.position_ r1 hs1c.2 hs1c.1
          have hrest2 : ∀ b ∈ r2.dropWhile q, m1.position_ < b.position_ :=
            lt_of_mem_dropWhile m1.position_ r2 hs2c.2 (fun x hx => heq ▸ hs2c.1 x hx)
          have hall1 : ∀ x ∈ m1 :: r1, m1.position_ ≤ x.position_ := by
            intro x hx
            rcases List.mem_cons.1 hx with rfl | hx
            · exact le_refl _
            · exact hs1c.1 x hx
          have hall2 : ∀ x ∈ m2 :: r2, m1.position_ ≤ x.position_ := by
            intro x hx
            rcases List.mem_cons.1 hx with rfl | hx
            · exact heq.le
            · exact heq ▸ hs2c.1 x hx
          have hlen1 : (r1.dropWhile q).length ≤ r1.length :=
            (List.dropWhile_sublist q).length_le
          have hlen2 : (r2.dropWhile q).length ≤ r2.length :=
            (List.dropWhile_sublist q).length_le
          obtain ⟨es, hperm, hrun⟩ := ih (r1.dropWhile q) (r2.dropWhile q) (by omega)
            (hs1c.2.sublist (List.dropWhile_sublist q)) (hs2c.2.sublist (List.dropWhile_sublist q))
          -- the events of the two tied runs, as the code decides them
          have ev1 : (m1 :: r1.takeWhile q).map (tiedEvent1 mem m1.position_ (m2 :: r2)) =
              (m1 :: r1.takeWhile q).map (genome1Event mem (m2 :: r2)) :=
            List.map_congr_left (fun a ha => by
              have hp := hrun1 a ha
              rw [← hp]
              exact tiedEvent1_eq mem _ a hs2 (fun x hx => hp ▸ hall2 x hx))
          have ev2 : (m2 :: r2.takeWhile q).map (tiedEvent2 mem m1.position_ (m1 :: r1)) =
              (m2 :: r2.takeWhile q).map (genome2Event mem (m1 :: r1)) :=
            List.map_congr_left (fun b hb => by
              have hp := hrun2 b hb
              rw [← hp]
              exact tiedEvent2_eq mem _ b hs1 (fun x hx => hp ▸ hall1 x hx))
          -- the events of the mutations past the tied runs
          have ev3 : (r1.dropWhile q).map (genome1Event mem (r2.dropWhile q)) =
              (r1.dropWhile q).map (genome1Event mem (m2 :: r2)) :=
            List.map_congr_left (fun a ha => by
              conv_rhs => rw [hsplit2]
              exact (genome1Event_append_left mem _ _ a (fun b hb => by
                rw [hrun2 b hb]
                exact (hrest1 a ha).ne)).symm)
          have ev4 : (r2.dropWhile q).map (genome2Event mem (r1.dropWhile q)) =
              (r2.dropWhile q).map (genome2Event mem (m1 :: r1)) :=
            List.map_congr_left (fun b hb => by
              conv_rhs => rw [hsplit1]
              exact (genome2Event_append_left mem _ _ b (fun a ha => by
                rw [hrun1 a ha]
                exact (hrest2 b hb).ne)).symm)
          have hmap1 : (m1 :: r1).map (genome1Event mem (m2 :: r2)) =
              (m1 :: r1.takeWhile q).map (genome1Event mem (m2 :: r2)) ++
                (r1.dropWhile q).map (genome1Event mem (m2 :: r2)) := by
            rw [← List.map_append, ← hsplit1]
          have hmap2 : (m2 :: r2).map (genome2Event mem (m1 :: r1)) =
              (m2 :: r2.takeWhile q).map (genome2Event mem (m1 :: r1)) ++
                (r2.dropWhile q).map (genome2Event mem (m1 :: r1)) := by
            rw [← List.map_append, ← hsplit2]
          refine ⟨(m1 :: r1.takeWhile q).map (genome1Event mem (m2 :: r2)) ++
            ((m2 :: r2.takeWhile q).map (genome2Event mem (m1 :: r1)) ++ es), ?_, fun w => ?_⟩
          · rw [ev3, ev4] at hperm
            rw [hmap1, hmap2]
            refine ((hperm.append_left _).append_left _).trans ?_
            rw [List.perm_iff_count]
            intro e
            simp only [List.count_append]
            omega
          · rw [mergeAll_tie mem m1 m2 r1 r2 w heq,
              tiedRun_eq _ _ (genome1_tied_step_eq mem m1.position_ (m2 :: r2)) m1.position_ r1 m1 w,
              ev1, runEvents_append]
            cases runEvents ((m1 :: r1.takeWhile q).map (genome1Event mem (m2 :: r2))) w with
            | none => rfl
            | some w1 =>
              simp only
              rw [tiedRun_eq _ _ (genome2_tied_step_eq mem m1.position_ (m1 :: r1)) m1.position_
                r2 m2 w1, ev2, runEvents_append]
              cases runEvents ((m2 :: r2.takeWhile q).map (genome2Event mem (m1 :: r1))) w1 with
              | none => rfl
              | some w2 => exact hrun w2
        · -- genome 2 leads
          obtain ⟨es, hperm, hrun⟩ := ih (m1 :: r1) r2 (by simp only [List.length_cons]; omega)
            hs1 hs2c.2
          have hge1 : ∀ a ∈ m1 :: r1, m2.position_ < a.position_ := by
            intro a ha
            rcases List.mem_cons.1 ha with rfl | ha
            · exact hgt
            · exact lt_of_lt_of_le hgt (hs1c.1 a ha)
          have e1 : genome2Event mem (m1 :: r1) m2 = scanEvent (hetFactor mem) m2 :=
            genome2Event_of_position_ne mem _ m2 (fun a ha => (hge1 a ha).ne')
          have e2 : (m1 :: r1).map (genome1Event mem (m2 :: r2)) =
              (m1 :: r1).map (genome1Event mem r2) :=
            List.map_congr_left (fun a ha =>
              genome1Event_append_left mem [m2] r2 a (by
                intro b hb
                rw [List.mem_singleton.1 hb]
                exact (hge1 a ha).ne))
          refine ⟨scanEvent (hetFactor mem) m2 :: es, ?_, fun w => ?_⟩
          · rw [e2, List.map_cons (genome2Event mem (m1 :: r1)), e1]
            exact (hperm.cons _).trans List.perm_middle.symm
          · rw [mergeAll_gt mem m1 m2 r1 r2 w hgt, leading_step_eq, runEvents]
            cases (scanEvent (hetFactor mem) m2).apply w with
            | none => rfl
            | some w1 => exact hrun w1

/-! ## Lemmas on the fitness of two genomes -/

theorem fitnessOfGenomes_both_null (mem : Memory) (xd : ℚ) (genome1 genome2 : Genome)
    (h1 : genome1.is_null_ = true) (h2 : genome2.is_null_ = true) :
    fitnessOfGenomes mem xd genome1 genome2 = 1 := by
  simp [fitnessOfGenomes, h1, h2]

theorem fitnessOfGenomes_nonnull (mem : Memory) (xd : ℚ) (genome1 genome2 : Genome)
    (h1 : genome1.is_null_ = false) (h2 : genome2.is_null_ = false) :
    fitnessOfGenomes mem xd genome1 genome2 =
      (mergeAll mem (genome1.records mem) (genome2.records mem) 1).getD 0 := by
  simp only [fitnessOfGenomes, mergeAll, h1, h2]
  cases mergeLoop mem (genome1.records mem) (genome2.records mem) 1 with
  | none => simp
  | some x =>
    obtain ⟨g1, g2, w⟩ := x
    simp only
    cases scanLoop (hetFactor mem) g1 w <;> simp

/-- A scan never applies an untested factor. -/
theorem hom_not_mem_scanEvents (factor : Mutation → ℚ) (l : List Mutation) (f : ℚ) :
    Event.hom f ∉ l.map (scanEvent factor) := by
  intro h
  obtain ⟨m, _, hm⟩ := List.mem_map.1 h
  unfold scanEvent at hm
  split at hm <;> cases hm

/-- The value of a simple scan loop started from `w = 1.0`. -/
theorem scanLoop_value (factor : Mutation → ℚ) (l : List Mutation) :
    (scanLoop factor l 1).getD 0 = traceValue (l.map (scanEvent factor)) := by
  rw [scanLoop_eq_runEvents]
  exact runEvents_value _ (fun f hf => absurd hf (hom_not_mem_scanEvents factor l f))

/-- The fitness when genome 2 is null and genome 1 is an unpaired X. -/
theorem fitnessOfGenomes_unpaired_left (mem : Memory) (xd : ℚ) (genome null2 : Genome)
    (h1 : genome.is_null_ = false) (h2 : null2.is_null_ = true) :
    fitnessOfGenomes mem xd genome null2 =
      if genome.genome_type_ = GenomeType.kXChromosome then
        traceValue ((genome.records mem).map
          (scanEvent (fun m => 1 + xd * m.selection_coeff_)))
      else traceValue ((genome.records mem).map (scanEvent (fun m => 1 + m.selection_coeff_))) := by
  simp only [fitnessOfGenomes, h1, h2, scanLoop_value]
  simp

/-- The fitness when genome 1 is null and genome 2 is unpaired. -/
theorem fitnessOfGenomes_unpaired_right (mem : Memory) (xd : ℚ) (null1 genome : Genome)
    (h1 : null1.is_null_ = true) (h2 : genome.is_null_ = false) :
    fitnessOfGenomes mem xd null1 genome =
      if genome.genome_type_ = GenomeType.kXChromosome then
        traceValue ((genome.records mem).map
          (scanEvent (fun m => 1 + xd * m.selection_coeff_)))
      else traceValue ((genome.records mem).map (scanEvent (fun m => 1 + m.selection_coeff_))) := by
  simp only [fitnessOfGenomes, h1, h2, scanLoop_value]
  simp

/-- The untested factors of a merge are the homozygous factors of genome 1. -/
theorem hom_mem_mergeEvents (mem : Memory) (g1 g2 : List Mutation) (f : ℚ)
    (h : Event.hom f ∈ g1.map (genome1Event mem g2) ++ g2.map (genome2Event mem g1)) :
    ∃ a ∈ g1, a.selection_coeff_ ≠ 0 ∧ hasMatch g2 a = true ∧ f = 1 + a.selection_coeff_ := by
  rcases List.mem_append.1 h with h | h
  · obtain ⟨a, ha, hm⟩ := List.mem_map.1 h
    unfold genome1Event at hm
    split at hm
    · cases hm
    · rename_i hs
      split at hm
      · rename_i hmatch
        cases hm
        exact ⟨a, ha, hs, hmatch, rfl⟩
      · cases hm
  · obtain ⟨b, _, hm⟩ := List.mem_map.1 h
    unfold genome2Event at hm
    split at hm
    · cases hm
    · split at hm <;> cases hm

/-- The fitness of two non-null sorted genomes in which no matched mutation has a selection
coefficient below `-1`: zero if some tested factor is zero or negative, else the product of
the factors of all events. -/
theorem fitnessOfGenomes_eq_traceValue (mem : Memory) (xd : ℚ) (genome1 genome2 : Genome)
    (h1 : genome1.is_null_ = false) (h2 : genome2.is_null_ = false)
    (hs1 : PositionSorted (genome1.records mem)) (hs2 : PositionSorted (genome2.records mem))
    (hhom : ∀ a ∈ genome1.records mem, a.selection_coeff_ ≠ 0 →
      hasMatch (genome2.records mem) a = true → 0 ≤ 1 + a.selection_coeff_) :
    fitnessOfGenomes mem xd genome1 genome2 =
      traceValue ((genome1.records mem).map (genome1Event mem (genome2.records mem)) ++
        (genome2.records mem).map (genome2Event mem (genome1.records mem))) := by
  rw [fitnessOfGenomes_nonnull mem xd genome1 genome2 h1 h2]
  obtain ⟨es, hperm, hrun⟩ := mergeAll_trace mem _ (genome1.records mem) (genome2.records mem)
    (le_refl _) hs1 hs2
  rw [hrun 1, ← traceValue_perm hperm]
  apply runEvents_value
  intro f hf
  obtain ⟨a, ha, hs, hm, rfl⟩ := hom_mem_mergeEvents mem _ _ f (hperm.mem_iff.1 hf)
  exact hhom a ha hs hm

theorem FitnessOfParentWithGenomeIndices_eq (sp : Subpopulation) (mem : Memory) (i j : Nat)
    (genome1 genome2 : Genome) (hi : sp.parent_genomes_[i]? = some genome1)
    (hj : sp.parent_genomes_[j]? = some genome2) :
    FitnessOfParentWithGenomeIndices sp mem i j =
      some (fitnessOfGenomes mem sp.x_chromosome_dominance_coeff_ genome1 genome2) := by
  simp [FitnessOfParentWithGenomeIndices, hi, hj]

theorem any_lethal_scanEvents (factor : Mutation → ℚ) (l : List Mutation) :
    (l.map (scanEvent factor)).any Event.lethal = true ↔
      ∃ m ∈ l, m.selection_coeff_ ≠ 0 ∧ factor m ≤ 0 := by
  rw [List.any_eq_true]
  constructor
  · rintro ⟨e, he, hl⟩
    obtain ⟨m, hm, rfl⟩ := List.mem_map.1 he
    refine ⟨m, hm, ?_⟩
    unfold scanEvent at hl
    split at hl
    · simp [Event.lethal] at hl
    · rename_i hs
      exact ⟨hs, by simpa [Event.lethal] using hl⟩
  · rintro ⟨m, hm, hs, hf⟩
    exact ⟨scanEvent factor m, List.mem_map_of_mem _ hm, by simp [scanEvent, hs, Event.lethal, hf]⟩

theorem prod_factor_scanEvents (factor : Mutation → ℚ) (l : List Mutation) :
    ((l.map (scanEvent factor)).map Event.factor).prod =
      ((l.filter (fun m => decide (m.selection_coeff_ ≠ 0))).map factor).prod := by
  induction l with
  | nil => rfl
  | cons m rest ih =>
    by_cases hs : m.selection_coeff_ = 0
    · have hd : decide (m.selection_coeff_ ≠ 0) = false := by simp [hs]
      rw [List.filter_cons]
      simp only [hd, List.map_cons, List.prod_cons, scanEvent, hs, if_true, Event.factor,
        one_mul, Bool.false_eq_true, if_false]
      exact ih
    · have hd : decide (m.selection_coeff_ ≠ 0) = true := by simp [hs]
      rw [List.filter_cons]
      simp only [hd, List.map_cons, List.prod_cons, scanEvent, hs, if_true, Event.factor,
        if_false]
      rw [ih]

/-- Leaving out the mutations with selection coefficient zero does not change a product of
factors that are 1 for them. -/
theorem prod_filter_nonzero (factor : Mutation → ℚ) (l : List Mutation)
    (h : ∀ m, m.selection_coeff_ = 0 → factor m = 1) :
    ((l.filter (fun m => decide (m.selection_coeff_ ≠ 0))).map factor).prod =
      (l.map factor).prod := by
  induction l with
  | nil => rfl
  | cons m rest ih =>
    by_cases hs : m.selection_coeff_ = 0
    · have hd : decide (m.selection_coeff_ ≠ 0) = false := by simp [hs]
      rw [List.filter_cons]
      simp only [hd, List.map_cons, List.prod_cons, h m hs, one_mul, Bool.false_eq_true,
        if_false]
      exact ih
    · have hd : decide (m.selection_coeff_ ≠ 0) = true := by simp [hs]
      rw [List.filter_cons]
      simp only [hd, List.map_cons, List.prod_cons, if_true]
      rw [ih]

/-- The value of a scan: zero if some applied factor is zero or negative, else the product
of the applied factors. -/
theorem traceValue_scanEvents (factor : Mutation → ℚ) (l : List Mutation) :
    traceValue (l.map (scanEvent factor)) =
      if ∃ m ∈ l, m.selection_coeff_ ≠ 0 ∧ factor m ≤ 0 then 0
      else ((l.filter (fun m => decide (m.selection_coeff_ ≠ 0))).map factor).prod := by
  unfold traceValue
  by_cases h : ∃ m ∈ l, m.selection_coeff_ ≠ 0 ∧ factor m ≤ 0
  · rw [if_pos ((any_lethal_scanEvents factor l).2 h), if_pos h]
  · rw [if_neg (fun hl => h ((any_lethal_scanEvents factor l).1 hl)), if_neg h,
      prod_factor_scanEvents]

theorem records_eq_of_mutation_eq (mem mem1 : Memory) (g : Genome)
    (h : mem1.mutation = mem.mutation) : g.records mem1 = g.records mem := by
  simp [Genome.records, h]

theorem lethal_genome1Event (mem : Memory) (g2 : List Mutation) (a : Mutation) :
    (genome1Event mem g2 a).lethal = true ↔
      a.selection_coeff_ ≠ 0 ∧ hasMatch g2 a = false ∧ hetFactor mem a ≤ 0 := by
  unfold genome1Event
  by_cases hs : a.selection_coeff_ = 0
  · simp [hs, Event.lethal]
  · by_cases hm : hasMatch g2 a = true
    · simp [hs, hm, Event.lethal]
    · simp [hs, hm, Event.lethal]

theorem lethal_genome2Event (mem : Memory) (g1 : List Mutation) (b : Mutation) :
    (genome2Event mem g1 b).lethal = true ↔
      b.selection_coeff_ ≠ 0 ∧ hasMatch g1 b = false ∧ hetFactor mem b ≤ 0 := by
  unfold genome2Event
  by_cases hs : b.selection_coeff_ = 0
  · simp [hs, Event.lethal]
  · by_cases hm : hasMatch g1 b = true
    · simp [hs, hm, Event.lethal]
    · simp [hs, hm, Event.lethal]

theorem prod_factor_genome1Events (mem : Memory) (g2 l : List Mutation) :
    ((l.map (genome1Event mem g2)).map Event.factor).prod =
      ((l.filter (fun a => decide (a.selection_coeff_ ≠ 0))).map
        (fun a => if hasMatch g2 a then 1 + a.selection_coeff_ else hetFactor mem a)).prod := by
  induction l with
  | nil => rfl
  | cons m rest ih =>
    rw [List.filter_cons]
    by_cases hs : m.selection_coeff_ = 0
    · have hd : decide (m.selection_coeff_ ≠ 0) = false := by simp [hs]
      simp only [hd, List.map_cons, List.prod_cons, genome1Event, hs, if_true, Event.factor,
        one_mul, Bool.false_eq_true, if_false]
      exact ih
    · have hd : decide (m.selection_coeff_ ≠ 0) = true := by simp [hs]
      simp only [hd, List.map_cons, List.prod_cons, genome1Event, hs, if_true, if_false]
      rw [← ih]
      by_cases hm : hasMatch g2 m = true
      · simp only [hm, if_true, Event.factor]
      · simp only [hm, if_false, Event.factor, Bool.false_eq_true]

theorem prod_factor_genome2Events (mem : Memory) (g1 l : List Mutation) :
    ((l.map (genome2Event mem g1)).map Event.factor).prod =
      ((l.filter (fun b => decide (b.selection_coeff_ ≠ 0) && !hasMatch g1 b)).map
        (hetFactor mem)).prod := by
  induction l with
  | nil => rfl
  | cons m rest ih =>
    rw [List.filter_cons]
    by_cases hs : m.selection_coeff_ = 0
    · have hd : (decide (m.selection_coeff_ ≠ 0) && !hasMatch g1 m) = false := by simp [hs]
      rw [hd]
      simp only [List.map_cons, List.prod_cons, genome2Event, hs, if_true, Event.factor,
        one_mul, Bool.false_eq_true, if_false]
      exact ih
    · by_cases hm : hasMatch g1 m = true
      · have hd : (decide (m.selection_coeff_ ≠ 0) && !hasMatch g1 m) = false := by simp [hm]
        rw [hd]
        simp only [List.map_cons, List.prod_cons, genome2Event, hs, hm, if_true,
          Event.factor, one_mul, Bool.false_eq_true, if_false]
        exact ih
      · have hd : (decide (m.selection_coeff_ ≠ 0) && !hasMatch g1 m) = true := by simp [hs, hm]
        rw [hd]
        simp only [List.map_cons, List.prod_cons, genome2Event, hs, hm, if_true,
          Event.factor, Bool.false_eq_true, if_false]
        rw [ih]

theorem hetFactor_of_zero (mem : Memory) (m : Mutation) (h : m.selection_coeff_ = 0) :
    hetFactor mem m = 1 := by
  simp [hetFactor, h]

theorem NoRepeatedValue.nodup {l : List Mutation} (h : NoRepeatedValue l) : l.Nodup := by
  unfold NoRepeatedValue at h
  exact List.Pairwise.imp (fun hab e => hab (by subst e; exact ⟨rfl, rfl, rfl⟩)) h

theorem lethal_genome1Event_eq (mem : Memory) (g : List Mutation) (a : Mutation) :
    (genome1Event mem g a).lethal = (genome2Event mem g a).lethal := by
  rw [Bool.eq_iff_iff, lethal_genome1Event, lethal_genome2Event]

/-- The factors of the genome-1 events are the homozygous factors of the matched mutations
times the factors the same mutations would have as genome-2 events. -/
theorem prod_factor_genome1Events_split (mem : Memory) (g l : List Mutation) :
    ((l.map (genome1Event mem g)).map Event.factor).prod =
      ((l.filter (fun a => hasMatch g a)).map
          (fun a => if a.selection_coeff_ = 0 then 1 else 1 + a.selection_coeff_)).prod *
        ((l.map (genome2Event mem g)).map Event.factor).prod := by
  induction l with
  | nil => simp
  | cons m rest ih =>
    rw [List.filter_cons]
    simp only [List.map_cons, List.prod_cons, ih]
    by_cases hm : hasMatch g m = true
    · by_cases hs : m.selection_coeff_ = 0
      · simp only [hm, if_true, List.map_cons, List.prod_cons, genome1Event, genome2Event, hs,
          Event.factor]
        ring
      · simp only [hm, if_true, List.map_cons, List.prod_cons, genome1Event, genome2Event, hs,
          if_false, Event.factor]
        ring
    · by_cases hs : m.selection_coeff_ = 0
      · simp only [hm, if_false, genome1Event, genome2Event, hs, if_true, Event.factor,
          Bool.false_eq_true]
        ring
      · simp only [hm, if_false, genome1Event, genome2Event, hs, Event.factor,
          Bool.false_eq_true]
        ring

/-- Without repeated values, the matched mutations of two genomes are the same up to order. -/
theorem matched_perm (g1 g2 : List Mutation) (hd1 : g1.Nodup) (hd2 : g2.Nodup) :
    (g1.filter (fun a => hasMatch g2 a)).Perm (g2.filter (fun a => hasMatch g1 a)) := by
  rw [List.perm_ext_iff_of_nodup (hd1.filter _) (hd2.filter _)]
  intro a
  simp only [List.mem_filter, hasMatch_iff_mem]
  exact and_comm

/-- Without repeated values, the value of the merge trace does not depend on which genome is
genome 1. -/
theorem traceValue_merge_comm (mem : Memory) (g1 g2 : List Mutation)
    (hd1 : g1.Nodup) (hd2 : g2.Nodup) :
    traceValue (g1.map (genome1Event mem g2) ++ g2.map (genome2Event mem g1)) =
      traceValue (g2.map (genome1Event mem g1) ++ g1.map (genome2Event mem g2)) := by
  have hl : ∀ g l : List Mutation, (l.map (genome1Event mem g)).any Event.lethal =
      (l.map (genome2Event mem g)).any Event.lethal := by
    intro g l
    induction l with
    | nil => rfl
    | cons m rest ih =>
      simp only [List.map_cons, List.any_cons, ih, lethal_genome1Event_eq]
  unfold traceValue
  rw [List.any_append, List.any_append, hl g2 g1, hl g1 g2,
    Bool.or_comm ((g2.map (genome2Event mem g1)).any Event.lethal)]
  simp only [List.map_append, List.prod_append, prod_factor_genome1Events_split,
    ((matched_perm g1 g2 hd1 hd2).map _).prod_eq]
  congr 1
  ring

/-- The fitness of two non-null sorted genomes without repeated values, in which no matched
mutation has a selection coefficient below `-1`, does not depend on the order of the two. -/
theorem fitnessOfGenomes_comm (mem : Memory) (xd : ℚ) (genome1 genome2 : Genome)
    (h1 : genome1.is_null_ = false) (h2 : genome2.is_null_ = false)
    (hs1 : PositionSorted (genome1.records mem)) (hs2 : PositionSorted (genome2.records mem))
    (hd1 : NoRepeatedValue (genome1.records mem)) (hd2 : NoRepeatedValue (genome2.records mem))
    (hhom : ∀ a ∈ genome1.records mem, hasMatch (genome2.records mem) a = true →
      -1 ≤ a.selection_coeff_) :
    fitnessOfGenomes mem xd genome1 genome2 = fitnessOfGenomes mem xd genome2 genome1 := by
  rw [fitnessOfGenomes_eq_traceValue mem xd genome1 genome2 h1 h2 hs1 hs2
      (fun a ha _ hm => by linarith [hhom a ha hm]),
    fitnessOfGenomes_eq_traceValue mem xd genome2 genome1 h2 h1 hs2 hs1
      (fun b hb _ hm => by
        have hb1 : b ∈ genome1.records mem := (hasMatch_iff_mem _ b).1 hm
        have hb2 : hasMatch (genome2.records mem) b = true := (hasMatch_iff_mem _ b).2 hb
        linarith [hhom b hb1 hb2])]
  exact traceValue_merge_comm mem _ _ hd1.nodup hd2.nodup

/-- The fitness with exactly one null genome does not depend on the slot of the null genome. -/
theorem fitnessOfGenomes_unpaired_comm (mem : Memory) (xd : ℚ) (genome null_genome : Genome)
    (h1 : genome.is_null_ = false) (h2 : null_genome.is_null_ = true) :
    fitnessOfGenomes mem xd genome null_genome = fitnessOfGenomes mem xd null_genome genome := by
  rw [fitnessOfGenomes_unpaired_left mem xd genome null_genome h1 h2,
    fitnessOfGenomes_unpaired_right mem xd null_genome genome h2 h1]

/-! ## Properties of `FitnessOfParentWithGenomeIndices` -/

/-- C6: if both genomes of an individual are null, the fitness is exactly 1.0, whatever the
types of the genomes and whatever the X-dominance coefficient of the subpopulation. -/
theorem fitness_both_null (sp : Subpopulation) (mem : Memory) (i j : Nat)
    (genome1 genome2 : Genome) (hi : sp.parent_genomes_[i]? = some genome1)
    (hj : sp.parent_genomes_[j]? = some genome2)
    (h1 : genome1.is_null_ = true) (h2 : genome2.is_null_ = true) :
    FitnessOfParentWithGenomeIndices sp mem i j = some 1 := by
  rw [FitnessOfParentWithGenomeIndices_eq sp mem i j genome1 genome2 hi hj,
    fitnessOfGenomes_both_null mem _ genome1 genome2 h1 h2]

/-- Witness of C6: a null X paired with a null Y (a male when neither X nor Y is the
modeled chromosome type of the pair), under X-dominance 3/10. -/
theorem fitness_both_null_witness :
    FitnessOfParentWithGenomeIndices
      (exSubpop (3 / 10) [⟨GenomeType.kXChromosome, true, []⟩,
        ⟨GenomeType.kYChromosome, true, []⟩]) exMem 0 1 = some 1 :=
  fitness_both_null _ exMem 0 1 ⟨GenomeType.kXChromosome, true, []⟩
    ⟨GenomeType.kYChromosome, true, []⟩ rfl rfl rfl rfl

/-- C7: when exactly one genome is null and the other is an X chromosome, the fitness is 0 if
some mutation with a non-zero selection coefficient `s` has `1 + xDominanceCoeff * s <= 0`,
and otherwise the product of `1 + xDominanceCoeff * s` over the mutations with `s != 0`,
whichever slot holds the null genome; the dominance coefficients of the mutation types do not
enter: any memory with the same mutation records gives the same fitness. -/
theorem fitness_unpaired_X (sp : Subpopulation) (mem : Memory) (i j : Nat)
    (genome null_genome : Genome) (hi : sp.parent_genomes_[i]? = some genome)
    (hj : sp.parent_genomes_[j]? = some null_genome)
    (hn : genome.is_null_ = false) (hz : null_genome.is_null_ = true)
    (hX : genome.genome_type_ = GenomeType.kXChromosome) :
    FitnessOfParentWithGenomeIndices sp mem i j =
        some (expectedUnpaired
          (fun m => 1 + sp.x_chromosome_dominance_coeff_ * m.selection_coeff_)
          (genome.records mem)) ∧
      FitnessOfParentWithGenomeIndices sp mem j i =
        FitnessOfParentWithGenomeIndices sp mem i j ∧
      ∀ mem1 : Memory, mem1.mutation = mem.mutation →
        FitnessOfParentWithGenomeIndices sp mem1 i j =
          FitnessOfParentWithGenomeIndices sp mem i j := by
  have key : ∀ m0 : Memory, FitnessOfParentWithGenomeIndices sp m0 i j =
      some (expectedUnpaired
        (fun m => 1 + sp.x_chromosome_dominance_coeff_ * m.selection_coeff_)
        (genome.records m0)) := by
    intro m0
    rw [FitnessOfParentWithGenomeIndices_eq sp m0 i j genome null_genome hi hj,
      fitnessOfGenomes_unpaired_left m0 _ genome null_genome hn hz, if_pos hX,
      traceValue_scanEvents]
    rfl
  refine ⟨key mem, ?_, fun mem1 h => ?_⟩
  · rw [key mem, FitnessOfParentWithGenomeIndices_eq sp mem j i null_genome genome hj hi,
      fitnessOfGenomes_unpaired_right mem _ null_genome genome hz hn, if_pos hX,
      traceValue_scanEvents]
    rfl
  · rw [key mem1, key mem, records_eq_of_mutation_eq mem mem1 genome h]

/-- Witness of C7: one mutation with `s = 0.2` of a type with dominance 0.5 on an unpaired X,
X-dominance 0.3: the fitness is 1.06. -/
theorem fitness_unpaired_X_witness :
    FitnessOfParentWithGenomeIndices
      (exSubpop (3 / 10) [⟨GenomeType.kXChromosome, false, [2]⟩,
        ⟨GenomeType.kYChromosome, true, []⟩]) exMem 0 1 = some (53 / 50) := by
  rw [(fitness_unpaired_X (exSubpop (3 / 10) [⟨GenomeType.kXChromosome, false, [2]⟩,
    ⟨GenomeType.kYChromosome, true, []⟩]) exMem 0 1 ⟨GenomeType.kXChromosome, false, [2]⟩
    ⟨GenomeType.kYChromosome, true, []⟩ rfl rfl rfl rfl rfl).1]
  simp [expectedUnpaired, Genome.records, exMem, exSubpop]
  norm_num

/-- C8: when exactly one genome is null and the other is not an X chromosome, the fitness is
0 if some mutation has `s != 0` and `1 + s <= 0`, and otherwise the product of `1 + s` over
the mutations of the non-null genome, whichever slot holds the null genome; neither the
dominance coefficients of the mutation types nor the X-dominance coefficient enter: any
subpopulation with the same parent genomes and any memory with the same mutation records give
the same fitness. -/
theorem fitness_unpaired_non_X (sp : Subpopulation) (mem : Memory) (i j : Nat)
    (genome null_genome : Genome) (hi : sp.parent_genomes_[i]? = some genome)
    (hj : sp.parent_genomes_[j]? = some null_genome)
    (hn : genome.is_null_ = false) (hz : null_genome.is_null_ = true)
    (hX : genome.genome_type_ ≠ GenomeType.kXChromosome) :
    FitnessOfParentWithGenomeIndices sp mem i j =
        some (if ∃ m ∈ genome.records mem, m.selection_coeff_ ≠ 0 ∧ 1 + m.selection_coeff_ ≤ 0
          then 0 else ((genome.records mem).map (fun m => 1 + m.selection_coeff_)).prod) ∧
      FitnessOfParentWithGenomeIndices sp mem j i =
        FitnessOfParentWithGenomeIndices sp mem i j ∧
      ∀ (sp1 : Subpopulation) (mem1 : Memory),
        sp1.parent_genomes_ = sp.parent_genomes_ → mem1.mutation = mem.mutation →
        FitnessOfParentWithGenomeIndices sp1 mem1 i j =
          FitnessOfParentWithGenomeIndices sp mem i j := by
  have key : ∀ (s0 : Subpopulation) (m0 : Memory), s0.parent_genomes_ = sp.parent_genomes_ →
      FitnessOfParentWithGenomeIndices s0 m0 i j =
        some (if ∃ m ∈ genome.records m0, m.selection_coeff_ ≠ 0 ∧ 1 + m.selection_coeff_ ≤ 0
          then 0 else ((genome.records m0).map (fun m => 1 + m.selection_coeff_)).prod) := by
    intro s0 m0 h0
    rw [FitnessOfParentWithGenomeIndices_eq s0 m0 i j genome null_genome (h0 ▸ hi) (h0 ▸ hj),
      fitnessOfGenomes_unpaired_left m0 _ genome null_genome hn hz, if_neg hX,
      traceValue_scanEvents,
      prod_filter_nonzero (fun m => 1 + m.selection_coeff_) _ (fun m hm => by simp [hm])]
  refine ⟨key sp mem rfl, ?_, fun sp1 mem1 h1 h2 => ?_⟩
  · rw [key sp mem rfl, FitnessOfParentWithGenomeIndices_eq sp mem j i null_genome genome hj hi,
      fitnessOfGenomes_unpaired_right mem _ null_genome genome hz hn, if_neg hX,
      traceValue_scanEvents,
      prod_filter_nonzero (fun m => 1 + m.selection_coeff_) _ (fun m hm => by simp [hm])]
  · rw [key sp1 mem1 h1, key sp mem rfl, records_eq_of_mutation_eq mem mem1 genome h2]

/-- Witness of C8: a modeled Y with one mutation `s = -0.1` next to a null X: fitness 0.9,
under X-dominance 3/10 and type dominance 1/2. -/
theorem fitness_unpaired_non_X_witness :
    FitnessOfParentWithGenomeIndices
      (exSubpop (3 / 10) [⟨GenomeType.kXChromosome, true, []⟩,
        ⟨GenomeType.kYChromosome, false, [0]⟩]) exMem 1 0 = some (9 / 10) := by
  rw [(fitness_unpaired_non_X (exSubpop (3 / 10) [⟨GenomeType.kXChromosome, true, []⟩,
    ⟨GenomeType.kYChromosome, false, [0]⟩]) exMem 1 0 ⟨GenomeType.kYChromosome, false, [0]⟩
    ⟨GenomeType.kXChromosome, true, []⟩ rfl rfl rfl rfl (by decide)).1]
  simp [Genome.records, exMem]
  norm_num

/-- C10: a non-null genome `G` paired with a non-null genome that has no mutations, in either
slot: the fitness is 0 if some mutation of `G` with `s != 0` has `1 + dominance * s <= 0`,
and otherwise the product of `1 + dominance(type) * s` over all mutations of `G`; two empty
non-null genomes give exactly 1.0. -/
theorem fitness_leftover_heterozygous (sp : Subpopulation) (mem : Memory) (i j : Nat)
    (G empty : Genome) (hi : sp.parent_genomes_[i]? = some G)
    (hj : sp.parent_genomes_[j]? = some empty)
    (hn : G.is_null_ = false) (he : empty.is_null_ = false) (hm : empty.mutations_ = []) :
    FitnessOfParentWithGenomeIndices sp mem i j =
        some (if ∃ m ∈ G.records mem, m.selection_coeff_ ≠ 0 ∧ hetFactor mem m ≤ 0 then 0
          else ((G.records mem).map (hetFactor mem)).prod) ∧
      FitnessOfParentWithGenomeIndices sp mem j i =
        FitnessOfParentWithGenomeIndices sp mem i j ∧
      (G.mutations_ = [] → FitnessOfParentWithGenomeIndices sp mem i j = some 1) := by
  have hrec : empty.records mem = [] := by simp [Genome.records, hm]
  have key : FitnessOfParentWithGenomeIndices sp mem i j =
      some (if ∃ m ∈ G.records mem, m.selection_coeff_ ≠ 0 ∧ hetFactor mem m ≤ 0 then 0
        else ((G.records mem).map (hetFactor mem)).prod) := by
    rw [FitnessOfParentWithGenomeIndices_eq sp mem i j G empty hi hj,
      fitnessOfGenomes_nonnull mem _ G empty hn he, hrec, mergeAll_nil_right, scanLoop_value,
      traceValue_scanEvents, prod_filter_nonzero (hetFactor mem) _ (hetFactor_of_zero mem)]
  refine ⟨key, ?_, fun hG => ?_⟩
  · rw [key, FitnessOfParentWithGenomeIndices_eq sp mem j i empty G hj hi,
      fitnessOfGenomes_nonnull mem _ empty G he hn, hrec, mergeAll_nil_left, scanLoop_value,
      traceValue_scanEvents, prod_filter_nonzero (hetFactor mem) _ (hetFactor_of_zero mem)]
  · rw [key]
    simp [Genome.records, hG]

/-- Witness of C10: a genome holding one mutation at 50 (`s = 1/5`, dominance 1/2) and one at
100 (`s = -1/10`, dominance 1) next to an empty genome: fitness `(11/10) * (9/10)`. -/
theorem fitness_leftover_heterozygous_witness :
    FitnessOfParentWithGenomeIndices
      (exSubpop 0 [⟨GenomeType.kAutosome, false, [2, 3]⟩, ⟨GenomeType.kAutosome, false, []⟩])
      exMem 0 1 = some (99 / 100) := by
  rw [(fitness_leftover_heterozygous (exSubpop 0 [⟨GenomeType.kAutosome, false, [2, 3]⟩,
    ⟨GenomeType.kAutosome, false, []⟩]) exMem 0 1 ⟨GenomeType.kAutosome, false, [2, 3]⟩
    ⟨GenomeType.kAutosome, false, []⟩ rfl rfl rfl rfl rfl).1]
  simp [Genome.records, exMem, hetFactor]
  norm_num

/-- C1: on two non-null genomes sorted by position, whenever every factor applied is
positive, the fitness is the product of: for every genome-1 mutation with `s != 0`, `1 + s`
if genome 2 holds a mutation with the same position, mutation type and selection coefficient,
else `1 + dominance * s`; and for every genome-2 mutation with `s != 0` and no such match in
genome 1, `1 + dominance * s`. Matched genome-2 mutations contribute nothing. -/
theorem fitness_eq_expectedFitnessProduct (sp : Subpopulation) (mem : Memory) (i j : Nat)
    (genome1 genome2 : Genome) (hi : sp.parent_genomes_[i]? = some genome1)
    (hj : sp.parent_genomes_[j]? = some genome2)
    (h1 : genome1.is_null_ = false) (h2 : genome2.is_null_ = false)
    (hs1 : PositionSorted (genome1.records mem)) (hs2 : PositionSorted (genome2.records mem))
    (hpos1 : ∀ a ∈ genome1.records mem, a.selection_coeff_ ≠ 0 →
      0 < (if hasMatch (genome2.records mem) a then 1 + a.selection_coeff_
        else hetFactor mem a))
    (hpos2 : ∀ b ∈ genome2.records mem, b.selection_coeff_ ≠ 0 →
      hasMatch (genome1.records mem) b = false → 0 < hetFactor mem b) :
    FitnessOfParentWithGenomeIndices sp mem i j =
      some (expectedFitnessProduct mem (genome1.records mem) (genome2.records mem)) := by
  have hhom : ∀ a ∈ genome1.records mem, a.selection_coeff_ ≠ 0 →
      hasMatch (genome2.records mem) a = true → 0 ≤ 1 + a.selection_coeff_ := by
    intro a ha hs hm
    have := hpos1 a ha hs
    rw [if_pos hm] at this
    exact this.le
  rw [FitnessOfParentWithGenomeIndices_eq sp mem i j genome1 genome2 hi hj,
    fitnessOfGenomes_eq_traceValue mem _ genome1 genome2 h1 h2 hs1 hs2 hhom]
  have hnl : ((genome1.records mem).map (genome1Event mem (genome2.records mem)) ++
      (genome2.records mem).map (genome2Event mem (genome1.records mem))).any Event.lethal
        = false := by
    rw [← Bool.not_eq_true, List.any_eq_true]
    rintro ⟨e, he, hl⟩
    rcases List.mem_append.1 he with he | he
    · obtain ⟨a, ha, rfl⟩ := List.mem_map.1 he
      obtain ⟨hs, hm, hf⟩ := (lethal_genome1Event mem _ a).1 hl
      have := hpos1 a ha hs
      rw [hm] at this
      simp only [Bool.false_eq_true, if_false] at this
      exact absurd this (not_lt.2 hf)
    · obtain ⟨b, hb, rfl⟩ := List.mem_map.1 he
      obtain ⟨hs, hm, hf⟩ := (lethal_genome2Event mem _ b).1 hl
      exact absurd (hpos2 b hb hs hm) (not_lt.2 hf)
  unfold traceValue
  rw [hnl]
  simp only [Bool.false_eq_true, if_false, List.map_append, List.prod_append,
    prod_factor_genome1Events, prod_factor_genome2Events, expectedFitnessProduct]

/-- Witness of C1: genome 1 holds a mutation at 50 and two at 100 (types 0 and 1), genome 2
holds two at 100, one of which matches: `(11/10) * (9/10) * (9/10) * (3/2)`. -/
theorem fitness_eq_expectedFitnessProduct_witness :
    FitnessOfParentWithGenomeIndices
      (exSubpop 0 [⟨GenomeType.kAutosome, false, [2, 0, 3]⟩,
        ⟨GenomeType.kAutosome, false, [1, 7]⟩]) exMem 0 1 = some (2673 / 2000) := by
  rw [fitness_eq_expectedFitnessProduct (exSubpop 0 [⟨GenomeType.kAutosome, false, [2, 0, 3]⟩,
    ⟨GenomeType.kAutosome, false, [1, 7]⟩]) exMem 0 1 ⟨GenomeType.kAutosome, false, [2, 0, 3]⟩
    ⟨GenomeType.kAutosome, false, [1, 7]⟩ rfl rfl rfl rfl
    (by simp [PositionSorted, Genome.records, exMem])
    (by simp [PositionSorted, Genome.records, exMem])
    (by simp [Genome.records, exMem, hasMatch, hetFactor]; norm_num)
    (by simp [Genome.records, exMem, hasMatch, hetFactor]; norm_num)]
  simp [expectedFitnessProduct, Genome.records, exMem, hasMatch]
  norm_num [hetFactor]

/-- C5: homozygosity is decided by value, not by record identity: two non-null genomes each
holding exactly one mutation, in distinct records, at the same position, with the same
mutation type and an equal selection coefficient `s` (`s != 0`, `s > -1`), have fitness
exactly `1 + s`, whatever the dominance coefficient of the type. -/
theorem fitness_homozygous_by_value (sp : Subpopulation) (mem : Memory) (i j : Nat)
    (genome1 genome2 : Genome) (p1 p2 : Nat) (hi : sp.parent_genomes_[i]? = some genome1)
    (hj : sp.parent_genomes_[j]? = some genome2)
    (h1 : genome1.is_null_ = false) (h2 : genome2.is_null_ = false)
    (hm1 : genome1.mutations_ = [p1]) (hm2 : genome2.mutations_ = [p2])
    (_hdist : p1 ≠ p2)
    (hpos : (mem.mutation p1).position_ = (mem.mutation p2).position_)
    (htype : (mem.mutation p1).mutation_type_ptr_ = (mem.mutation p2).mutation_type_ptr_)
    (hsel : (mem.mutation p1).selection_coeff_ = (mem.mutation p2).selection_coeff_)
    (hs0 : (mem.mutation p1).selection_coeff_ ≠ 0)
    (hs1 : -1 < (mem.mutation p1).selection_coeff_) :
    FitnessOfParentWithGenomeIndices sp mem i j =
      some (1 + (mem.mutation p1).selection_coeff_) := by
  have hr1 : genome1.records mem = [mem.mutation p1] := by simp [Genome.records, hm1]
  have hr2 : genome2.records mem = [mem.mutation p2] := by simp [Genome.records, hm2]
  have hmatch : hasMatch [mem.mutation p2] (mem.mutation p1) = true := by
    simp [hasMatch, hpos, htype, hsel]
  have hmatch2 : hasMatch [mem.mutation p1] (mem.mutation p2) = true := by
    simp [hasMatch, hpos, htype, hsel]
  rw [FitnessOfParentWithGenomeIndices_eq sp mem i j genome1 genome2 hi hj,
    fitnessOfGenomes_eq_traceValue mem _ genome1 genome2 h1 h2 (by simp [hr1, PositionSorted])
      (by simp [hr2, PositionSorted])
      (by
        rw [hr1]
        intro a ha _ _
        rw [List.mem_singleton.1 ha]
        linarith),
    hr1, hr2]
  have hs2 : (mem.mutation p2).selection_coeff_ ≠ 0 := hsel ▸ hs0
  simp [traceValue, genome1Event, genome2Event, hmatch, hmatch2, hs0, hs2, Event.lethal,
    Event.factor]

/-- Witness of C5: position 100, `s = -0.1`, records at addresses 0 and 1: fitness 0.9. -/
theorem fitness_homozygous_by_value_witness :
    FitnessOfParentWithGenomeIndices
      (exSubpop 0 [⟨GenomeType.kAutosome, false, [0]⟩, ⟨GenomeType.kAutosome, false, [1]⟩])
      exMem 0 1 = some (9 / 10) := by
  rw [fitness_homozygous_by_value (exSubpop 0 [⟨GenomeType.kAutosome, false, [0]⟩,
    ⟨GenomeType.kAutosome, false, [1]⟩]) exMem 0 1 ⟨GenomeType.kAutosome, false, [0]⟩
    ⟨GenomeType.kAutosome, false, [1]⟩ 0 1 rfl rfl rfl rfl rfl rfl (by decide) rfl rfl rfl
    (by simp [exMem]) (by simp [exMem]; norm_num)]
  simp [exMem]
  norm_num

/-- C9: a match needs both the same mutation type and an equal selection coefficient: two
non-null single-mutation genomes at the same position whose mutations differ in mutation type
or in selection coefficient (both `s != 0`, both dominance-scaled factors positive) have
fitness `(1 + h1 * s1) * (1 + h2 * s2)`. -/
theorem fitness_mismatch_heterozygous (sp : Subpopulation) (mem : Memory) (i j : Nat)
    (genome1 genome2 : Genome) (p1 p2 : Nat) (hi : sp.parent_genomes_[i]? = some genome1)
    (hj : sp.parent_genomes_[j]? = some genome2)
    (h1 : genome1.is_null_ = false) (h2 : genome2.is_null_ = false)
    (hm1 : genome1.mutations_ = [p1]) (hm2 : genome2.mutations_ = [p2])
    (_hpos : (mem.mutation p1).position_ = (mem.mutation p2).position_)
    (hdiff : (mem.mutation p1).mutation_type_ptr_ ≠ (mem.mutation p2).mutation_type_ptr_ ∨
      (mem.mutation p1).selection_coeff_ ≠ (mem.mutation p2).selection_coeff_)
    (hs1 : (mem.mutation p1).selection_coeff_ ≠ 0)
    (hs2 : (mem.mutation p2).selection_coeff_ ≠ 0)
    (hf1 : 0 < hetFactor mem (mem.mutation p1)) (hf2 : 0 < hetFactor mem (mem.mutation p2)) :
    FitnessOfParentWithGenomeIndices sp mem i j =
      some ((1 + (mem.mutation_type (mem.mutation p1).mutation_type_ptr_).dominance_coeff_ *
          (mem.mutation p1).selection_coeff_) *
        (1 + (mem.mutation_type (mem.mutation p2).mutation_type_ptr_).dominance_coeff_ *
          (mem.mutation p2).selection_coeff_)) := by
  have hr1 : genome1.records mem = [mem.mutation p1] := by simp [Genome.records, hm1]
  have hr2 : genome2.records mem = [mem.mutation p2] := by simp [Genome.records, hm2]
  have hmatch : hasMatch [mem.mutation p2] (mem.mutation p1) = false := by
    rw [← Bool.not_eq_true, hasMatch_eq_true_iff]
    rintro ⟨b, hb, _, ht, hs⟩
    rw [List.mem_singleton.1 hb] at ht hs
    rcases hdiff with h | h
    · exact h ht.symm
    · exact h hs.symm
  have hmatch2 : hasMatch [mem.mutation p1] (mem.mutation p2) = false := by
    rw [← Bool.not_eq_true, hasMatch_eq_true_iff]
    rintro ⟨b, hb, _, ht, hs⟩
    rw [List.mem_singleton.1 hb] at ht hs
    rcases hdiff with h | h
    · exact h ht
    · exact h hs
  rw [FitnessOfParentWithGenomeIndices_eq sp mem i j genome1 genome2 hi hj,
    fitnessOfGenomes_eq_traceValue mem _ genome1 genome2 h1 h2 (by simp [hr1, PositionSorted])
      (by simp [hr2, PositionSorted])
      (by
        rw [hr1, hr2]
        intro a ha _ hm
        rw [List.mem_singleton.1 ha, hmatch] at hm
        cases hm),
    hr1, hr2]
  have e1 : ¬ hetFactor mem (mem.mutation p1) ≤ 0 := not_le.2 hf1
  have e2 : ¬ hetFactor mem (mem.mutation p2) ≤ 0 := not_le.2 hf2
  simp [traceValue, genome1Event, genome2Event, hmatch, hmatch2, hs1, hs2, Event.lethal,
    Event.factor, e1, e2]
  rfl

/-- Witness of C9: position 100, `s = -0.1` on both sides, mutation types 0 (dominance 1/2)
and 1 (dominance 1): fitness `(19/20) * (9/10)`. -/
theorem fitness_mismatch_heterozygous_witness :
    FitnessOfParentWithGenomeIndices
      (exSubpop 0 [⟨GenomeType.kAutosome, false, [0]⟩, ⟨GenomeType.kAutosome, false, [3]⟩])
      exMem 0 1 = some (171 / 200) := by
  rw [fitness_mismatch_heterozygous (exSubpop 0 [⟨GenomeType.kAutosome, false, [0]⟩,
    ⟨GenomeType.kAutosome, false, [3]⟩]) exMem 0 1 ⟨GenomeType.kAutosome, false, [0]⟩
    ⟨GenomeType.kAutosome, false, [3]⟩ 0 3 rfl rfl rfl rfl rfl rfl rfl
    (Or.inl (by decide)) (by simp [exMem]) (by simp [exMem])
    (by simp [exMem, hetFactor]; norm_num) (by simp [exMem, hetFactor]; norm_num)]
  simp [exMem]
  norm_num

/-- C2, evaluated on the code: two non-null genomes that each hold one mutation at position
100 of the same type with `s = -2` (records 4 and 5) get the negative fitness `-1`: the
homozygous factor `1 + s` is multiplied in without the `w <= 0.0` test. -/
theorem fitness_negative_on_homozygous_match :
    FitnessOfParentWithGenomeIndices
      (exSubpop 0 [⟨GenomeType.kAutosome, false, [4]⟩, ⟨GenomeType.kAutosome, false, [5]⟩])
      exMem 0 1 = some (-1) ∧ ¬ ((0 : ℚ) ≤ -1) := by
  constructor
  · simp [FitnessOfParentWithGenomeIndices, exSubpop, fitnessOfGenomes, Genome.records, exMem,
      mergeLoop, tiedRun, genome1_tied_step, genome2_tied_step, matchscan, scanLoop]
    norm_num
  · norm_num

/-- C3, evaluated on the code: genomes `[4, 6]` and `[5, 6]` (a homozygous `s = -2` at 100,
then a homozygous `s = -3` at 200). After the genome-1 tied run at position 100 the running
product is `-1`, yet the function goes on and returns `2`, not `0.0`. -/
theorem fitness_recovers_after_negative_product :
    tiedRun (genome1_tied_step exMem 100 [exMem.mutation 5, exMem.mutation 6]) 100
        [exMem.mutation 4, exMem.mutation 6] 1 = some ([exMem.mutation 6], -1) ∧
      FitnessOfParentWithGenomeIndices
        (exSubpop 0 [⟨GenomeType.kAutosome, false, [4, 6]⟩,
          ⟨GenomeType.kAutosome, false, [5, 6]⟩]) exMem 0 1 = some 2 := by
  constructor
  · simp [exMem, tiedRun, genome1_tied_step, matchscan]
    norm_num
  · simp [FitnessOfParentWithGenomeIndices, exSubpop, fitnessOfGenomes, Genome.records, exMem,
      mergeLoop, tiedRun, genome1_tied_step, genome2_tied_step, matchscan, scanLoop]
    norm_num

/-- C4, evaluated on the code: the fitness is not symmetric in the two haplotypes. With genome
`A = [7, 8]` (two mutations of the same position, type and `s = 1`) and genome `B = [9]` (one
such mutation), both sorted, the individual `(A, B)` has fitness 4 and the individual `(B, A)`
has fitness 2. In the order `(B, A)` the genome-1 run multiplies by `1 + s` once, for the
match of mutation 9 with mutation 7; the genome-2 run then finds a match for mutation 8 and
skips it, as line 424 says that the match "was already found by the genome1 loop above",
which it was not. All values are small integers, exact in `double`. -/
theorem fitness_not_symmetric :
    FitnessOfParentWithGenomeIndices
        (exSubpop 0 [⟨GenomeType.kAutosome, false, [7, 8]⟩,
          ⟨GenomeType.kAutosome, false, [9]⟩]) exMem 0 1 = some 4 ∧
      FitnessOfParentWithGenomeIndices
        (exSubpop 0 [⟨GenomeType.kAutosome, false, [7, 8]⟩,
          ⟨GenomeType.kAutosome, false, [9]⟩]) exMem 1 0 = some 2 ∧
      FitnessOfParentWithGenomeIndices
          (exSubpop 0 [⟨GenomeType.kAutosome, false, [7, 8]⟩,
            ⟨GenomeType.kAutosome, false, [9]⟩]) exMem 0 1 ≠
        FitnessOfParentWithGenomeIndices
          (exSubpop 0 [⟨GenomeType.kAutosome, false, [7, 8]⟩,
            ⟨GenomeType.kAutosome, false, [9]⟩]) exMem 1 0 := by
  have e1 : FitnessOfParentWithGenomeIndices
      (exSubpop 0 [⟨GenomeType.kAutosome, false, [7, 8]⟩,
        ⟨GenomeType.kAutosome, false, [9]⟩]) exMem 0 1 = some 4 := by
    simp [FitnessOfParentWithGenomeIndices, exSubpop, fitnessOfGenomes, Genome.records, exMem,
      mergeLoop, tiedRun, genome1_tied_step, genome2_tied_step, matchscan, scanLoop]
    norm_num
  have e2 : FitnessOfParentWithGenomeIndices
      (exSubpop 0 [⟨GenomeType.kAutosome, false, [7, 8]⟩,
        ⟨GenomeType.kAutosome, false, [9]⟩]) exMem 1 0 = some 2 := by
    simp [FitnessOfParentWithGenomeIndices, exSubpop, fitnessOfGenomes, Genome.records, exMem,
      mergeLoop, tiedRun, genome1_tied_step, genome2_tied_step, matchscan, scanLoop]
    norm_num
  refine ⟨e1, e2, ?_⟩
  rw [e1, e2]
  norm_num

/-- Symmetry in exact arithmetic: the fitness of the individual `(A, B)` equals that of
`(B, A)` for every combination of null flags and types, provided that, when both genomes are
non-null, both are sorted by position, neither holds two mutations with the same position,
mutation type and selection coefficient, and every mutation that has a match in the other
genome has a selection coefficient of at least `-1`. The two orders multiply the same factors
in a different order; in `double` the two products may differ in the last bit. -/
theorem fitness_symmetric_of_no_repeated_value (sp : Subpopulation) (mem : Memory) (i j : Nat)
    (genome1 genome2 : Genome) (hi : sp.parent_genomes_[i]? = some genome1)
    (hj : sp.parent_genomes_[j]? = some genome2)
    (h : genome1.is_null_ = false → genome2.is_null_ = false →
      PositionSorted (genome1.records mem) ∧ PositionSorted (genome2.records mem) ∧
      NoRepeatedValue (genome1.records mem) ∧ NoRepeatedValue (genome2.records mem) ∧
      ∀ a ∈ genome1.records mem, hasMatch (genome2.records mem) a = true →
        -1 ≤ a.selection_coeff_) :
    FitnessOfParentWithGenomeIndices sp mem i j =
      FitnessOfParentWithGenomeIndices sp mem j i := by
  rw [FitnessOfParentWithGenomeIndices_eq sp mem i j genome1 genome2 hi hj,
    FitnessOfParentWithGenomeIndices_eq sp mem j i genome2 genome1 hj hi]
  congr 1
  cases h1 : genome1.is_null_ with
  | true =>
    cases h2 : genome2.is_null_ with
    | true =>
      rw [fitnessOfGenomes_both_null mem _ genome1 genome2 h1 h2,
        fitnessOfGenomes_both_null mem _ genome2 genome1 h2 h1]
    | false => exact (fitnessOfGenomes_unpaired_comm mem _ genome2 genome1 h2 h1).symm
  | false =>
    cases h2 : genome2.is_null_ with
    | true => exact fitnessOfGenomes_unpaired_comm mem _ genome1 genome2 h1 h2
    | false =>
      obtain ⟨hs1, hs2, hd1, hd2, hhom⟩ := h h1 h2
      exact fitnessOfGenomes_comm mem _ genome1 genome2 h1 h2 hs1 hs2 hd1 hd2 hhom

/-- Symmetry in exact arithmetic at genome `[2, 0, 3]` against genome `[1, 7]`, one match at
position 100. -/
theorem fitness_symmetric_of_no_repeated_value_witness :
    FitnessOfParentWithGenomeIndices
        (exSubpop 0 [⟨GenomeType.kAutosome, false, [2, 0, 3]⟩,
          ⟨GenomeType.kAutosome, false, [1, 7]⟩]) exMem 0 1 =
      FitnessOfParentWithGenomeIndices
        (exSubpop 0 [⟨GenomeType.kAutosome, false, [2, 0, 3]⟩,
          ⟨GenomeType.kAutosome, false, [1, 7]⟩]) exMem 1 0 :=
  fitness_symmetric_of_no_repeated_value (exSubpop 0 [⟨GenomeType.kAutosome, false, [2, 0, 3]⟩,
    ⟨GenomeType.kAutosome, false, [1, 7]⟩]) exMem 0 1 ⟨GenomeType.kAutosome, false, [2, 0, 3]⟩
    ⟨GenomeType.kAutosome, false, [1, 7]⟩ rfl rfl
    (fun _ _ => ⟨by simp [PositionSorted, Genome.records, exMem],
      by simp [PositionSorted, Genome.records, exMem],
      by simp [NoRepeatedValue, Genome.records, exMem],
      by simp [NoRepeatedValue, Genome.records, exMem]; norm_num,
      by simp [Genome.records, exMem, hasMatch]; norm_num⟩)

/-! ## Lemmas on buffer fitting -/

theorem to_int_of_fits (x : Int) (h1 : -2147483648 ≤ x) (h2 : x < 2147483648) :
    to_int x = x := by
  unfold to_int
  omega

theorem resize_to_fit_nil (size : Int) :
    resize_to_fit [] size =
      if size < 0 ∨ 1073741824 ≤ size then Except.error FitError.length_error
      else Except.ok (List.replicate (2 * size).toNat default_genome) := by
  unfold resize_to_fit twice
  by_cases h1 : 2 * size < -2147483648 ∨ 2147483648 ≤ 2 * size
  · have h2 : size < 0 ∨ 1073741824 ≤ size := by omega
    rw [if_pos h1, if_pos h2]
  · rw [if_neg h1]
    by_cases h2 : size < 0 ∨ 1073741824 ≤ size
    · have h3 : 2 * size < 0 := by omega
      simp [resize, h2, h3]
    · have h3 : ¬ 2 * size < 0 := by omega
      simp [resize, h2, h3]

theorem reserve_to_fit_nil (size : Int) :
    reserve_to_fit [] size =
      if size < 0 ∨ 1073741824 ≤ size then Except.error FitError.length_error
      else Except.ok [] := by
  unfold reserve_to_fit twice
  by_cases h1 : 2 * size < -2147483648 ∨ 2147483648 ≤ 2 * size
  · have h2 : size < 0 ∨ 1073741824 ≤ size := by omega
    rw [if_pos h1, if_pos h2]
  · rw [if_neg h1]
    by_cases h2 : size < 0 ∨ 1073741824 ≤ size
    · have h3 : 2 * size < 0 := by omega
      simp [reserve, h2, h3]
    · have h3 : ¬ 2 * size < 0 := by omega
      simp [reserve, h2, h3]

/-- `GenerateChildrenToFit` has the outcome of the closed form. -/
theorem GenerateChildrenToFit_eq (sp : Subpopulation) (p_parents_also : Bool) :
    GenerateChildrenToFit sp p_parents_also = fit_outcome sp p_parents_also := by
  unfold GenerateChildrenToFit fit_outcome
  cases hsex : sp.sex_enabled_ with
  | false =>
    simp only [hsex, Bool.false_eq_true, if_false, resize_buffers, resize_to_fit_nil]
    by_cases hc : sp.child_subpop_size_ < 0 ∨ 1073741824 ≤ sp.child_subpop_size_
    · simp [hc]
    · simp only [hc, if_false]
      cases p_parents_also with
      | false => simp [fitted, fitted_buffer, hsex]
      | true =>
        by_cases hp : sp.parent_subpop_size_ < 0 ∨ 1073741824 ≤ sp.parent_subpop_size_
        · simp [hp, resize_to_fit_nil]
        · simp [hp, resize_to_fit_nil, fitted, fitted_buffer, hsex]
  | true =>
    simp only [hsex, if_true, first_male_index_checks, child_index, parent_index, fitted]
    by_cases h1 :
        to_int (lround ((1 - sp.child_sex_ratio_) * (sp.child_subpop_size_ : ℚ))) ≤ 0
    · simp [h1]
    · by_cases h2 :
          to_int (lround ((1 - sp.child_sex_ratio_) * (sp.child_subpop_size_ : ℚ))) ≥
            sp.child_subpop_size_
      · simp [h1, h2]
      · have hc0 : ¬ sp.child_subpop_size_ < 0 := by omega
        cases p_parents_also with
        | false =>
          by_cases hc : 1073741824 ≤ sp.child_subpop_size_
          · cases hm : sp.modeled_chromosome_type_ with
            | kAutosome => simp [h1, h2, resize_buffers, resize_to_fit_nil, hc, hm]
            | kXChromosome => simp [h1, h2, push_sex_chromosomes, reserve_to_fit_nil, hc, hm]
            | kYChromosome => simp [h1, h2, push_sex_chromosomes, reserve_to_fit_nil, hc, hm]
          · cases hm : sp.modeled_chromosome_type_ with
            | kAutosome =>
              simp [h1, h2, resize_buffers, resize_to_fit_nil, hc, hc0, fitted_buffer, hsex, hm]
            | kXChromosome =>
              simp [h1, h2, push_sex_chromosomes, reserve_to_fit_nil, hc, hc0, fitted_buffer,
                hsex, hm]
            | kYChromosome =>
              simp [h1, h2, push_sex_chromosomes, reserve_to_fit_nil, hc, hc0, fitted_buffer,
                hsex, hm]
        | true =>
          by_cases h3 :
              to_int (lround ((1 - sp.parent_sex_ratio_) * (sp.parent_subpop_size_ : ℚ))) ≤ 0
          · simp [h1, h2, h3]
          · by_cases h4 :
                to_int (lround ((1 - sp.parent_sex_ratio_) * (sp.parent_subpop_size_ : ℚ))) ≥
                  sp.parent_subpop_size_
            · simp [h1, h2, h3, h4]
            · have hp0 : ¬ sp.parent_subpop_size_ < 0 := by omega
              by_cases hc : 1073741824 ≤ sp.child_subpop_size_
              · cases hm : sp.modeled_chromosome_type_ with
                | kAutosome =>
                  simp [h1, h2, h3, h4, resize_buffers, resize_to_fit_nil, hc, hm]
                | kXChromosome =>
                  simp [h1, h2, h3, h4, push_sex_chromosomes, reserve_to_fit_nil, hc, hm]
                | kYChromosome =>
                  simp [h1, h2, h3, h4, push_sex_chromosomes, reserve_to_fit_nil, hc, hm]
              · by_cases hp : 1073741824 ≤ sp.parent_subpop_size_
                · cases hm : sp.modeled_chromosome_type_ with
                  | kAutosome =>
                    simp [h1, h2, h3, h4, resize_buffers, resize_to_fit_nil, hc, hc0, hp, hm]
                  | kXChromosome =>
                    simp [h1, h2, h3, h4, push_sex_chromosomes, reserve_to_fit_nil, hc, hc0,
                      hp, hm]
                  | kYChromosome =>
                    simp [h1, h2, h3, h4, push_sex_chromosomes, reserve_to_fit_nil, hc, hc0,
                      hp, hm]
                · cases hm : sp.modeled_chromosome_type_ with
                  | kAutosome =>
                    simp [h1, h2, h3, h4, resize_buffers, resize_to_fit_nil, hc, hc0, hp, hp0,
                      fitted_buffer, hsex, hm]
                  | kXChromosome =>
                    simp [h1, h2, h3, h4, push_sex_chromosomes, reserve_to_fit_nil, hc, hc0,
                      hp, hp0, fitted_buffer, hsex, hm]
                  | kYChromosome =>
                    simp [h1, h2, h3, h4, push_sex_chromosomes, reserve_to_fit_nil, hc, hc0,
                      hp, hp0, fitted_buffer, hsex, hm]

/-- A fit succeeds exactly when no test ends the run and `2 * size` fits an `int` for every
generation it fits, and then yields the closed form. -/
theorem GenerateChildrenToFit_ok_iff (sp : Subpopulation) (p_parents_also : Bool)
    (sp1 : Subpopulation) :
    GenerateChildrenToFit sp p_parents_also = Except.ok sp1 ↔
      (((sp.sex_enabled_ = true ∧ 0 < child_index sp ∧ child_index sp < sp.child_subpop_size_ ∧
          (p_parents_also = true →
            0 < parent_index sp ∧ parent_index sp < sp.parent_subpop_size_)) ∨
        (sp.sex_enabled_ = false ∧ 0 ≤ sp.child_subpop_size_ ∧
          (p_parents_also = true → 0 ≤ sp.parent_subpop_size_))) ∧
        (sp.child_subpop_size_ < 1073741824 ∧
          (p_parents_also = true → sp.parent_subpop_size_ < 1073741824))) ∧
      sp1 = fitted sp p_parents_also := by
  rw [GenerateChildrenToFit_eq]
  unfold fit_outcome
  cases hsex : sp.sex_enabled_ with
  | false =>
    simp only [Bool.false_eq_true, if_false, false_and, false_or, true_and]
    by_cases hc : sp.child_subpop_size_ < 0 ∨ 1073741824 ≤ sp.child_subpop_size_
    · rw [if_pos hc]
      constructor
      · intro h
        cases h
      · rintro ⟨⟨⟨h, _⟩, h2, _⟩, _⟩
        omega
    · rw [if_neg hc]
      by_cases hp : p_parents_also = true ∧
          (sp.parent_subpop_size_ < 0 ∨ 1073741824 ≤ sp.parent_subpop_size_)
      · rw [if_pos hp]
        constructor
        · intro h
          cases h
        · rintro ⟨⟨⟨_, h⟩, _, h2⟩, _⟩
          have := h hp.1
          have := h2 hp.1
          omega
      · rw [if_neg hp]
        simp only [Except.ok.injEq]
        constructor
        · intro h
          refine ⟨⟨⟨by omega, fun hb => ?_⟩, by omega, fun hb => ?_⟩, h.symm⟩
          · by_contra hneg
            exact hp ⟨hb, by omega⟩
          · by_contra hneg
            exact hp ⟨hb, by omega⟩
        · rintro ⟨_, h⟩
          exact h.symm
  | true =>
    simp only [if_true, true_and, Bool.true_eq_false, false_and, or_false]
    by_cases h1 : child_index sp ≤ 0
    · simp only [h1, if_true]
      constructor
      · intro h
        cases h
      · rintro ⟨⟨⟨h, _⟩, _⟩, _⟩
        omega
    · simp only [h1, if_false]
      by_cases h2 : child_index sp ≥ sp.child_subpop_size_
      · simp only [h2, if_true]
        constructor
        · intro h
          cases h
        · rintro ⟨⟨⟨_, h, _⟩, _⟩, _⟩
          omega
      · simp only [h2, if_false]
        by_cases h3 : p_parents_also = true ∧ parent_index sp ≤ 0
        · rw [if_pos h3]
          constructor
          · intro h
            cases h
          · rintro ⟨⟨⟨_, _, h⟩, _⟩, _⟩
            have := h h3.1
            omega
        · simp only [h3, if_false]
          by_cases h4 : p_parents_also = true ∧ parent_index sp ≥ sp.parent_subpop_size_
          · rw [if_pos h4]
            constructor
            · intro h
              cases h
            · rintro ⟨⟨⟨_, _, h⟩, _⟩, _⟩
              have := h h4.1
              omega
          · rw [if_neg h4]
            by_cases h5 : 1073741824 ≤ sp.child_subpop_size_
            · rw [if_pos h5]
              constructor
              · intro h
                cases h
              · rintro ⟨⟨_, h, _⟩, _⟩
                omega
            · rw [if_neg h5]
              by_cases h6 : p_parents_also = true ∧ 1073741824 ≤ sp.parent_subpop_size_
              · rw [if_pos h6]
                constructor
                · intro h
                  cases h
                · rintro ⟨⟨_, _, h⟩, _⟩
                  have := h h6.1
                  omega
              · rw [if_neg h6]
                simp only [Except.ok.injEq]
                constructor
                · intro h
                  refine ⟨⟨⟨by omega, by omega, fun hb => ⟨?_, ?_⟩⟩, by omega, fun hb => ?_⟩,
                    h.symm⟩
                  · by_contra hneg
                    exact h3 ⟨hb, by omega⟩
                  · by_contra hneg
                    exact h4 ⟨hb, by omega⟩
                  · by_contra hneg
                    exact h6 ⟨hb, by omega⟩
                · rintro ⟨_, h⟩
                  exact h.symm

theorem push_pairs_length (first second : Genome) (n : Nat) (v : List Genome) :
    (push_pairs first second n v).length = v.length + 2 * n := by
  induction n generalizing v with
  | zero => simp [push_pairs]
  | succ n ih =>
    rw [push_pairs, ih]
    simp only [List.length_append, List.length_cons, List.length_nil]
    omega

theorem mem_push_pairs (first second : Genome) (n : Nat) (v : List Genome) (g : Genome)
    (h : g ∈ push_pairs first second n v) : g ∈ v ∨ g = first ∨ g = second := by
  induction n generalizing v with
  | zero => exact Or.inl h
  | succ n ih =>
    rw [push_pairs] at h
    rcases ih _ h with h1 | h1
    · rcases List.mem_append.1 h1 with h2 | h2
      · exact Or.inl h2
      · simp only [List.mem_cons, List.mem_singleton, List.not_mem_nil, or_false] at h2
        exact Or.inr h2
    · exact Or.inr h1

/-- The genome at each index after a push loop: the old contents, then `first` at the even
and `second` at the odd new places. -/
theorem push_pairs_getElem? (first second : Genome) (n : Nat) (v : List Genome) (j : Nat) :
    (push_pairs first second n v)[j]? =
      if j < v.length then v[j]?
      else if j - v.length < 2 * n then
        some (if (j - v.length) % 2 = 0 then first else second)
      else none := by
  induction n generalizing v with
  | zero =>
    simp only [push_pairs]
    by_cases h : j < v.length
    · simp [h]
    · simp only [h, if_false, Nat.mul_zero, Nat.not_lt_zero]
      exact List.getElem?_eq_none (by omega)
  | succ n ih =>
    rw [push_pairs, ih]
    simp only [List.length_append, List.length_cons, List.length_nil]
    by_cases h : j < v.length
    · have h1 : j < v.length + (0 + 1 + 1) := by omega
      simp only [h, h1, if_true]
      exact List.getElem?_append_left h
    · by_cases h0 : j = v.length
      · have h1 : j < v.length + (0 + 1 + 1) := by omega
        have h2 : j - v.length < 2 * (n + 1) := by omega
        have h3 : (j - v.length) % 2 = 0 := by omega
        simp only [h, h1, h2, h3, if_true, if_false]
        rw [List.getElem?_append_right (by omega)]
        have : j - v.length = 0 := by omega
        simp [this]
      · by_cases h00 : j = v.length + 1
        · have h1 : j < v.length + (0 + 1 + 1) := by omega
          have h2 : j - v.length < 2 * (n + 1) := by omega
          have h3 : ¬ (j - v.length) % 2 = 0 := by omega
          simp only [h, h1, h2, h3, if_true, if_false]
          rw [List.getElem?_append_right (by omega)]
          have : j - v.length = 1 := by omega
          simp [this]
        · have h1 : ¬ j < v.length + (0 + 1 + 1) := by omega
          simp only [h, h1, if_false]
          have e1 : (j - (v.length + (0 + 1 + 1)) < 2 * n) ↔ (j - v.length < 2 * (n + 1)) := by
            omega
          have e2 : ((j - (v.length + (0 + 1 + 1))) % 2 = 0) ↔ ((j - v.length) % 2 = 0) := by
            omega
          simp only [e1, e2]

theorem fitted_buffer_length (sex_enabled : Bool) (modeled : GenomeType)
    (size first_male_index : Int) (h0 : 0 ≤ size)
    (h : sex_enabled = true → 0 ≤ first_male_index ∧ first_male_index ≤ size) :
    ((fitted_buffer sex_enabled modeled size first_male_index).length : Int) = 2 * size := by
  unfold fitted_buffer
  split
  · rename_i hc
    obtain ⟨h1, h2⟩ := h hc.1
    rw [push_pairs_length, push_pairs_length]
    simp only [List.length_nil]
    omega
  · rw [List.length_replicate]
    omega

theorem fitted_buffer_mutations (sex_enabled : Bool) (modeled : GenomeType)
    (size first_male_index : Int) :
    ∀ g ∈ fitted_buffer sex_enabled modeled size first_male_index, g.mutations_ = [] := by
  intro g hg
  unfold fitted_buffer at hg
  split at hg
  · rcases mem_push_pairs _ _ _ _ g hg with h | h | h
    · rcases mem_push_pairs _ _ _ _ g h with h1 | h1 | h1
      · cases h1
      · rw [h1]; rfl
      · rw [h1]; rfl
    · rw [h]; rfl
    · rw [h]; rfl
  · rw [List.eq_of_mem_replicate hg]
    rfl

/-- The example subpopulation of size 4 with sex ratio 1/2 is fitted with first male
index 2. -/
theorem exSexSubpop_fit (modeled : GenomeType) (p_parents_also : Bool) :
    GenerateChildrenToFit (exSexSubpop 4 (1 / 2) modeled) p_parents_also =
      Except.ok (fitted (exSexSubpop 4 (1 / 2) modeled) p_parents_also) := by
  have hc : child_index (exSexSubpop 4 (1 / 2) modeled) = 2 := by
    norm_num [child_index, to_int, exSexSubpop, lround, Int.floor_eq_iff]
  have hp : parent_index (exSexSubpop 4 (1 / 2) modeled) = 2 := by
    norm_num [parent_index, to_int, exSexSubpop, lround, Int.floor_eq_iff]
  rw [GenerateChildrenToFit_ok_iff]
  refine ⟨⟨Or.inl ⟨rfl, ?_, ?_, fun _ => ⟨?_, ?_⟩⟩, ?_, fun _ => ?_⟩, rfl⟩
  · rw [hc]; decide
  · rw [hc]; show (2 : Int) < 4; decide
  · rw [hp]; decide
  · rw [hp]; show (2 : Int) < 4; decide
  · show (4 : Int) < 1073741824; decide
  · show (4 : Int) < 1073741824; decide

/-! ## Properties of `GenerateChildrenToFit` -/

/-- C12: after every successful `GenerateChildrenToFit` the child buffer has length exactly
`2 * child_subpop_size_`, and with `p_parents_also` the parent buffer has length exactly
`2 * parent_subpop_size_`, whatever the sex flag, the modeled chromosome type and the sex
ratio. -/
theorem fit_buffer_lengths (sp : Subpopulation) (p_parents_also : Bool) (sp1 : Subpopulation)
    (h : GenerateChildrenToFit sp p_parents_also = Except.ok sp1) :
    (sp1.child_genomes_.length : Int) = 2 * sp1.child_subpop_size_ ∧
      (p_parents_also = true →
        (sp1.parent_genomes_.length : Int) = 2 * sp1.parent_subpop_size_) := by
  obtain ⟨⟨hcond, hfits⟩, rfl⟩ := (GenerateChildrenToFit_ok_iff sp p_parents_also sp1).1 h
  constructor
  · apply fitted_buffer_length
    · rcases hcond with ⟨_, h1, h2, _⟩ | ⟨_, h1, _⟩ <;> omega
    · intro hs
      rcases hcond with ⟨_, h1, h2, _⟩ | ⟨hf, _, _⟩
      · omega
      · rw [hf] at hs
        cases hs
  · intro hb
    simp only [fitted, hb, if_true]
    apply fitted_buffer_length
    · rcases hcond with ⟨_, _, _, h3⟩ | ⟨_, _, h3⟩
      · have := h3 hb
        omega
      · exact h3 hb
    · intro hs
      rcases hcond with ⟨_, _, _, h3⟩ | ⟨hf, _, _⟩
      · have := h3 hb
        omega
      · rw [hf] at hs
        cases hs

/-- Witness of C12: sex enabled, modeled X, size 4, sex ratio 1/2, parents also: both buffers
hold 8 genomes. -/
theorem fit_buffer_lengths_witness :
    ((fitted (exSexSubpop 4 (1 / 2) GenomeType.kXChromosome) true).child_genomes_.length : Int)
        = 2 * 4 ∧
      (true = true →
        ((fitted (exSexSubpop 4 (1 / 2) GenomeType.kXChromosome)
          true).parent_genomes_.length : Int) = 2 * 4) :=
  fit_buffer_lengths (exSexSubpop 4 (1 / 2) GenomeType.kXChromosome) true _
    (exSexSubpop_fit GenomeType.kXChromosome true)

/-- With sex enabled the fit goes through its tests in this order. -/
theorem GenerateChildrenToFit_of_sex_enabled (sp : Subpopulation)
    (hsex : sp.sex_enabled_ = true) (b : Bool) :
    GenerateChildrenToFit sp b =
      if child_index sp ≤ 0 then
        Except.error (FitError.no_females Generation.child sp.child_sex_ratio_)
      else if child_index sp ≥ sp.child_subpop_size_ then
        Except.error (FitError.no_males Generation.child sp.child_sex_ratio_)
      else if b = true ∧ parent_index sp ≤ 0 then
        Except.error (FitError.no_females Generation.parent sp.parent_sex_ratio_)
      else if b = true ∧ parent_index sp ≥ sp.parent_subpop_size_ then
        Except.error (FitError.no_males Generation.parent sp.parent_sex_ratio_)
      else if 1073741824 ≤ sp.child_subpop_size_ then Except.error FitError.length_error
      else if b = true ∧ 1073741824 ≤ sp.parent_subpop_size_ then
        Except.error FitError.length_error
      else Except.ok (fitted sp b) := by
  rw [GenerateChildrenToFit_eq]
  unfold fit_outcome
  rw [if_pos hsex]

/-- C14 fails as stated: a sex-enabled child generation of size 0 ends the run with the
"no females" message although its first male index (0) is `>= size`; the "no males" message
is not the one printed. -/
theorem fit_error_at_size_zero :
    child_index (exSexSubpop 0 (1 / 2) GenomeType.kXChromosome) ≥
        (exSexSubpop 0 (1 / 2) GenomeType.kXChromosome).child_subpop_size_ ∧
      GenerateChildrenToFit (exSexSubpop 0 (1 / 2) GenomeType.kXChromosome) false =
        Except.error (FitError.no_females Generation.child (1 / 2)) ∧
      GenerateChildrenToFit (exSexSubpop 0 (1 / 2) GenomeType.kXChromosome) false ≠
        Except.error (FitError.no_males Generation.child (1 / 2)) := by
  have hc : child_index (exSexSubpop 0 (1 / 2) GenomeType.kXChromosome) = 0 := by
    norm_num [child_index, to_int, exSexSubpop, lround, Int.floor_eq_iff]
  have hfit : GenerateChildrenToFit (exSexSubpop 0 (1 / 2) GenomeType.kXChromosome) false =
      Except.error (FitError.no_females Generation.child (1 / 2)) := by
    rw [GenerateChildrenToFit_eq]
    unfold fit_outcome
    rw [hc]
    simp [exSexSubpop]
  refine ⟨?_, hfit, ?_⟩
  · rw [hc]
    exact le_refl _
  · rw [hfit]
    intro h
    cases h

/-- C14, amended: with sex enabled the fatal error names the generation and the missing sex.
It is "no females" for a generation iff its first male index is `<= 0`, and "no males" iff
the index is `> 0` and `>= size`; the children are tested before the parents, the parents
only with `p_parents_also`, so a fit with `p_parents_also = false` never fails because of
the parent sex ratio; and every error carries the sex ratio of the generation it names. The
only other failure is the `std::length_error` of a size from `2^30` on. -/
theorem fit_error_names (sp : Subpopulation) (hsex : sp.sex_enabled_ = true)
    (p_parents_also : Bool) :
    (GenerateChildrenToFit sp p_parents_also =
        Except.error (FitError.no_females Generation.child sp.child_sex_ratio_) ↔
        child_index sp ≤ 0) ∧
      (GenerateChildrenToFit sp p_parents_also =
        Except.error (FitError.no_males Generation.child sp.child_sex_ratio_) ↔
        0 < child_index sp ∧ child_index sp ≥ sp.child_subpop_size_) ∧
      (GenerateChildrenToFit sp p_parents_also =
        Except.error (FitError.no_females Generation.parent sp.parent_sex_ratio_) ↔
        p_parents_also = true ∧ (0 < child_index sp ∧ child_index sp < sp.child_subpop_size_) ∧
          parent_index sp ≤ 0) ∧
      (GenerateChildrenToFit sp p_parents_also =
        Except.error (FitError.no_males Generation.parent sp.parent_sex_ratio_) ↔
        p_parents_also = true ∧ (0 < child_index sp ∧ child_index sp < sp.child_subpop_size_) ∧
          0 < parent_index sp ∧ parent_index sp ≥ sp.parent_subpop_size_) ∧
      (∀ e, GenerateChildrenToFit sp p_parents_also = Except.error e →
        e = FitError.no_females Generation.child sp.child_sex_ratio_ ∨
        e = FitError.no_males Generation.child sp.child_sex_ratio_ ∨
        e = FitError.no_females Generation.parent sp.parent_sex_ratio_ ∨
        e = FitError.no_males Generation.parent sp.parent_sex_ratio_ ∨
        (e = FitError.length_error ∧
          (1073741824 ≤ sp.child_subpop_size_ ∨
            (p_parents_also = true ∧ 1073741824 ≤ sp.parent_subpop_size_)))) ∧
      (∀ ratio, GenerateChildrenToFit sp false ≠
          Except.error (FitError.no_females Generation.parent ratio) ∧
        GenerateChildrenToFit sp false ≠
          Except.error (FitError.no_males Generation.parent ratio)) := by
  have hf := GenerateChildrenToFit_of_sex_enabled sp hsex
  refine ⟨?_, ?_, ?_, ?_, ?_, ?_⟩
  · rw [hf]
    by_cases h1 : child_index sp ≤ 0
    · simp [h1]
    · simp only [h1, if_false, iff_false]
      split_ifs <;> simp
  · rw [hf]
    by_cases h1 : child_index sp ≤ 0
    · simp only [h1, if_true]
      constructor
      · intro h
        cases h
      · rintro ⟨h, _⟩
        omega
    · by_cases h2 : child_index sp ≥ sp.child_subpop_size_
      · simp only [h1, h2, if_true, if_false, and_true, true_iff]
        omega
      · simp only [h1, h2, if_false, and_false, iff_false]
        split_ifs <;> simp
  · rw [hf]
    by_cases h1 : child_index sp ≤ 0
    · simp only [h1, if_true]
      constructor
      · intro h
        cases h
      · rintro ⟨_, ⟨h, _⟩, _⟩
        omega
    · by_cases h2 : child_index sp ≥ sp.child_subpop_size_
      · simp only [h1, h2, if_true, if_false]
        constructor
        · intro h
          cases h
        · rintro ⟨_, ⟨_, h⟩, _⟩
          omega
      · simp only [h1, h2, if_false]
        by_cases h3 : p_parents_also = true ∧ parent_index sp ≤ 0
        · rw [if_pos h3]
          simp only [true_iff]
          exact ⟨h3.1, ⟨by omega, by omega⟩, h3.2⟩
        · rw [if_neg h3]
          constructor
          · intro h
            split_ifs at h <;> cases h
          · rintro ⟨hb, _, hp⟩
            exact absurd ⟨hb, hp⟩ h3
  · rw [hf]
    by_cases h1 : child_index sp ≤ 0
    · simp only [h1, if_true]
      constructor
      · intro h
        cases h
      · rintro ⟨_, ⟨h, _⟩, _⟩
        omega
    · by_cases h2 : child_index sp ≥ sp.child_subpop_size_
      · simp only [h1, h2, if_true, if_false]
        constructor
        · intro h
          cases h
        · rintro ⟨_, ⟨_, h⟩, _⟩
          omega
      · simp only [h1, h2, if_false]
        by_cases h3 : p_parents_also = true ∧ parent_index sp ≤ 0
        · rw [if_pos h3]
          constructor
          · intro h
            cases h
          · rintro ⟨_, _, hp, _⟩
            have := h3.2
            omega
        · rw [if_neg h3]
          by_cases h4 : p_parents_also = true ∧ parent_index sp ≥ sp.parent_subpop_size_
          · rw [if_pos h4]
            simp only [true_iff]
            refine ⟨h4.1, ⟨by omega, by omega⟩, ?_, h4.2⟩
            by_contra hneg
            exact h3 ⟨h4.1, by omega⟩
          · rw [if_neg h4]
            constructor
            · intro h
              split_ifs at h <;> cases h
            · rintro ⟨hb, _, _, hp⟩
              exact absurd ⟨hb, hp⟩ h4
  · intro e h
    rw [hf] at h
    split_ifs at h with h1 h2 h3 h4 h5 h6
    · cases h; simp
    · cases h; simp
    · cases h; simp
    · cases h; simp
    · cases h
      exact Or.inr (Or.inr (Or.inr (Or.inr ⟨rfl, Or.inl h5⟩)))
    · cases h
      exact Or.inr (Or.inr (Or.inr (Or.inr ⟨rfl, Or.inr h6⟩)))
  · intro ratio
    rw [hf]
    constructor <;> split_ifs <;> simp_all

/-- Witness of the amended C14: size 4 with sex ratio 1 leaves no females among the
children. -/
theorem fit_error_names_witness :
    GenerateChildrenToFit (exSexSubpop 4 1 GenomeType.kAutosome) true =
      Except.error (FitError.no_females Generation.child 1) := by
  have h := (fit_error_names (exSexSubpop 4 1 GenomeType.kAutosome) rfl true).1
  exact h.2 (by norm_num [child_index, to_int, exSexSubpop, lround, Int.floor_eq_iff])

/-- The closed-form buffer of a sex-enabled generation with modeled X or Y has the layout the
specification states. -/
theorem fitted_buffer_layout (modeled : GenomeType) (size first_male_index : Int)
    (hm : modeled ≠ GenomeType.kAutosome) (h1 : 0 ≤ first_male_index)
    (h2 : first_male_index ≤ size) :
    SexChromosomeLayout modeled (fitted_buffer true modeled size first_male_index)
      first_male_index size := by
  have hbuf : fitted_buffer true modeled size first_male_index =
      push_pairs
        (new_genome GenomeType.kXChromosome (decide (modeled ≠ GenomeType.kXChromosome)))
        (new_genome GenomeType.kYChromosome (decide (modeled ≠ GenomeType.kYChromosome)))
        (size - first_male_index).toNat
        (push_pairs
          (new_genome GenomeType.kXChromosome (decide (modeled ≠ GenomeType.kXChromosome)))
          (new_genome GenomeType.kXChromosome (decide (modeled ≠ GenomeType.kXChromosome)))
          first_male_index.toNat []) := by
    unfold fitted_buffer
    rw [if_pos ⟨rfl, hm⟩]
  have hget : ∀ j : Nat, (fitted_buffer true modeled size first_male_index)[j]? =
      if j < 2 * first_male_index.toNat then
        some (new_genome GenomeType.kXChromosome (decide (modeled ≠ GenomeType.kXChromosome)))
      else if j - 2 * first_male_index.toNat < 2 * (size - first_male_index).toNat then
        some (if (j - 2 * first_male_index.toNat) % 2 = 0 then
          new_genome GenomeType.kXChromosome (decide (modeled ≠ GenomeType.kXChromosome))
          else new_genome GenomeType.kYChromosome (decide (modeled ≠ GenomeType.kYChromosome)))
      else none := by
    intro j
    rw [hbuf, push_pairs_getElem?, push_pairs_length, push_pairs_getElem?]
    simp only [List.length_nil, Nat.zero_add, Nat.not_lt_zero, if_false, Nat.sub_zero, ite_self]
    by_cases hj : j < 2 * first_male_index.toNat
    · simp only [hj, if_true]
    · simp only [hj, if_false]
  refine ⟨fun i hi => ?_, fun i hi1 hi2 => ?_, fun g hg => ?_⟩
  · refine ⟨(new_genome GenomeType.kXChromosome (decide (modeled ≠ GenomeType.kXChromosome))),
      (new_genome GenomeType.kXChromosome (decide (modeled ≠ GenomeType.kXChromosome))), ?_, ?_, rfl, rfl⟩
    · rw [hget, if_pos (by omega)]
    · rw [hget, if_pos (by omega)]
  · refine ⟨(new_genome GenomeType.kXChromosome (decide (modeled ≠ GenomeType.kXChromosome))),
      (new_genome GenomeType.kYChromosome (decide (modeled ≠ GenomeType.kYChromosome))), ?_, ?_, rfl, rfl⟩
    · rw [hget, if_neg (by omega), if_pos (by omega), if_pos (by omega)]
    · rw [hget, if_neg (by omega), if_pos (by omega), if_neg (by omega)]
  · rw [hbuf] at hg
    have hx : ∀ g : Genome,
        g = new_genome GenomeType.kXChromosome (decide (modeled ≠ GenomeType.kXChromosome)) →
        g.genome_type_ = GenomeType.kXChromosome ∧
          (g.is_null_ = true ↔ modeled ≠ GenomeType.kXChromosome) := by
      intro g h
      rw [h]
      simp [new_genome]
    have hy : ∀ g : Genome,
        g = new_genome GenomeType.kYChromosome (decide (modeled ≠ GenomeType.kYChromosome)) →
        g.genome_type_ = GenomeType.kYChromosome ∧
          (g.is_null_ = true ↔ modeled ≠ GenomeType.kYChromosome) := by
      intro g h
      rw [h]
      simp [new_genome]
    rcases mem_push_pairs _ _ _ _ g hg with h | h | h
    · rcases mem_push_pairs _ _ _ _ g h with h0 | h0 | h0
      · cases h0
      · exact Or.inl (hx g h0)
      · exact Or.inl (hx g h0)
    · exact Or.inl (hx g h)
    · exact Or.inr (hy g h)

/-- C15: with sex enabled and modeled chromosome type X or Y, a successful
`GenerateChildrenToFit` yields a child buffer (and with `p_parents_also` a parent buffer) in
which every individual below the first male index holds two X genomes and every individual
from the first male index up to the size holds an X and a Y; every X genome is null iff the
modeled type is not X, every Y genome is null iff the modeled type is not Y. -/
theorem fit_sex_chromosome_layout (sp : Subpopulation) (p_parents_also : Bool)
    (sp1 : Subpopulation) (hsex : sp.sex_enabled_ = true)
    (hm : sp.modeled_chromosome_type_ = GenomeType.kXChromosome ∨
      sp.modeled_chromosome_type_ = GenomeType.kYChromosome)
    (h : GenerateChildrenToFit sp p_parents_also = Except.ok sp1) :
    SexChromosomeLayout sp.modeled_chromosome_type_ sp1.child_genomes_
        sp1.child_first_male_index_ sp1.child_subpop_size_ ∧
      (p_parents_also = true →
        SexChromosomeLayout sp.modeled_chromosome_type_ sp1.parent_genomes_
          sp1.parent_first_male_index_ sp1.parent_subpop_size_) := by
  obtain ⟨⟨hcond, hfits⟩, rfl⟩ := (GenerateChildrenToFit_ok_iff sp p_parents_also sp1).1 h
  have hma : sp.modeled_chromosome_type_ ≠ GenomeType.kAutosome := by
    rcases hm with hm | hm <;> rw [hm] <;> decide
  rcases hcond with ⟨_, h1, h2, h3⟩ | ⟨hf, _⟩
  · constructor
    · simp only [fitted, hsex, if_true]
      exact fitted_buffer_layout _ _ _ hma h1.le h2.le
    · intro hb
      obtain ⟨h4, h5⟩ := h3 hb
      simp only [fitted, hsex, hb, if_true, and_self]
      exact fitted_buffer_layout _ _ _ hma h4.le h5.le
  · rw [hsex] at hf
    cases hf

/-- Witness of C15: modeled Y, size 4, sex ratio 1/2: the fitted child buffer has the
layout, with first male index 2. -/
theorem fit_sex_chromosome_layout_witness :
    SexChromosomeLayout GenomeType.kYChromosome
      (fitted (exSexSubpop 4 (1 / 2) GenomeType.kYChromosome) false).child_genomes_
      (fitted (exSexSubpop 4 (1 / 2) GenomeType.kYChromosome) false).child_first_male_index_
      4 :=
  (fit_sex_chromosome_layout (exSexSubpop 4 (1 / 2) GenomeType.kYChromosome) false _ rfl
    (Or.inr rfl) (exSexSubpop_fit GenomeType.kYChromosome false)).1

/-- C17: `GenerateChildrenToFit(false)` regenerates only the child generation: when it
returns, the parent genome buffer, `parent_subpop_size_`, `parent_sex_ratio_` and
`parent_first_male_index_` are what they were before the call, for every state before. -/
theorem fit_children_only_frame (sp sp1 : Subpopulation)
    (h : GenerateChildrenToFit sp false = Except.ok sp1) :
    sp1.parent_genomes_ = sp.parent_genomes_ ∧
      sp1.parent_subpop_size_ = sp.parent_subpop_size_ ∧
      sp1.parent_sex_ratio_ = sp.parent_sex_ratio_ ∧
      sp1.parent_first_male_index_ = sp.parent_first_male_index_ := by
  obtain ⟨_, rfl⟩ := (GenerateChildrenToFit_ok_iff sp false sp1).1 h
  simp [fitted]

/-- Witness of C17: fitting the children of the example subpopulation leaves its parent
first male index at 0 and its parent buffer empty. -/
theorem fit_children_only_frame_witness :
    (fitted (exSexSubpop 4 (1 / 2) GenomeType.kXChromosome) false).parent_genomes_ = [] ∧
      (fitted (exSexSubpop 4 (1 / 2) GenomeType.kXChromosome) false).parent_subpop_size_ = 4 ∧
      (fitted (exSexSubpop 4 (1 / 2) GenomeType.kXChromosome) false).parent_sex_ratio_ = 1 / 2 ∧
      (fitted (exSexSubpop 4 (1 / 2) GenomeType.kXChromosome) false).parent_first_male_index_
        = 0 :=
  fit_children_only_frame (exSexSubpop 4 (1 / 2) GenomeType.kXChromosome) _
    (exSexSubpop_fit GenomeType.kXChromosome false)

/-! ## Lemmas on the generation swap -/

theorem SwapChildAndParentGenomes_of_no_change (sp : Subpopulation)
    (h : will_need_new_children sp = false) :
    SwapChildAndParentGenomes sp = Except.ok (exchange_generations sp) := by
  simp [SwapChildAndParentGenomes, h]

theorem SwapChildAndParentGenomes_of_change (sp : Subpopulation)
    (h : will_need_new_children sp = true) :
    SwapChildAndParentGenomes sp = GenerateChildrenToFit (exchange_generations sp) false := by
  simp [SwapChildAndParentGenomes, h]

theorem will_need_new_children_eq_false_iff (sp : Subpopulation) :
    will_need_new_children sp = false ↔
      sp.parent_subpop_size_ = sp.child_subpop_size_ ∧
        sp.parent_sex_ratio_ = sp.child_sex_ratio_ ∧
        sp.parent_first_male_index_ = sp.child_first_male_index_ := by
  unfold will_need_new_children
  rw [decide_eq_false_iff_not]
  constructor
  · intro h
    refine ⟨?_, ?_, ?_⟩
    · by_contra h1
      exact h (Or.inl h1)
    · by_contra h1
      exact h (Or.inr (Or.inl h1))
    · by_contra h1
      exact h (Or.inr (Or.inr h1))
  · rintro ⟨h1, h2, h3⟩ (h | h | h)
    · exact h h1
    · exact h h2
    · exact h h3

/-- With equal descriptors, two exchanges give the state back. -/
theorem exchange_generations_twice (sp : Subpopulation)
    (h : will_need_new_children sp = false) :
    exchange_generations (exchange_generations sp) = sp := by
  obtain ⟨h1, h2, h3⟩ := (will_need_new_children_eq_false_iff sp).1 h
  cases sp
  simp only [exchange_generations] at *
  simp [h1, h2, h3]

theorem will_need_new_children_exchange (sp : Subpopulation) :
    will_need_new_children (exchange_generations sp) = false := by
  rw [will_need_new_children_eq_false_iff]
  simp [exchange_generations]

/-! ## Properties of `SwapChildAndParentGenomes` -/

/-- C18: after `SwapChildAndParentGenomes` the parent buffer is the child buffer of before
(same genomes, same order), `parent_subpop_size_`, `parent_sex_ratio_` and
`parent_first_male_index_` are the child size, child sex ratio and child first male index of
before, and `child_subpop_size_` and `child_sex_ratio_` are unchanged. -/
theorem swap_parent_fields (sp sp1 : Subpopulation)
    (h : SwapChildAndParentGenomes sp = Except.ok sp1) :
    sp1.parent_genomes_ = sp.child_genomes_ ∧
      sp1.parent_subpop_size_ = sp.child_subpop_size_ ∧
      sp1.parent_sex_ratio_ = sp.child_sex_ratio_ ∧
      sp1.parent_first_male_index_ = sp.child_first_male_index_ ∧
      sp1.child_subpop_size_ = sp.child_subpop_size_ ∧
      sp1.child_sex_ratio_ = sp.child_sex_ratio_ := by
  cases hw : will_need_new_children sp with
  | false =>
    rw [SwapChildAndParentGenomes_of_no_change sp hw] at h
    cases h
    simp [exchange_generations]
  | true =>
    rw [SwapChildAndParentGenomes_of_change sp hw] at h
    obtain ⟨_, rfl⟩ := (GenerateChildrenToFit_ok_iff _ false sp1).1 h
    simp [fitted, exchange_generations]

/-- Witness of C18: a sex-disabled subpopulation of one individual whose child size was set
to 3 is swapped (and refitted): the parents take over the child buffer and the size 3. -/
theorem swap_parent_fields_witness :
    (fitted (exchange_generations
        { exSubpop 0 [⟨GenomeType.kAutosome, false, [2]⟩, ⟨GenomeType.kAutosome, false, []⟩]
          with child_subpop_size_ := 3 }) false).parent_genomes_ =
        List.replicate 2 ⟨GenomeType.kAutosome, false, []⟩ ∧
      (fitted (exchange_generations
        { exSubpop 0 [⟨GenomeType.kAutosome, false, [2]⟩, ⟨GenomeType.kAutosome, false, []⟩]
          with child_subpop_size_ := 3 }) false).parent_subpop_size_ = 3 := by
  have h := swap_parent_fields
    { exSubpop 0 [⟨GenomeType.kAutosome, false, [2]⟩, ⟨GenomeType.kAutosome, false, []⟩]
      with child_subpop_size_ := 3 }
    (fitted (exchange_generations
      { exSubpop 0 [⟨GenomeType.kAutosome, false, [2]⟩, ⟨GenomeType.kAutosome, false, []⟩]
        with child_subpop_size_ := 3 }) false)
    (by
      rw [SwapChildAndParentGenomes_of_change _ (by simp [will_need_new_children, exSubpop]),
        GenerateChildrenToFit_ok_iff]
      exact ⟨⟨Or.inr ⟨rfl, by simp [exchange_generations], fun hb => by cases hb⟩,
        by simp [exchange_generations], fun hb => by cases hb⟩, rfl⟩)
  exact ⟨h.1, h.2.1⟩

/-- C19: if before the swap the parent and child size, sex ratio and first male index are
pairwise equal, `SwapChildAndParentGenomes` does not refit (`will_need_new_children` is
false and the call cannot fail): it is the pure exchange of the two buffers, so the child
buffer afterwards is the parent buffer of before; and over any number `N` of consecutive
swaps no refit occurs: the `N`-fold swap returns the original state for even `N` and the
exchanged state for odd `N`, again with `will_need_new_children` false. -/
theorem swap_without_refit (sp : Subpopulation)
    (h1 : sp.parent_subpop_size_ = sp.child_subpop_size_)
    (h2 : sp.parent_sex_ratio_ = sp.child_sex_ratio_)
    (h3 : sp.parent_first_male_index_ = sp.child_first_male_index_) :
    will_need_new_children sp = false ∧
      SwapChildAndParentGenomes sp = Except.ok (exchange_generations sp) ∧
      (exchange_generations sp).child_genomes_ = sp.parent_genomes_ ∧
      (exchange_generations sp).parent_genomes_ = sp.child_genomes_ ∧
      ∀ N : Nat, ∃ spN, swap_generations N sp = Except.ok spN ∧
        will_need_new_children spN = false ∧
        spN = (if N % 2 = 0 then sp else exchange_generations sp) := by
  have hw : will_need_new_children sp = false :=
    (will_need_new_children_eq_false_iff sp).2 ⟨h1, h2, h3⟩
  refine ⟨hw, SwapChildAndParentGenomes_of_no_change sp hw, rfl, rfl, ?_⟩
  have key : ∀ (N : Nat) (s : Subpopulation), will_need_new_children s = false →
      ∃ sN, swap_generations N s = Except.ok sN ∧ will_need_new_children sN = false ∧
        sN = (if N % 2 = 0 then s else exchange_generations s) := by
    intro N
    induction N with
    | zero =>
      intro s hs
      exact ⟨s, rfl, hs, by simp⟩
    | succ n ih =>
      intro s hs
      obtain ⟨sN, e1, e2, e3⟩ := ih (exchange_generations s) (will_need_new_children_exchange s)
      refine ⟨sN, ?_, e2, ?_⟩
      · rw [swap_generations, SwapChildAndParentGenomes_of_no_change s hs]
        exact e1
      · rw [e3, exchange_generations_twice s hs]
        rcases Nat.mod_two_eq_zero_or_one n with hn | hn
        · have : (n + 1) % 2 = 1 := by omega
          simp [hn, this]
        · have : (n + 1) % 2 = 0 := by omega
          simp [hn, this]
  exact fun N => key N sp hw

/-- Witness of C19: three consecutive swaps of a sex-disabled subpopulation of one individual
leave the buffers exchanged once. -/
theorem swap_without_refit_witness :
    ∃ spN, swap_generations 3
        (exSubpop 0 [⟨GenomeType.kAutosome, false, [2]⟩, ⟨GenomeType.kAutosome, false, []⟩])
        = Except.ok spN ∧
      will_need_new_children spN = false ∧
      spN = (if 3 % 2 = 0 then
          exSubpop 0 [⟨GenomeType.kAutosome, false, [2]⟩, ⟨GenomeType.kAutosome, false, []⟩]
        else exchange_generations
          (exSubpop 0 [⟨GenomeType.kAutosome, false, [2]⟩,
            ⟨GenomeType.kAutosome, false, []⟩])) :=
  (swap_without_refit
    (exSubpop 0 [⟨GenomeType.kAutosome, false, [2]⟩, ⟨GenomeType.kAutosome, false, []⟩])
    rfl rfl rfl).2.2.2.2 3

/-- C20: if before the swap the size, the sex ratio or the first male index differs between
parents and children, `SwapChildAndParentGenomes` is the exchange followed by
`GenerateChildrenToFit(false)`; when it returns, the child buffer is the one
`GenerateChildrenToFit(false)` makes for the child descriptors, its length is
`2 * child_subpop_size_`, and none of its genomes holds a mutation. -/
theorem swap_with_refit (sp : Subpopulation)
    (hw : sp.parent_subpop_size_ ≠ sp.child_subpop_size_ ∨
      sp.parent_sex_ratio_ ≠ sp.child_sex_ratio_ ∨
      sp.parent_first_male_index_ ≠ sp.child_first_male_index_) :
    SwapChildAndParentGenomes sp = GenerateChildrenToFit (exchange_generations sp) false ∧
      ∀ sp1, SwapChildAndParentGenomes sp = Except.ok sp1 →
        (sp1.child_genomes_.length : Int) = 2 * sp1.child_subpop_size_ ∧
          (∀ g ∈ sp1.child_genomes_, g.mutations_ = []) ∧
          ∃ s1, GenerateChildrenToFit sp false = Except.ok s1 ∧
            s1.child_genomes_ = sp1.child_genomes_ := by
  have hwt : will_need_new_children sp = true := by
    unfold will_need_new_children
    exact decide_eq_true hw
  have hswap := SwapChildAndParentGenomes_of_change sp hwt
  refine ⟨hswap, fun sp1 h => ?_⟩
  rw [hswap] at h
  have hlen := (fit_buffer_lengths _ false sp1 h).1
  obtain ⟨⟨hcond, hfits⟩, rfl⟩ := (GenerateChildrenToFit_ok_iff _ false sp1).1 h
  refine ⟨hlen, ?_, fitted sp false, ?_, rfl⟩
  · intro g hg
    exact fitted_buffer_mutations _ _ _ _ g hg
  · rw [GenerateChildrenToFit_ok_iff]
    refine ⟨⟨?_, hfits.1, fun hb => by cases hb⟩, rfl⟩
    rcases hcond with ⟨c1, c2, c3, _⟩ | ⟨c1, c2, _⟩
    · exact Or.inl ⟨c1, c2, c3, fun hb => by cases hb⟩
    · exact Or.inr ⟨c1, c2, fun hb => by cases hb⟩

/-- Witness of C20: after the child size of a sex-disabled subpopulation was set to 3, the
swap refits the child buffer to 6 genomes. -/
theorem swap_with_refit_witness :
    SwapChildAndParentGenomes
        { exSubpop 0 [⟨GenomeType.kAutosome, false, [2]⟩, ⟨GenomeType.kAutosome, false, []⟩]
          with child_subpop_size_ := 3 } =
      GenerateChildrenToFit (exchange_generations
        { exSubpop 0 [⟨GenomeType.kAutosome, false, [2]⟩, ⟨GenomeType.kAutosome, false, []⟩]
          with child_subpop_size_ := 3 }) false :=
  (swap_with_refit
    { exSubpop 0 [⟨GenomeType.kAutosome, false, [2]⟩, ⟨GenomeType.kAutosome, false, []⟩]
      with child_subpop_size_ := 3 }
    (Or.inl (by simp [exSubpop]))).1

/-- C21 fails as stated: when the descriptors are equal no refit happens, and the child buffer
after the swap is the parent buffer of before; here its first genome still holds the
mutation record 2. -/
theorem swap_child_buffer_keeps_mutations :
    ∃ sp1, SwapChildAndParentGenomes
        (exSubpop 0 [⟨GenomeType.kAutosome, false, [2]⟩, ⟨GenomeType.kAutosome, false, []⟩])
        = Except.ok sp1 ∧
      ∃ g ∈ sp1.child_genomes_, g.mutations_ ≠ [] := by
  refine ⟨_, SwapChildAndParentGenomes_of_no_change _ ?_, ⟨GenomeType.kAutosome, false, [2]⟩,
    ?_, ?_⟩
  · rw [will_need_new_children_eq_false_iff]
    exact ⟨rfl, rfl, rfl⟩
  · simp [exchange_generations, exSubpop]
  · simp

/-- C21, amended: after a `SwapChildAndParentGenomes` that refits (some descriptor differs)
no genome of the child buffer carries a mutation; after one that does not refit the child
buffer is exactly the parent buffer of before, with the mutations it held. -/
theorem swap_child_buffer_content (sp sp1 : Subpopulation)
    (h : SwapChildAndParentGenomes sp = Except.ok sp1) :
    (will_need_new_children sp = true → ∀ g ∈ sp1.child_genomes_, g.mutations_ = []) ∧
      (will_need_new_children sp = false → sp1.child_genomes_ = sp.parent_genomes_) := by
  constructor
  · intro hw
    rw [SwapChildAndParentGenomes_of_change sp hw] at h
    obtain ⟨_, rfl⟩ := (GenerateChildrenToFit_ok_iff _ false sp1).1 h
    intro g hg
    exact fitted_buffer_mutations _ _ _ _ g hg
  · intro hw
    rw [SwapChildAndParentGenomes_of_no_change sp hw] at h
    cases h
    rfl

/-- Witness of the amended C21: without a refit the child buffer after the swap is the old
parent buffer. -/
theorem swap_child_buffer_content_witness :
    (exchange_generations
        (exSubpop 0 [⟨GenomeType.kAutosome, false, [2]⟩,
          ⟨GenomeType.kAutosome, false, []⟩])).child_genomes_ =
      [⟨GenomeType.kAutosome, false, [2]⟩, ⟨GenomeType.kAutosome, false, []⟩] :=
  (swap_child_buffer_content
    (exSubpop 0 [⟨GenomeType.kAutosome, false, [2]⟩, ⟨GenomeType.kAutosome, false, []⟩]) _
    (SwapChildAndParentGenomes_of_no_change _
      ((will_need_new_children_eq_false_iff _).2 ⟨rfl, rfl, rfl⟩))).2
    ((will_need_new_children_eq_false_iff _).2 ⟨rfl, rfl, rfl⟩)

/-- C22: the buffer-length invariant is preserved by the swap: from every state whose parent
buffer has length `2 * parent_subpop_size_` and whose child buffer has length
`2 * child_subpop_size_` (and, if sex is enabled, whose child sex ratio is valid: the first
male index it gives lies strictly between 0 and the child size), after
`SwapChildAndParentGenomes` both buffers again have length twice their declared sizes. The
swap returns exactly when the two generations agree in size, sex ratio and first male index,
so that no new children are generated, or the child size is below `2^30`, so that the product
`2 * child_subpop_size_` fits an `int`. -/
theorem swap_preserves_buffer_lengths (sp : Subpopulation)
    (hp : (sp.parent_genomes_.length : Int) = 2 * sp.parent_subpop_size_)
    (hc : (sp.child_genomes_.length : Int) = 2 * sp.child_subpop_size_)
    (hr : sp.sex_enabled_ = true →
      0 < lround ((1 - sp.child_sex_ratio_) * (sp.child_subpop_size_ : ℚ)) ∧
        lround ((1 - sp.child_sex_ratio_) * (sp.child_subpop_size_ : ℚ)) <
          sp.child_subpop_size_) :
    (∀ sp1, SwapChildAndParentGenomes sp = Except.ok sp1 →
      (sp1.parent_genomes_.length : Int) = 2 * sp1.parent_subpop_size_ ∧
      (sp1.child_genomes_.length : Int) = 2 * sp1.child_subpop_size_) ∧
    ((∃ sp1, SwapChildAndParentGenomes sp = Except.ok sp1) ↔
      (will_need_new_children sp = false ∨ sp.child_subpop_size_ < 1073741824)) := by
  have hsz : (exchange_generations sp).child_subpop_size_ = sp.child_subpop_size_ := rfl
  cases hw : will_need_new_children sp with
  | false =>
    obtain ⟨h1, _, _⟩ := (will_need_new_children_eq_false_iff sp).1 hw
    have hok := SwapChildAndParentGenomes_of_no_change sp hw
    refine ⟨?_, ⟨fun _ => Or.inl rfl, fun _ => ⟨_, hok⟩⟩⟩
    intro sp1 h
    rw [hok] at h
    cases h
    refine ⟨?_, ?_⟩
    · simp only [exchange_generations]
      exact hc
    · simp only [exchange_generations]
      rw [hp, h1]
  | true =>
    have hsw := SwapChildAndParentGenomes_of_change sp hw
    refine ⟨?_, ⟨?_, ?_⟩⟩
    · intro sp1 h
      rw [hsw] at h
      obtain ⟨_, rfl⟩ := (GenerateChildrenToFit_ok_iff (exchange_generations sp) false sp1).1 h
      refine ⟨?_, (fit_buffer_lengths _ false _ h).1⟩
      simp only [fitted, exchange_generations, Bool.false_eq_true, if_false]
      exact hc
    · rintro ⟨sp1, h⟩
      rw [hsw] at h
      obtain ⟨⟨_, hfits⟩, _⟩ :=
        (GenerateChildrenToFit_ok_iff (exchange_generations sp) false sp1).1 h
      exact Or.inr (by rw [← hsz]; exact hfits.1)
    · intro hb
      have hlt : sp.child_subpop_size_ < 1073741824 := by
        rcases hb with hb | hb
        · cases hb
        · exact hb
      have hok : GenerateChildrenToFit (exchange_generations sp) false =
          Except.ok (fitted (exchange_generations sp) false) := by
        rw [GenerateChildrenToFit_ok_iff]
        refine ⟨⟨?_, by rw [hsz]; exact hlt, fun hb => by cases hb⟩, rfl⟩
        cases hsex : sp.sex_enabled_ with
        | true =>
          obtain ⟨r1, r2⟩ := hr hsex
          have hci : child_index (exchange_generations sp) =
              lround ((1 - sp.child_sex_ratio_) * (sp.child_subpop_size_ : ℚ)) :=
            to_int_of_fits (lround ((1 - sp.child_sex_ratio_) * (sp.child_subpop_size_ : ℚ)))
              (by omega) (by omega)
          exact Or.inl ⟨hsex, by rw [hci]; exact r1, by rw [hci]; exact r2,
            fun hb => by cases hb⟩
        | false =>
          refine Or.inr ⟨hsex, ?_, fun hb => by cases hb⟩
          simp only [exchange_generations]
          omega
      exact ⟨_, hsw.trans hok⟩

/-- Witness of C22: the sex-disabled example of one individual keeps both lengths at 2. -/
theorem swap_preserves_buffer_lengths_witness :
    ∃ sp1, SwapChildAndParentGenomes
        (exSubpop 0 [⟨GenomeType.kAutosome, false, [2]⟩, ⟨GenomeType.kAutosome, false, []⟩])
        = Except.ok sp1 ∧
      (sp1.parent_genomes_.length : Int) = 2 * sp1.parent_subpop_size_ ∧
      (sp1.child_genomes_.length : Int) = 2 * sp1.child_subpop_size_ := by
  have h := swap_preserves_buffer_lengths
    (exSubpop 0 [⟨GenomeType.kAutosome, false, [2]⟩, ⟨GenomeType.kAutosome, false, []⟩])
    (by simp [exSubpop]) (by simp [exSubpop]) (fun h => by cases h)
  obtain ⟨sp1, e⟩ := h.2.2 (Or.inr (by simp [exSubpop]))
  exact ⟨sp1, e, h.1 sp1 e⟩

/-- C30: double swap is the identity when nothing changed: from every state whose parent and
child size, sex ratio and first male index are pairwise equal, two consecutive calls of
`SwapChildAndParentGenomes` return exactly the original state. -/
theorem swap_twice_identity (sp : Subpopulation)
    (h1 : sp.parent_subpop_size_ = sp.child_subpop_size_)
    (h2 : sp.parent_sex_ratio_ = sp.child_sex_ratio_)
    (h3 : sp.parent_first_male_index_ = sp.child_first_male_index_) :
    ∃ sp1, SwapChildAndParentGenomes sp = Except.ok sp1 ∧
      SwapChildAndParentGenomes sp1 = Except.ok sp := by
  have hw : will_need_new_children sp = false :=
    (will_need_new_children_eq_false_iff sp).2 ⟨h1, h2, h3⟩
  refine ⟨_, SwapChildAndParentGenomes_of_no_change sp hw, ?_⟩
  rw [SwapChildAndParentGenomes_of_no_change _ (will_need_new_children_exchange sp),
    exchange_generations_twice sp hw]

/-- Witness of C30: the sex-disabled example of one individual. -/
theorem swap_twice_identity_witness :
    ∃ sp1, SwapChildAndParentGenomes
        (exSubpop 0 [⟨GenomeType.kAutosome, false, [2]⟩, ⟨GenomeType.kAutosome, false, []⟩])
        = Except.ok sp1 ∧
      SwapChildAndParentGenomes sp1 = Except.ok
        (exSubpop 0 [⟨GenomeType.kAutosome, false, [2]⟩, ⟨GenomeType.kAutosome, false, []⟩]) :=
  swap_twice_identity
    (exSubpop 0 [⟨GenomeType.kAutosome, false, [2]⟩, ⟨GenomeType.kAutosome, false, []⟩])
    rfl rfl rfl

/-! ## Conditional symmetry and the sex of a child -/

/-- C26: for every pair of non-null genomes sorted by position, neither of which holds two
mutations with the same position, mutation type and selection coefficient, and all of whose
selection coefficients are at least `-1`, the fitness of `(A, B)` equals the fitness of
`(B, A)`, in exact arithmetic. -/
theorem fitness_conditional_symmetry (sp : Subpopulation) (mem : Memory) (i j : Nat)
    (A B : Genome) (hi : sp.parent_genomes_[i]? = some A) (hj : sp.parent_genomes_[j]? = some B)
    (hA : A.is_null_ = false) (hB : B.is_null_ = false)
    (hsA : PositionSorted (A.records mem)) (hsB : PositionSorted (B.records mem))
    (hdA : NoRepeatedValue (A.records mem)) (hdB : NoRepeatedValue (B.records mem))
    (hA1 : ∀ a ∈ A.records mem, -1 ≤ a.selection_coeff_)
    (_hB1 : ∀ b ∈ B.records mem, -1 ≤ b.selection_coeff_) :
    FitnessOfParentWithGenomeIndices sp mem i j =
      FitnessOfParentWithGenomeIndices sp mem j i := by
  rw [FitnessOfParentWithGenomeIndices_eq sp mem i j A B hi hj,
    FitnessOfParentWithGenomeIndices_eq sp mem j i B A hj hi,
    fitnessOfGenomes_comm mem _ A B hA hB hsA hsB hdA hdB (fun a ha _ => hA1 a ha)]

/-- Witness of C26: genome `[2, 0, 3]` against genome `[1, 7]`; the values are 2673/2000 in
both orders. -/
theorem fitness_conditional_symmetry_witness :
    FitnessOfParentWithGenomeIndices
        (exSubpop 0 [⟨GenomeType.kAutosome, false, [2, 0, 3]⟩,
          ⟨GenomeType.kAutosome, false, [1, 7]⟩]) exMem 1 0 =
      FitnessOfParentWithGenomeIndices
        (exSubpop 0 [⟨GenomeType.kAutosome, false, [2, 0, 3]⟩,
          ⟨GenomeType.kAutosome, false, [1, 7]⟩]) exMem 0 1 :=
  fitness_conditional_symmetry (exSubpop 0 [⟨GenomeType.kAutosome, false, [2, 0, 3]⟩,
    ⟨GenomeType.kAutosome, false, [1, 7]⟩]) exMem 1 0 ⟨GenomeType.kAutosome, false, [1, 7]⟩
    ⟨GenomeType.kAutosome, false, [2, 0, 3]⟩ rfl rfl rfl rfl
    (by simp [PositionSorted, Genome.records, exMem])
    (by simp [PositionSorted, Genome.records, exMem])
    (by simp [NoRepeatedValue, Genome.records, exMem]; norm_num)
    (by simp [NoRepeatedValue, Genome.records, exMem])
    (by simp [Genome.records, exMem]; norm_num)
    (by simp [Genome.records, exMem]; norm_num)

/-- C25: `SexOfChild(i)` is hermaphrodite for every `i` when sex is disabled; when sex is
enabled it is female iff `i < child_first_male_index_` and male otherwise; so after a
successful fit the indices in `[0, firstMaleIndex)` are female, those in
`[firstMaleIndex, size)` are male, and each sex has at least one individual. -/
theorem sex_of_child (sp : Subpopulation) :
    (sp.sex_enabled_ = false → ∀ i, SexOfChild sp i = IndividualSex.kHermaphrodite) ∧
      (sp.sex_enabled_ = true → ∀ i,
        (SexOfChild sp i = IndividualSex.kFemale ↔ i < sp.child_first_male_index_) ∧
        (SexOfChild sp i = IndividualSex.kMale ↔ ¬ i < sp.child_first_male_index_)) ∧
      (sp.sex_enabled_ = true → ∀ (b : Bool) (sp1 : Subpopulation),
        GenerateChildrenToFit sp b = Except.ok sp1 →
          (∀ i, 0 ≤ i → i < sp1.child_first_male_index_ →
            SexOfChild sp1 i = IndividualSex.kFemale) ∧
          (∀ i, sp1.child_first_male_index_ ≤ i → i < sp1.child_subpop_size_ →
            SexOfChild sp1 i = IndividualSex.kMale) ∧
          (∃ i, 0 ≤ i ∧ i < sp1.child_subpop_size_ ∧
            SexOfChild sp1 i = IndividualSex.kFemale) ∧
          (∃ i, 0 ≤ i ∧ i < sp1.child_subpop_size_ ∧
            SexOfChild sp1 i = IndividualSex.kMale)) := by
  refine ⟨fun hs i => by simp [SexOfChild, hs], fun hs i => ?_, fun hs b sp1 h => ?_⟩
  · by_cases hi : i < sp.child_first_male_index_
    · simp [SexOfChild, hs, hi]
    · simp [SexOfChild, hs, hi]
  · obtain ⟨⟨hcond, hfits⟩, rfl⟩ := (GenerateChildrenToFit_ok_iff sp b sp1).1 h
    rcases hcond with ⟨_, c1, c2, _⟩ | ⟨hf, _⟩
    · have hidx : (fitted sp b).child_first_male_index_ = child_index sp := by
        simp [fitted, hs]
      have hsex : (fitted sp b).sex_enabled_ = true := hs
      have hsize : (fitted sp b).child_subpop_size_ = sp.child_subpop_size_ := rfl
      have hF : ∀ i, i < child_index sp → SexOfChild (fitted sp b) i = IndividualSex.kFemale := by
        intro i hi
        simp [SexOfChild, hsex, hidx, hi]
      have hM : ∀ i, child_index sp ≤ i → SexOfChild (fitted sp b) i = IndividualSex.kMale := by
        intro i hi
        have : ¬ i < child_index sp := by omega
        simp [SexOfChild, hsex, hidx, this]
      rw [hidx, hsize]
      refine ⟨fun i _ hi => hF i hi, fun i hi _ => hM i hi, ⟨0, le_refl _, by omega, hF 0 c1⟩,
        ⟨child_index sp, by omega, c2, hM _ (le_refl _)⟩⟩
    · rw [hs] at hf
      cases hf

/-- Witness of C25: after fitting size 4 with sex ratio 1/2, child 1 is female and child 2 is
male. -/
theorem sex_of_child_witness :
    SexOfChild (fitted (exSexSubpop 4 (1 / 2) GenomeType.kXChromosome) false) 1 =
        IndividualSex.kFemale ∧
      SexOfChild (fitted (exSexSubpop 4 (1 / 2) GenomeType.kXChromosome) false) 2 =
        IndividualSex.kMale := by
  have h := (sex_of_child (exSexSubpop 4 (1 / 2) GenomeType.kXChromosome)).2.2 rfl false _
    (exSexSubpop_fit GenomeType.kXChromosome false)
  have hidx : (fitted (exSexSubpop 4 (1 / 2) GenomeType.kXChromosome)
      false).child_first_male_index_ = 2 := by
    simp only [fitted, exSexSubpop, if_true]
    norm_num [child_index, to_int, lround, Int.floor_eq_iff]
  rw [hidx] at h
  exact ⟨h.1 1 (by decide) (by decide), h.2.1 2 (le_refl _) (by decide)⟩

/-! ## Lemmas on `UpdateFitness` -/

/-- The weight loop returns exactly when every genome index it uses is in range, and then
entry `i` is the fitness of the individual `i + first`. -/
theorem fitness_weights_eq_some_iff (sp : Subpopulation) (mem : Memory) (first count : Nat)
    (l : List ℚ) :
    fitness_weights sp mem first count = some l ↔
      l.length = count ∧ ∀ i, i < count →
        FitnessOfParentWithGenomeIndices sp mem (2 * (i + first)) (2 * (i + first) + 1) =
          l[i]? := by
  induction count generalizing l with
  | zero =>
    simp only [fitness_weights, Option.some.injEq, Nat.not_lt_zero, false_implies,
      implies_true, and_true]
    constructor
    · intro h
      rw [← h]
      rfl
    · intro h
      exact (List.length_eq_zero.1 h).symm
  | succ n ih =>
    rw [fitness_weights]
    constructor
    · intro h
      cases hw : fitness_weights sp mem first n with
      | none => simp [hw] at h
      | some ws =>
        cases hf : FitnessOfParentWithGenomeIndices sp mem (2 * (n + first))
            (2 * (n + first) + 1) with
        | none => simp [hw, hf] at h
        | some w =>
          simp only [hw, hf, Option.some.injEq] at h
          obtain ⟨h1, h2⟩ := (ih ws).1 hw
          subst h
          refine ⟨by simp [h1], fun i hi => ?_⟩
          by_cases hin : i < n
          · rw [h2 i hin, List.getElem?_append_left (by omega)]
          · have : i = n := by omega
            subst this
            rw [hf, List.getElem?_append_right (by omega)]
            simp [h1]
    · rintro ⟨h1, h2⟩
      have hne : l ≠ [] := by
        intro h
        rw [h] at h1
        cases h1
      obtain ⟨ws, w, rfl⟩ : ∃ ws w, l = ws ++ [w] :=
        ⟨l.dropLast, l.getLast hne, (List.dropLast_append_getLast hne).symm⟩
      have hlen : ws.length = n := by
        simp only [List.length_append, List.length_cons, List.length_nil] at h1
        omega
      have hw : fitness_weights sp mem first n = some ws := by
        rw [ih]
        refine ⟨hlen, fun i hi => ?_⟩
        rw [h2 i (by omega), List.getElem?_append_left (by omega)]
      have hf : FitnessOfParentWithGenomeIndices sp mem (2 * (n + first))
          (2 * (n + first) + 1) = some w := by
        rw [h2 n (by omega), List.getElem?_append_right (by omega)]
        simp [hlen]
      simp [hw, hf]

/-- The weight loop returns when the parent buffer holds both genomes of every individual it
visits. -/
theorem fitness_weights_isSome (sp : Subpopulation) (mem : Memory) (first count : Nat)
    (h : 2 * (first + count) ≤ sp.parent_genomes_.length) :
    ∃ l, fitness_weights sp mem first count = some l := by
  induction count with
  | zero => exact ⟨[], rfl⟩
  | succ n ih =>
    obtain ⟨ws, hws⟩ := ih (by omega)
    have h1 : 2 * (n + first) < sp.parent_genomes_.length := by omega
    have h2 : 2 * (n + first) + 1 < sp.parent_genomes_.length := by omega
    refine ⟨ws ++ [fitnessOfGenomes mem sp.x_chromosome_dominance_coeff_
      (sp.parent_genomes_[2 * (n + first)]) (sp.parent_genomes_[2 * (n + first) + 1])], ?_⟩
    rw [fitness_weights, hws,
      FitnessOfParentWithGenomeIndices_eq sp mem _ _ _ _ (List.getElem?_eq_getElem h1)
        (List.getElem?_eq_getElem h2)]

theorem FitnessOfParentWithGenomeIndices_congr (sp sp2 : Subpopulation) (mem : Memory)
    (h1 : sp2.parent_genomes_ = sp.parent_genomes_)
    (h2 : sp2.x_chromosome_dominance_coeff_ = sp.x_chromosome_dominance_coeff_) (i j : Nat) :
    FitnessOfParentWithGenomeIndices sp2 mem i j = FitnessOfParentWithGenomeIndices sp mem i j := by
  simp only [FitnessOfParentWithGenomeIndices, h1, h2]

/-- The weights depend on the state only through the parent buffer and the X-dominance
coefficient. -/
theorem fitness_weights_congr (sp sp2 : Subpopulation) (mem : Memory)
    (h1 : sp2.parent_genomes_ = sp.parent_genomes_)
    (h2 : sp2.x_chromosome_dominance_coeff_ = sp.x_chromosome_dominance_coeff_)
    (first count : Nat) :
    fitness_weights sp2 mem first count = fitness_weights sp mem first count := by
  induction count with
  | zero => rfl
  | succ n ih =>
    rw [fitness_weights, fitness_weights, ih,
      FitnessOfParentWithGenomeIndices_congr sp sp2 mem h1 h2]

/-- The weights of the individuals `0 .. a - 1` followed by those of `a .. a + b - 1` are the
weights of `0 .. a + b - 1`. -/
theorem fitness_weights_append (sp : Subpopulation) (mem : Memory) (a b : Nat) (A B : List ℚ)
    (hA : fitness_weights sp mem 0 a = some A) (hB : fitness_weights sp mem a b = some B) :
    fitness_weights sp mem 0 (a + b) = some (A ++ B) := by
  obtain ⟨a1, a2⟩ := (fitness_weights_eq_some_iff sp mem 0 a A).1 hA
  obtain ⟨b1, b2⟩ := (fitness_weights_eq_some_iff sp mem a b B).1 hB
  rw [fitness_weights_eq_some_iff]
  refine ⟨by simp [a1, b1], fun i hi => ?_⟩
  by_cases hia : i < a
  · rw [a2 i hia, List.getElem?_append_left (by omega)]
  · have e : i - a + a = i := by omega
    have := b2 (i - a) (by omega)
    rw [e] at this
    rw [Nat.add_zero, this, List.getElem?_append_right (by omega), a1]

/-! ## Properties of `UpdateFitness` -/

/-- C23: with sex disabled, `UpdateFitness` builds one sampler from a weight vector of length
`parent_subpop_size_` whose entry `i` is `FitnessOfParentWithGenomeIndices(2i, 2i+1)` for
every `0 <= i < parent_subpop_size_`; it returns whenever the parent buffer holds
`2 * parent_subpop_size_` genomes; and the new weights do not depend on the previous
sampler. -/
theorem update_fitness_sex_disabled (sp : Subpopulation) (mem : Memory)
    (hs : sp.sex_enabled_ = false) :
    (∀ sp1, UpdateFitness sp mem = some sp1 →
        (sp1.lookup_parent_.length : Int) = sp.parent_subpop_size_ ∧
        ∀ i : Nat, (i : Int) < sp.parent_subpop_size_ →
          FitnessOfParentWithGenomeIndices sp mem (2 * i) (2 * i + 1) =
              sp1.lookup_parent_[i]? ∧
            ∃ w, sp1.lookup_parent_[i]? = some w) ∧
      ((sp.parent_genomes_.length : Int) = 2 * sp.parent_subpop_size_ →
        ∃ sp1, UpdateFitness sp mem = some sp1) ∧
      (∀ old : List ℚ,
        (UpdateFitness { sp with lookup_parent_ := old } mem).map
            (fun sp1 => sp1.lookup_parent_) =
          (UpdateFitness sp mem).map (fun sp1 => sp1.lookup_parent_)) := by
  have hU : UpdateFitness sp mem =
      if sp.parent_subpop_size_ < 0 then none
      else match fitness_weights sp mem 0 sp.parent_subpop_size_.toNat with
        | none => none
        | some A => some { sp with lookup_parent_ := A } := by
    simp [UpdateFitness, hs]
  refine ⟨fun sp1 h => ?_, fun hlen => ?_, fun old => ?_⟩
  · rw [hU] at h
    by_cases hneg : sp.parent_subpop_size_ < 0
    · simp [hneg] at h
    · rw [if_neg hneg] at h
      cases hw : fitness_weights sp mem 0 sp.parent_subpop_size_.toNat with
      | none => simp [hw] at h
      | some A =>
        simp only [hw, Option.some.injEq] at h
        subst h
        obtain ⟨h1, h2⟩ := (fitness_weights_eq_some_iff sp mem 0 _ A).1 hw
        refine ⟨by simp only [h1]; omega, fun i hi => ?_⟩
        have hi2 : i < sp.parent_subpop_size_.toNat := by omega
        have h3 := h2 i hi2
        rw [Nat.add_zero] at h3
        have hi3 : i < A.length := by omega
        exact ⟨h3, _, List.getElem?_eq_getElem hi3⟩
  · rw [hU, if_neg (by omega)]
    obtain ⟨l, hl⟩ := fitness_weights_isSome sp mem 0 sp.parent_subpop_size_.toNat (by omega)
    exact ⟨_, by rw [hl]⟩
  · have hU2 : UpdateFitness { sp with lookup_parent_ := old } mem =
        if sp.parent_subpop_size_ < 0 then none
        else match fitness_weights { sp with lookup_parent_ := old } mem 0
            sp.parent_subpop_size_.toNat with
          | none => none
          | some A => some { sp with lookup_parent_ := A } := by
      simp [UpdateFitness, hs]
    rw [hU, hU2, fitness_weights_congr sp { sp with lookup_parent_ := old } mem rfl rfl]

/-- Witness of C23: the sex-disabled example of one individual gets a sampler. -/
theorem update_fitness_sex_disabled_witness :
    ∃ sp1, UpdateFitness
      (exSubpop 0 [⟨GenomeType.kAutosome, false, [2]⟩, ⟨GenomeType.kAutosome, false, []⟩])
      exMem = some sp1 :=
  (update_fitness_sex_disabled
    (exSubpop 0 [⟨GenomeType.kAutosome, false, [2]⟩, ⟨GenomeType.kAutosome, false, []⟩])
    exMem rfl).2.1 (by simp [exSubpop])

/-- C24: with sex enabled, `UpdateFitness` builds a female weight vector of length
`parent_first_male_index_` whose entry `i` is the fitness of individual `i`, and a male
weight vector of length `parent_subpop_size_ - parent_first_male_index_` whose entry `j` is
the fitness of individual `j + parent_first_male_index_`; the female vector followed by the
male vector is the weight vector the sex-disabled case builds for the same parents. It
returns whenever `0 <= parent_first_male_index_ <= parent_subpop_size_` and the parent buffer
holds `2 * parent_subpop_size_` genomes. -/
theorem update_fitness_sex_enabled (sp : Subpopulation) (mem : Memory)
    (hs : sp.sex_enabled_ = true) :
    (∀ sp1, UpdateFitness sp mem = some sp1 →
        (sp1.lookup_female_parent_.length : Int) = sp.parent_first_male_index_ ∧
        (sp1.lookup_male_parent_.length : Int) =
          sp.parent_subpop_size_ - sp.parent_first_male_index_ ∧
        (∀ i : Nat, (i : Int) < sp.parent_first_male_index_ →
          FitnessOfParentWithGenomeIndices sp mem (2 * i) (2 * i + 1) =
            sp1.lookup_female_parent_[i]?) ∧
        (∀ j : Nat, (j : Int) < sp.parent_subpop_size_ - sp.parent_first_male_index_ →
          FitnessOfParentWithGenomeIndices sp mem
              (2 * (j + sp.parent_first_male_index_.toNat))
              (2 * (j + sp.parent_first_male_index_.toNat) + 1) =
            sp1.lookup_male_parent_[j]?) ∧
        (UpdateFitness { sp with sex_enabled_ := false } mem).map
            (fun sp0 => sp0.lookup_parent_) =
          some (sp1.lookup_female_parent_ ++ sp1.lookup_male_parent_)) ∧
      (0 ≤ sp.parent_first_male_index_ →
        sp.parent_first_male_index_ ≤ sp.parent_subpop_size_ →
        (sp.parent_genomes_.length : Int) = 2 * sp.parent_subpop_size_ →
        ∃ sp1, UpdateFitness sp mem = some sp1) := by
  constructor
  · intro sp1 h
    simp only [UpdateFitness, hs, if_true] at h
    by_cases h1 : sp.parent_first_male_index_ < 0
    · simp [h1] at h
    · rw [if_neg h1] at h
      cases hA : fitness_weights sp mem 0 sp.parent_first_male_index_.toNat with
      | none => simp [hA] at h
      | some A =>
        simp only [hA] at h
        by_cases h2 : sp.parent_subpop_size_ - sp.parent_first_male_index_ < 0
        · simp [h2] at h
        · rw [if_neg h2] at h
          cases hB : fitness_weights sp mem sp.parent_first_male_index_.toNat
              (sp.parent_subpop_size_ - sp.parent_first_male_index_).toNat with
          | none => simp [hB] at h
          | some B =>
            simp only [hB, Option.some.injEq] at h
            subst h
            obtain ⟨a1, a2⟩ := (fitness_weights_eq_some_iff sp mem 0 _ A).1 hA
            obtain ⟨b1, b2⟩ := (fitness_weights_eq_some_iff sp mem _ _ B).1 hB
            have hcat := fitness_weights_append sp mem _ _ A B hA hB
            have hsum : sp.parent_first_male_index_.toNat +
                (sp.parent_subpop_size_ - sp.parent_first_male_index_).toNat =
                sp.parent_subpop_size_.toNat := by omega
            rw [hsum] at hcat
            refine ⟨?_, ?_, fun i hi => ?_, fun j hj => ?_, ?_⟩
            · show (A.length : Int) = _
              omega
            · show (B.length : Int) = _
              omega
            · have := a2 i (by omega)
              rw [Nat.add_zero] at this
              exact this
            · exact b2 j (by omega)
            · have hneg : ¬ sp.parent_subpop_size_ < 0 := by omega
              simp only [UpdateFitness, Bool.false_eq_true, if_false, hneg]
              rw [fitness_weights_congr sp { sp with sex_enabled_ := false } mem rfl rfl, hcat]
              rfl
  · intro h0 h1 hlen
    obtain ⟨A, hA⟩ := fitness_weights_isSome sp mem 0 sp.parent_first_male_index_.toNat
      (by omega)
    obtain ⟨B, hB⟩ := fitness_weights_isSome sp mem sp.parent_first_male_index_.toNat
      (sp.parent_subpop_size_ - sp.parent_first_male_index_).toNat (by omega)
    refine ⟨{ sp with lookup_female_parent_ := A, lookup_male_parent_ := B }, ?_⟩
    have e1 : ¬ sp.parent_first_male_index_ < 0 := by omega
    have e2 : ¬ sp.parent_subpop_size_ - sp.parent_first_male_index_ < 0 := by omega
    simp only [UpdateFitness, hs, if_true, e1, if_false, hA, e2, hB]

/-- Witness of C24: a sex-enabled subpopulation of one female and one male, modeled X, gets
its two samplers. -/
theorem update_fitness_sex_enabled_witness :
    ∃ sp1, UpdateFitness
      { exSexSubpop 2 (1 / 2) GenomeType.kXChromosome with
        parent_first_male_index_ := 1
        parent_genomes_ := [⟨GenomeType.kXChromosome, false, [2]⟩,
          ⟨GenomeType.kXChromosome, false, []⟩, ⟨GenomeType.kXChromosome, false, [0]⟩,
          ⟨GenomeType.kYChromosome, true, []⟩] } exMem = some sp1 :=
  (update_fitness_sex_enabled
    { exSexSubpop 2 (1 / 2) GenomeType.kXChromosome with
      parent_first_male_index_ := 1
      parent_genomes_ := [⟨GenomeType.kXChromosome, false, [2]⟩,
        ⟨GenomeType.kXChromosome, false, []⟩, ⟨GenomeType.kXChromosome, false, [0]⟩,
        ⟨GenomeType.kYChromosome, true, []⟩] } exMem rfl).2
    (by decide) (by simp [exSexSubpop]) (by simp [exSexSubpop])

/-! ## Self-pairing -/

/-- A trace without tested factors never returns early: it multiplies all its factors. -/
theorem runEvents_of_untested (es : List Event) (h : ∀ e ∈ es, ∀ f, e ≠ Event.het f) (w : ℚ) :
    runEvents es w = some (w * (es.map Event.factor).prod) := by
  induction es generalizing w with
  | nil => simp [runEvents]
  | cons e es ih =>
    have ih1 := fun w1 => ih (fun e1 he1 => h e1 (List.mem_cons_of_mem _ he1)) w1
    cases e with
    | skip => simp [runEvents, Event.apply, Event.factor, ih1]
    | hom f => simp [runEvents, Event.apply, Event.factor, ih1, mul_assoc]
    | het f => exact absurd rfl (h (Event.het f) (List.mem_cons_self _ _) f)

/-- The match scan from the start of a tied run finds every mutation of that run. -/
theorem matchscan_self (m : Mutation) (r : List Mutation) (a : Mutation)
    (ha : a ∈ m :: r.takeWhile (fun b => decide (b.position_ = m.position_))) :
    matchscan m.position_ a.mutation_type_ptr_ a.selection_coeff_ (m :: r) = true := by
  rw [matchscan_eq_true_iff]
  have hm : decide (m.position_ = m.position_) = true := by simp
  rw [List.takeWhile_cons_of_pos (p := fun b : Mutation => decide (b.position_ = m.position_))
    (a := m) (l := r) hm]
  exact ⟨a, ha, rfl, rfl⟩

/-- The merge of a mutation sequence with itself multiplies `w` by `1 + s` for every
mutation, sorted or not, and never returns early. -/
theorem mergeAll_self (mem : Memory) :
    ∀ (n : Nat) (A : List Mutation), A.length ≤ n → ∀ w : ℚ,
      mergeAll mem A A w = some (w * (A.map (fun m => 1 + m.selection_coeff_)).prod) := by
  intro n
  induction n with
  | zero =>
    intro A hA w
    have : A = [] := List.length_eq_zero.1 (by omega)
    subst this
    simp [mergeAll_nil_left, scanLoop]
  | succ n ih =>
    intro A hA w
    cases A with
    | nil => simp [mergeAll_nil_left, scanLoop]
    | cons m r =>
      let q : Mutation → Bool := fun b => decide (b.position_ = m.position_)
      have hsplit : m :: r = (m :: r.takeWhile q) ++ r.dropWhile q := by
        rw [List.cons_append, List.takeWhile_append_dropWhile]
      have hlen : (r.dropWhile q).length ≤ n := by
        have := (List.dropWhile_sublist q (l := r)).length_le
        simp only [List.length_cons] at hA
        omega
      have ev1 : (m :: r.takeWhile q).map (tiedEvent1 mem m.position_ (m :: r)) =
          (m :: r.takeWhile q).map
            (fun a => if a.selection_coeff_ = 0 then Event.skip
              else Event.hom (1 + a.selection_coeff_)) :=
        List.map_congr_left (fun a ha => by
          simp only [tiedEvent1, matchscan_self m r a ha, if_true])
      have ev2 : (m :: r.takeWhile q).map (tiedEvent2 mem m.position_ (m :: r)) =
          (m :: r.takeWhile q).map (fun _ => Event.skip) :=
        List.map_congr_left (fun a ha => by
          simp only [tiedEvent2, matchscan_self m r a ha, if_true, ite_self])
      have hu1 : ∀ e ∈ (m :: r.takeWhile q).map
          (fun a => if a.selection_coeff_ = 0 then Event.skip
            else Event.hom (1 + a.selection_coeff_)), ∀ f, e ≠ Event.het f := by
        intro e he f
        obtain ⟨a, _, rfl⟩ := List.mem_map.1 he
        split <;> simp
      have hu2 : ∀ e ∈ (m :: r.takeWhile q).map (fun _ => Event.skip),
          ∀ f, e ≠ Event.het f := by
        intro e he f
        obtain ⟨a, _, rfl⟩ := List.mem_map.1 he
        simp
      have hf1 : ((m :: r.takeWhile q).map
          (fun a => if a.selection_coeff_ = 0 then Event.skip
            else Event.hom (1 + a.selection_coeff_))).map Event.factor =
          (m :: r.takeWhile q).map (fun a => 1 + a.selection_coeff_) := by
        rw [List.map_map]
        apply List.map_congr_left
        intro a _
        by_cases hs : a.selection_coeff_ = 0
        · simp [hs, Event.factor]
        · simp [hs, Event.factor]
      have hf2 : (((m :: r.takeWhile q).map (fun _ => Event.skip)).map Event.factor).prod
          = 1 := by
        rw [List.map_map]
        apply List.prod_eq_one
        intro x hx
        obtain ⟨a, _, rfl⟩ := List.mem_map.1 hx
        rfl
      rw [mergeAll_tie mem m m r r w rfl,
        tiedRun_eq _ _ (genome1_tied_step_eq mem m.position_ (m :: r)) m.position_ r m w,
        ev1, runEvents_of_untested _ hu1, hf1]
      simp only
      rw [tiedRun_eq _ _ (genome2_tied_step_eq mem m.position_ (m :: r)) m.position_ r m _,
        ev2, runEvents_of_untested _ hu2, hf2]
      simp only
      rw [ih _ hlen, mul_one, mul_assoc, ← List.prod_append, ← List.map_append, ← hsplit]

/-- C27: self-pairing is fully homozygous: for every non-null genome, sorted or not, the
fitness of the individual whose two haplotypes both carry its mutation sequence is the plain
product of `1 + s` over all its mutations; no dominance coefficient enters. -/
theorem fitness_self_pairing (sp : Subpopulation) (mem : Memory) (i j : Nat)
    (genome1 genome2 : Genome) (hi : sp.parent_genomes_[i]? = some genome1)
    (hj : sp.parent_genomes_[j]? = some genome2)
    (h1 : genome1.is_null_ = false) (h2 : genome2.is_null_ = false)
    (hsame : genome2.records mem = genome1.records mem) :
    FitnessOfParentWithGenomeIndices sp mem i j =
      some (((genome1.records mem).map (fun m => 1 + m.selection_coeff_)).prod) := by
  rw [FitnessOfParentWithGenomeIndices_eq sp mem i j genome1 genome2 hi hj,
    fitnessOfGenomes_nonnull mem _ genome1 genome2 h1 h2, hsame,
    mergeAll_self mem _ _ (le_refl _)]
  simp

/-- Witness of C27: the unsorted genome `[6, 4]` (`s = -3` at 200, then `s = -2` at 100)
paired with itself has fitness `(-2) * (-1) = 2`. -/
theorem fitness_self_pairing_witness :
    FitnessOfParentWithGenomeIndices
      (exSubpop 0 [⟨GenomeType.kAutosome, false, [6, 4]⟩, ⟨GenomeType.kAutosome, false, []⟩])
      exMem 0 0 = some 2 := by
  rw [fitness_self_pairing (exSubpop 0 [⟨GenomeType.kAutosome, false, [6, 4]⟩,
    ⟨GenomeType.kAutosome, false, []⟩]) exMem 0 0 ⟨GenomeType.kAutosome, false, [6, 4]⟩
    ⟨GenomeType.kAutosome, false, [6, 4]⟩ rfl rfl rfl rfl rfl]
  simp [Genome.records, exMem]
  norm_num

/-! ## Termination -/

/-- The merge loop is its body, repeated. -/
theorem mergeLoop_eq_merge_pass (mem : Memory) (m1 m2 : Mutation) (r1 r2 : List Mutation)
    (w : ℚ) :
    mergeLoop mem (m1 :: r1) (m2 :: r2) w =
      match merge_pass mem m1 r1 m2 r2 w with
      | none => none
      | some (g1, g2, w1) => mergeLoop mem g1 g2 w1 := by
  unfold merge_pass
  rcases lt_trichotomy m1.position_ m2.position_ with h | h | h
  · rw [mergeLoop_lt mem m1 m2 r1 r2 w h, if_pos h]
    cases leading_step mem m1 w <;> rfl
  · have h1 : ¬ m1.position_ < m2.position_ := by omega
    have h2 : ¬ m1.position_ > m2.position_ := by omega
    rw [mergeLoop_tie mem m1 m2 r1 r2 w h, if_neg h1, if_neg h2]
    cases tiedRun (genome1_tied_step mem m1.position_ (m2 :: r2)) m1.position_ (m1 :: r1) w with
    | none => rfl
    | some x =>
      obtain ⟨g1, w1⟩ := x
      simp only
      cases tiedRun (genome2_tied_step mem m1.position_ (m1 :: r1)) m1.position_
          (m2 :: r2) w1 with
      | none => rfl
      | some y =>
        obtain ⟨g2, w2⟩ := y
        rfl
  · have h1 : ¬ m1.position_ < m2.position_ := by omega
    rw [mergeLoop_gt mem m1 m2 r1 r2 w h, if_neg h1, if_pos h]
    cases leading_step mem m2 w <;> rfl

/-- A tied run over a genome with a current mutation advances the iterator by at least one
mutation and stops at or before the end of the genome. -/
theorem tiedRun_advances (step : Mutation → ℚ → Option ℚ) (p : Int) (m : Mutation)
    (r l1 : List Mutation) (w w1 : ℚ) (h : tiedRun step p (m :: r) w = some (l1, w1)) :
    ∃ k, 1 ≤ k ∧ k ≤ (m :: r).length ∧ l1 = (m :: r).drop k := by
  induction r generalizing m w with
  | nil =>
    unfold tiedRun at h
    cases hs : step m w with
    | none => simp [hs] at h
    | some w2 =>
      simp only [hs, Option.some.injEq, Prod.mk.injEq] at h
      exact ⟨1, le_refl _, by simp, by simp [← h.1]⟩
  | cons m1 rest ih =>
    unfold tiedRun at h
    cases hs : step m w with
    | none => simp [hs] at h
    | some w2 =>
      simp only [hs] at h
      by_cases hp : m1.position_ = p
      · simp only [hp, if_true] at h
        obtain ⟨k, k1, k2, k3⟩ := ih m1 w2 h
        exact ⟨k + 1, by omega, by simp only [List.length_cons] at k2 ⊢; omega,
          by rw [k3]; rfl⟩
      · simp only [hp, if_false, Option.some.injEq, Prod.mk.injEq] at h
        exact ⟨1, le_refl _, by simp, by simp [← h.1]⟩

/-- The match scan looks only at the mutations of the tied run it starts in. -/
theorem matchscan_takeWhile (p : Int) (tp : Nat) (s : ℚ) (g : List Mutation) :
    matchscan p tp s g =
      matchscan p tp s (g.takeWhile (fun b => decide (b.position_ = p))) := by
  induction g with
  | nil => rfl
  | cons m rest ih =>
    by_cases hp : m.position_ = p
    · have hp1 : decide (m.position_ = p) = true := by simp [hp]
      rw [List.takeWhile_cons_of_pos (p := fun b : Mutation => decide (b.position_ = p))
        (a := m) (l := rest) hp1, matchscan, matchscan, ih]
    · have hp1 : ¬ (decide (m.position_ = p) = true) := by simp [hp]
      rw [List.takeWhile_cons_of_neg (p := fun b : Mutation => decide (b.position_ = p))
        (a := m) (l := rest) hp1, matchscan]
      simp [hp, matchscan]

/-- C29: `FitnessOfParentWithGenomeIndices` terminates for every pair of genomes, sorted or
not. The merge loop is its body repeated, and every pass of the body leaves both iterators
inside their genomes and strictly advances at least one of them; each tied-run loop advances
its iterator by at least one mutation and stops at or before the end of the genome; each
match scan stays inside the tied run it starts in; and the function returns a value for
every pair of genome indices in range. -/
theorem fitness_terminates (sp : Subpopulation) (mem : Memory) (i j : Nat)
    (hi : i < sp.parent_genomes_.length) (hj : j < sp.parent_genomes_.length) :
    (∃ v, FitnessOfParentWithGenomeIndices sp mem i j = some v) ∧
      (∀ (m1 m2 : Mutation) (r1 r2 : List Mutation) (w : ℚ),
        mergeLoop mem (m1 :: r1) (m2 :: r2) w =
            (match merge_pass mem m1 r1 m2 r2 w with
              | none => none
              | some (g1, g2, w1) => mergeLoop mem g1 g2 w1) ∧
          ∀ g1 g2 w1, merge_pass mem m1 r1 m2 r2 w = some (g1, g2, w1) →
            (∃ k1, k1 ≤ (m1 :: r1).length ∧ g1 = (m1 :: r1).drop k1) ∧
            (∃ k2, k2 ≤ (m2 :: r2).length ∧ g2 = (m2 :: r2).drop k2) ∧
            g1.length + g2.length < (m1 :: r1).length + (m2 :: r2).length) ∧
      (∀ (step : Mutation → ℚ → Option ℚ) (p : Int) (m : Mutation) (r l1 : List Mutation)
          (w w1 : ℚ), tiedRun step p (m :: r) w = some (l1, w1) →
        ∃ k, 1 ≤ k ∧ k ≤ (m :: r).length ∧ l1 = (m :: r).drop k) ∧
      (∀ (p : Int) (tp : Nat) (s : ℚ) (g : List Mutation),
        matchscan p tp s g =
          matchscan p tp s (g.takeWhile (fun b => decide (b.position_ = p)))) := by
  refine ⟨?_, fun m1 m2 r1 r2 w => ⟨mergeLoop_eq_merge_pass mem m1 m2 r1 r2 w, ?_⟩,
    tiedRun_advances, matchscan_takeWhile⟩
  · exact ⟨_, FitnessOfParentWithGenomeIndices_eq sp mem i j _ _
      (List.getElem?_eq_getElem hi) (List.getElem?_eq_getElem hj)⟩
  · intro g1 g2 w1 h
    unfold merge_pass at h
    by_cases h1 : m1.position_ < m2.position_
    · rw [if_pos h1] at h
      cases hs : leading_step mem m1 w with
      | none => simp [hs] at h
      | some w2 =>
        simp only [hs, Option.some.injEq, Prod.mk.injEq] at h
        obtain ⟨rfl, rfl, _⟩ := h
        exact ⟨⟨1, by simp, rfl⟩, ⟨0, by simp, rfl⟩, by simp⟩
    · rw [if_neg h1] at h
      by_cases h2 : m1.position_ > m2.position_
      · rw [if_pos h2] at h
        cases hs : leading_step mem m2 w with
        | none => simp [hs] at h
        | some w2 =>
          simp only [hs, Option.some.injEq, Prod.mk.injEq] at h
          obtain ⟨rfl, rfl, _⟩ := h
          exact ⟨⟨0, by simp, rfl⟩, ⟨1, by simp, rfl⟩, by simp⟩
      · rw [if_neg h2] at h
        cases ht1 : tiedRun (genome1_tied_step mem m1.position_ (m2 :: r2)) m1.position_
            (m1 :: r1) w with
        | none => simp [ht1] at h
        | some x =>
          obtain ⟨a1, w2⟩ := x
          simp only [ht1] at h
          cases ht2 : tiedRun (genome2_tied_step mem m1.position_ (m1 :: r1)) m1.position_
              (m2 :: r2) w2 with
          | none => simp [ht2] at h
          | some y =>
            obtain ⟨a2, w3⟩ := y
            simp only [ht2, Option.some.injEq, Prod.mk.injEq] at h
            obtain ⟨rfl, rfl, _⟩ := h
            obtain ⟨k1, k1a, k1b, k1c⟩ := tiedRun_advances _ _ _ _ _ _ _ ht1
            obtain ⟨k2, k2a, k2b, k2c⟩ := tiedRun_advances _ _ _ _ _ _ _ ht2
            refine ⟨⟨k1, k1b, k1c⟩, ⟨k2, k2b, k2c⟩, ?_⟩
            rw [k1c, k2c, List.length_drop, List.length_drop]
            omega

/-- Witness of C29: in the example subpopulation with the unsorted genome `[6, 4]` the
fitness of the pair of genomes 0 and 1 is returned. -/
theorem fitness_terminates_witness :
    ∃ v, FitnessOfParentWithGenomeIndices
      (exSubpop 0 [⟨GenomeType.kAutosome, false, [6, 4]⟩, ⟨GenomeType.kAutosome, false, [0]⟩])
      exMem 0 1 = some v :=
  (fitness_terminates
    (exSubpop 0 [⟨GenomeType.kAutosome, false, [6, 4]⟩, ⟨GenomeType.kAutosome, false, [0]⟩])
    exMem 0 1 (by decide) (by decide)).1

/-! ## The order of the events of a merge -/

theorem takeWhile_dropWhile_of_imp (P Q : Mutation → Bool)
    (h : ∀ x, P x = true → Q x = true) (g : List Mutation) :
    g.takeWhile Q = g.takeWhile P ++ (g.dropWhile P).takeWhile Q ∧
      g.dropWhile Q = (g.dropWhile P).dropWhile Q := by
  induction g with
  | nil => simp
  | cons x t ih =>
    by_cases hP : P x = true
    · have hQ := h x hP
      simp [List.takeWhile_cons, List.dropWhile_cons, hP, hQ, ih.1, ih.2]
    · simp [List.takeWhile_cons, List.dropWhile_cons, hP]

theorem takeWhile_dropWhile_append_of_neg (P : Mutation → Bool) (rest : List Mutation)
    (h : ∀ x ∈ rest, ¬ P x = true) (l : List Mutation) :
    (l ++ rest).takeWhile P = l.takeWhile P ∧
      (l ++ rest).dropWhile P = l.dropWhile P ++ rest := by
  induction l with
  | nil =>
    cases rest with
    | nil => simp
    | cons y t =>
      have hy := h y (List.mem_cons_self _ _)
      simp [List.takeWhile_cons, List.dropWhile_cons, hy]
  | cons x t ih =>
    by_cases hP : P x = true
    · simp [List.takeWhile_cons, List.dropWhile_cons, hP, ih.1, ih.2]
    · simp [List.takeWhile_cons, List.dropWhile_cons, hP]

theorem mergeOrder_congr (e1 e2 f1 f2 : Mutation → Event) :
    ∀ (g1 g2 : List Mutation), (∀ a ∈ g1, e1 a = f1 a) → (∀ b ∈ g2, e2 b = f2 b) →
      mergeOrder e1 e2 g1 g2 = mergeOrder f1 f2 g1 g2 := by
  intro g1
  induction g1 with
  | nil =>
    intro g2 _ h2
    simp only [mergeOrder]
    exact List.map_congr_left h2
  | cons a r ih =>
    intro g2 h1 h2
    simp only [mergeOrder]
    rw [ih _ (fun x hx => h1 x (List.mem_cons_of_mem _ hx))
        (fun b hb => h2 b ((List.dropWhile_sublist _).subset hb)),
      h1 a (List.mem_cons_self _ _)]
    congr 1
    exact List.map_congr_left (fun b hb => h2 b ((List.takeWhile_sublist _).subset hb))

theorem mergeOrder_cons_of_not_lt (e1 e2 : Mutation → Event) (m1 m2 : Mutation)
    (r1 r2 : List Mutation) (h : ¬ m2.position_ < m1.position_) :
    mergeOrder e1 e2 (m1 :: r1) (m2 :: r2) = e1 m1 :: mergeOrder e1 e2 r1 (m2 :: r2) := by
  simp [mergeOrder, List.takeWhile_cons, List.dropWhile_cons, h]

theorem mergeOrder_cons_of_lt (e1 e2 : Mutation → Event) (m1 m2 : Mutation)
    (r1 r2 : List Mutation) (h : m2.position_ < m1.position_) :
    mergeOrder e1 e2 (m1 :: r1) (m2 :: r2) = e2 m2 :: mergeOrder e1 e2 (m1 :: r1) r2 := by
  simp [mergeOrder, List.takeWhile_cons, List.dropWhile_cons, h]

theorem mergeOrder_run_left (e1 e2 : Mutation → Event) (m2 : Mutation) (r2 rest1 : List Mutation) :
    ∀ run1 : List Mutation, (∀ a ∈ run1, ¬ m2.position_ < a.position_) →
      mergeOrder e1 e2 (run1 ++ rest1) (m2 :: r2) =
        run1.map e1 ++ mergeOrder e1 e2 rest1 (m2 :: r2) := by
  intro run1
  induction run1 with
  | nil => intro _; rfl
  | cons a t ih =>
    intro h
    rw [List.cons_append, mergeOrder_cons_of_not_lt e1 e2 a m2 _ r2 (h a (List.mem_cons_self _ _)),
      ih (fun x hx => h x (List.mem_cons_of_mem _ hx))]
    rfl

theorem mergeOrder_run_right (e1 e2 : Mutation → Event) (run2 rest2 rest1 : List Mutation)
    (h : ∀ b ∈ run2, ∀ a ∈ rest1, b.position_ < a.position_) :
    mergeOrder e1 e2 rest1 (run2 ++ rest2) = run2.map e2 ++ mergeOrder e1 e2 rest1 rest2 := by
  cases rest1 with
  | nil => simp [mergeOrder]
  | cons a r =>
    have hP : ∀ b ∈ run2, (fun b : Mutation => decide (b.position_ < a.position_)) b = true := by
      intro b hb
      simpa using h b hb a (List.mem_cons_self _ _)
    simp only [mergeOrder]
    rw [List.takeWhile_append_of_pos hP, List.dropWhile_append_of_pos hP]
    simp

/-- On sorted genomes the merge applies the events of the two genomes in the order given by
`mergeOrder`. -/
theorem mergeAll_order (mem : Memory) :
    ∀ (n : Nat) (g1 g2 : List Mutation), g1.length + g2.length ≤ n →
      PositionSorted g1 → PositionSorted g2 →
      ∀ w, mergeAll mem g1 g2 w =
        runEvents (mergeOrder (genome1Event mem g2) (genome2Event mem g1) g1 g2) w := by
  intro n
  induction n with
  | zero =>
    intro g1 g2 hlen _ _ w
    have h1 : g1 = [] := List.length_eq_zero.1 (by omega)
    have h2 : g2 = [] := List.length_eq_zero.1 (by omega)
    subst h1 h2
    simp [mergeAll_nil_left, scanLoop, runEvents, mergeOrder]
  | succ n ih =>
    intro g1 g2 hlen hs1 hs2 w
    cases g1 with
    | nil =>
      rw [mergeAll_nil_left, scanLoop_eq_runEvents]
      simp only [mergeOrder]
      rw [List.map_congr_left
        (fun b _ => (genome2Event_of_position_ne mem [] b (by simp)).symm)]
    | cons m1 r1 =>
      cases g2 with
      | nil =>
        rw [mergeAll_nil_right, scanLoop_eq_runEvents]
        have h0 : ∀ l : List Mutation,
            mergeOrder (genome1Event mem []) (genome2Event mem (m1 :: r1)) l [] =
              l.map (genome1Event mem []) := by
          intro l
          induction l with
          | nil => rfl
          | cons a t iht => simp [mergeOrder, iht]
        rw [h0, List.map_congr_left
          (fun a _ => (genome1Event_of_position_ne mem [] a (by simp)).symm)]
      | cons m2 r2 =>
        have hs1c := List.pairwise_cons.1 hs1
        have hs2c := List.pairwise_cons.1 hs2
        simp only [List.length_cons] at hlen
        rcases lt_trichotomy m1.position_ m2.position_ with hlt | heq | hgt
        · -- genome 1 leads
          have hrun := ih r1 (m2 :: r2) (by simp only [List.length_cons]; omega) hs1c.2 hs2
          have hge2 : ∀ b ∈ m2 :: r2, m1.position_ < b.position_ := by
            intro b hb
            rcases List.mem_cons.1 hb with rfl | hb
            · exact hlt
            · exact lt_of_lt_of_le hlt (hs2c.1 b hb)
          have e1 : genome1Event mem (m2 :: r2) m1 = scanEvent (hetFactor mem) m1 :=
            genome1Event_of_position_ne mem _ m1 (fun b hb => (hge2 b hb).ne')
          have e2 : ∀ b ∈ m2 :: r2, genome2Event mem r1 b = genome2Event mem (m1 :: r1) b :=
            fun b hb => (genome2Event_append_left mem [m1] r1 b (by
              intro a ha
              rw [List.mem_singleton.1 ha]
              exact (hge2 b hb).ne)).symm
          rw [mergeOrder_cons_of_not_lt _ _ m1 m2 r1 r2 (not_lt.2 hlt.le), e1,
            mergeAll_lt mem m1 m2 r1 r2 w hlt, leading_step_eq, runEvents]
          cases (scanEvent (hetFactor mem) m1).apply w with
          | none => rfl
          | some w1 =>
            simp only
            rw [hrun w1, mergeOrder_congr _ _ (genome1Event mem (m2 :: r2))
              (genome2Event mem (m1 :: r1)) r1 (m2 :: r2) (fun _ _ => rfl) e2]
        · -- tied positions
          let q : Mutation → Bool := fun b => decide (b.position_ = m1.position_)
          have hsplit1 : m1 :: r1 = (m1 :: r1.takeWhile q) ++ r1.dropWhile q := by
            rw [List.cons_append, List.takeWhile_append_dropWhile]
          have hsplit2 : m2 :: r2 = (m2 :: r2.takeWhile q) ++ r2.dropWhile q := by
            rw [List.cons_append, List.takeWhile_append_dropWhile]
          have hrun1 : ∀ a ∈ m1 :: r1.takeWhile q, a.position_ = m1.position_ := by
            intro a ha
            rcases List.mem_cons.1 ha with rfl | ha
            · rfl
            · simpa [q] using List.mem_takeWhile_imp ha
          have hrun2 : ∀ b ∈ m2 :: r2.takeWhile q, b.position_ = m1.position_ := by
            intro b hb
            rcases List.mem_cons.1 hb with rfl | hb
            · exact heq.symm
            · simpa [q] using List.mem_takeWhile_imp hb
          have hrest1 : ∀ a ∈ r1.dropWhile q, m1.position_ < a.position_ :=
            lt_of_mem_dropWhile m1.position_ r1 hs1c.2 hs1c.1
          have hrest2 : ∀ b ∈ r2.dropWhile q, m1.position_ < b.position_ :=
            lt_of_mem_dropWhile m1.position_ r2 hs2c.2 (fun x hx => heq ▸ hs2c.1 x hx)
          have hall1 : ∀ x ∈ m1 :: r1, m1.position_ ≤ x.position_ := by
            intro x hx
            rcases List.mem_cons.1 hx with rfl | hx
            · exact le_refl _
            · exact hs1c.1 x hx
          have hall2 : ∀ x ∈ m2 :: r2, m1.position_ ≤ x.position_ := by
            intro x hx
            rcases List.mem_cons.1 hx with rfl | hx
            · exact heq.le
            · exact heq ▸ hs2c.1 x hx
          have hlen1 : (r1.dropWhile q).length ≤ r1.length :=
            (List.dropWhile_sublist q).length_le
          have hlen2 : (r2.dropWhile q).length ≤ r2.length :=
            (List.dropWhile_sublist q).length_le
          have hrun := ih (r1.dropWhile q) (r2.dropWhile q) (by omega)
            (hs1c.2.sublist (List.dropWhile_sublist q)) (hs2c.2.sublist (List.dropWhile_sublist q))
          have ev1 : (m1 :: r1.takeWhile q).map (tiedEvent1 mem m1.position_ (m2 :: r2)) =
              (m1 :: r1.takeWhile q).map (genome1Event mem (m2 :: r2)) :=
            List.map_congr_left (fun a ha => by
              have hp := hrun1 a ha
              rw [← hp]
              exact tiedEvent1_eq mem _ a hs2 (fun x hx => hp ▸ hall2 x hx))
          have ev2 : (m2 :: r2.takeWhile q).map (tiedEvent2 mem m1.position_ (m1 :: r1)) =
              (m2 :: r2.takeWhile q).map (genome2Event mem (m1 :: r1)) :=
            List.map_congr_left (fun b hb => by
              have hp := hrun2 b hb
              rw [← hp]
              exact tiedEvent2_eq mem _ b hs1 (fun x hx => hp ▸ hall1 x hx))
          have ev3 : ∀ a ∈ r1.dropWhile q,
              genome1Event mem (r2.dropWhile q) a = genome1Event mem (m2 :: r2) a :=
            fun a ha => by
              conv_rhs => rw [hsplit2]
              exact (genome1Event_append_left mem _ _ a (fun b hb => by
                rw [hrun2 b hb]
                exact (hrest1 a ha).ne)).symm
          have ev4 : ∀ b ∈ r2.dropWhile q,
              genome2Event mem (r1.dropWhile q) b = genome2Event mem (m1 :: r1) b :=
            fun b hb => by
              conv_rhs => rw [hsplit1]
              exact (genome2Event_append_left mem _ _ b (fun a ha => by
                rw [hrun1 a ha]
                exact (hrest2 b hb).ne)).symm
          have horder : ∀ e1 e2 : Mutation → Event,
              mergeOrder e1 e2 (m1 :: r1) (m2 :: r2) =
                (m1 :: r1.takeWhile q).map e1 ++
                  ((m2 :: r2.takeWhile q).map e2 ++
                    mergeOrder e1 e2 (r1.dropWhile q) (r2.dropWhile q)) := by
            intro e1 e2
            have step1 : mergeOrder e1 e2 ((m1 :: r1.takeWhile q) ++ r1.dropWhile q) (m2 :: r2) =
                (m1 :: r1.takeWhile q).map e1 ++ mergeOrder e1 e2 (r1.dropWhile q) (m2 :: r2) :=
              mergeOrder_run_left e1 e2 m2 r2 _ _ (fun a ha => by
                rw [hrun1 a ha, heq]
                exact lt_irrefl _)
            have step2 : mergeOrder e1 e2 (r1.dropWhile q)
                ((m2 :: r2.takeWhile q) ++ r2.dropWhile q) =
                (m2 :: r2.takeWhile q).map e2 ++
                  mergeOrder e1 e2 (r1.dropWhile q) (r2.dropWhile q) :=
              mergeOrder_run_right e1 e2 _ _ _ (fun b hb a ha => by
                rw [hrun2 b hb]
                exact hrest1 a ha)
            rw [← hsplit1] at step1
            rw [← hsplit2] at step2
            rw [step1, step2]
          rw [horder, mergeAll_tie mem m1 m2 r1 r2 w heq,
            tiedRun_eq _ _ (genome1_tied_step_eq mem m1.position_ (m2 :: r2)) m1.position_ r1 m1 w,
            ev1, runEvents_append]
          cases runEvents ((m1 :: r1.takeWhile q).map (genome1Event mem (m2 :: r2))) w with
          | none => rfl
          | some w1 =>
            simp only
            rw [tiedRun_eq _ _ (genome2_tied_step_eq mem m1.position_ (m1 :: r1)) m1.position_
              r2 m2 w1, ev2, runEvents_append]
            cases runEvents ((m2 :: r2.takeWhile q).map (genome2Event mem (m1 :: r1))) w1 with
            | none => rfl
            | some w2 =>
              simp only
              rw [hrun w2, mergeOrder_congr _ _ (genome1Event mem (m2 :: r2))
                (genome2Event mem (m1 :: r1)) _ _ ev3 ev4]
        · -- genome 2 leads
          have hrun := ih (m1 :: r1) r2 (by simp only [List.length_cons]; omega) hs1 hs2c.2
          have hge1 : ∀ a ∈ m1 :: r1, m2.position_ < a.position_ := by
            intro a ha
            rcases List.mem_cons.1 ha with rfl | ha
            · exact hgt
            · exact lt_of_lt_of_le hgt (hs1c.1 a ha)
          have e1 : genome2Event mem (m1 :: r1) m2 = scanEvent (hetFactor mem) m2 :=
            genome2Event_of_position_ne mem _ m2 (fun a ha => (hge1 a ha).ne')
          have e2 : ∀ a ∈ m1 :: r1, genome1Event mem r2 a = genome1Event mem (m2 :: r2) a :=
            fun a ha => (genome1Event_append_left mem [m2] r2 a (by
              intro b hb
              rw [List.mem_singleton.1 hb]
              exact (hge1 a ha).ne)).symm
          rw [mergeOrder_cons_of_lt _ _ m1 m2 r1 r2 hgt, e1,
            mergeAll_gt mem m1 m2 r1 r2 w hgt, leading_step_eq, runEvents]
          cases (scanEvent (hetFactor mem) m2).apply w with
          | none => rfl
          | some w1 =>
            simp only
            rw [hrun w1, mergeOrder_congr _ _ (genome1Event mem (m2 :: r2))
              (genome2Event mem (m1 :: r1)) (m1 :: r1) r2 e2 (fun _ _ => rfl)]

/-! ## Mutations with selection coefficient zero -/

/-- Events that leave the running product alone can be dropped from a trace. -/
theorem runEvents_filter_effective (es : List Event) :
    ∀ w, runEvents (es.filter Event.effective) w = runEvents es w := by
  induction es with
  | nil => intro w; rfl
  | cons e es ih =>
    intro w
    cases e with
    | skip => simp [List.filter_cons, Event.effective, runEvents, Event.apply, ih]
    | hom f => simp [List.filter_cons, Event.effective, runEvents, Event.apply, ih]
    | het f =>
      by_cases hw : w * f ≤ 0
      · simp [List.filter_cons, Event.effective, runEvents, Event.apply, hw]
      · simp [List.filter_cons, Event.effective, runEvents, Event.apply, hw, ih]

theorem mergeOrder_dropWhile (e1 e2 : Mutation → Event) (q : Int) (l2 g2 : List Mutation)
    (h : ∀ a ∈ l2, q ≤ a.position_) :
    mergeOrder e1 e2 l2 g2 =
      (g2.takeWhile (fun b => decide (b.position_ < q))).map e2 ++
        mergeOrder e1 e2 l2 (g2.dropWhile (fun b => decide (b.position_ < q))) := by
  cases l2 with
  | nil =>
    simp only [mergeOrder]
    rw [← List.map_append, List.takeWhile_append_dropWhile]
  | cons a r =>
    have hqa := h a (List.mem_cons_self _ _)
    obtain ⟨h1, h2⟩ := takeWhile_dropWhile_of_imp (fun b => decide (b.position_ < q))
      (fun b => decide (b.position_ < a.position_))
      (fun x hx => by
        simp only [decide_eq_true_eq] at hx ⊢
        omega) g2
    simp only [mergeOrder]
    rw [h1, h2, List.map_append, List.append_assoc]

/-- Deleting from genome 1 a mutation whose event is `skip` leaves the effective events of the
merge and their order unchanged. -/
theorem mergeOrder_erase_left (e1 e2 : Mutation → Event) (m0 : Mutation)
    (he : e1 m0 = Event.skip) (l2 : List Mutation)
    (hl2 : ∀ a ∈ l2, m0.position_ ≤ a.position_) :
    ∀ (l1 g2 : List Mutation),
      (mergeOrder e1 e2 (l1 ++ m0 :: l2) g2).filter Event.effective =
        (mergeOrder e1 e2 (l1 ++ l2) g2).filter Event.effective := by
  intro l1
  induction l1 with
  | nil =>
    intro g2
    simp only [List.nil_append, mergeOrder]
    rw [mergeOrder_dropWhile e1 e2 m0.position_ l2 g2 hl2]
    simp [List.filter_cons, he, Event.effective]
  | cons a t ih =>
    intro g2
    show (mergeOrder e1 e2 (a :: (t ++ m0 :: l2)) g2).filter Event.effective =
      (mergeOrder e1 e2 (a :: (t ++ l2)) g2).filter Event.effective
    simp only [mergeOrder, List.filter_append, List.filter_cons, ih]

/-- Deleting from genome 2 a mutation whose event is `skip` leaves the effective events of the
merge and their order unchanged. -/
theorem mergeOrder_erase_right (e1 e2 : Mutation → Event) (m0 : Mutation)
    (he : e2 m0 = Event.skip) (l2 : List Mutation)
    (hl2 : ∀ b ∈ l2, m0.position_ ≤ b.position_) :
    ∀ (g1 l1 : List Mutation), (∀ b ∈ l1, b.position_ ≤ m0.position_) →
      (mergeOrder e1 e2 g1 (l1 ++ m0 :: l2)).filter Event.effective =
        (mergeOrder e1 e2 g1 (l1 ++ l2)).filter Event.effective := by
  intro g1
  induction g1 with
  | nil =>
    intro l1 _
    simp [mergeOrder, List.filter_cons, he, Event.effective]
  | cons a r ih =>
    intro l1 hl1
    by_cases hlt : m0.position_ < a.position_
    · have hP : ∀ b ∈ l1,
          (fun b : Mutation => decide (b.position_ < a.position_)) b = true := by
        intro b hb
        have := hl1 b hb
        simp only [decide_eq_true_eq]
        omega
      have hm0 : decide (m0.position_ < a.position_) = true := by simp [hlt]
      simp only [mergeOrder]
      rw [List.takeWhile_append_of_pos hP, List.dropWhile_append_of_pos hP,
        List.takeWhile_append_of_pos hP, List.dropWhile_append_of_pos hP,
        List.takeWhile_cons_of_pos (p := fun b : Mutation => decide (b.position_ < a.position_)) (a := m0) (l := l2) hm0,
        List.dropWhile_cons_of_pos (p := fun b : Mutation => decide (b.position_ < a.position_)) (a := m0) (l := l2) hm0]
      simp [List.filter_cons, he, Event.effective]
    · have hN2 : ∀ x ∈ l2,
          ¬ (fun b : Mutation => decide (b.position_ < a.position_)) x = true := by
        intro x hx
        have := hl2 x hx
        simp only [decide_eq_true_eq]
        omega
      have hN1 : ∀ x ∈ m0 :: l2,
          ¬ (fun b : Mutation => decide (b.position_ < a.position_)) x = true := by
        intro x hx
        rcases List.mem_cons.1 hx with rfl | hx
        · simpa using hlt
        · exact hN2 x hx
      obtain ⟨t1, d1⟩ := takeWhile_dropWhile_append_of_neg _ (m0 :: l2) hN1 l1
      obtain ⟨t2, d2⟩ := takeWhile_dropWhile_append_of_neg _ l2 hN2 l1
      simp only [mergeOrder]
      rw [t1, d1, t2, d2]
      simp only [List.filter_append, List.filter_cons]
      rw [ih _ (fun b hb => hl1 b ((List.dropWhile_sublist _).subset hb))]

theorem hasMatch_erase (l1 l2 : List Mutation) (m0 a : Mutation)
    (h0 : m0.selection_coeff_ = 0) (ha : a.selection_coeff_ ≠ 0) :
    hasMatch (l1 ++ m0 :: l2) a = hasMatch (l1 ++ l2) a := by
  have hne : ¬ (m0.position_ = a.position_ ∧ m0.mutation_type_ptr_ = a.mutation_type_ptr_ ∧
      m0.selection_coeff_ = a.selection_coeff_) := by
    rintro ⟨_, _, h3⟩
    exact ha (by rw [← h3, h0])
  have hd : decide (m0.position_ = a.position_ ∧ m0.mutation_type_ptr_ = a.mutation_type_ptr_ ∧
      m0.selection_coeff_ = a.selection_coeff_) = false := decide_eq_false hne
  simp only [hasMatch, List.any_append, List.any_cons, hd, Bool.false_or]

theorem genome1Event_erase (mem : Memory) (l1 l2 : List Mutation) (m0 a : Mutation)
    (h0 : m0.selection_coeff_ = 0) :
    genome1Event mem (l1 ++ m0 :: l2) a = genome1Event mem (l1 ++ l2) a := by
  by_cases ha : a.selection_coeff_ = 0
  · simp [genome1Event, ha]
  · simp only [genome1Event, hasMatch_erase l1 l2 m0 a h0 ha]

theorem genome2Event_erase (mem : Memory) (l1 l2 : List Mutation) (m0 b : Mutation)
    (h0 : m0.selection_coeff_ = 0) :
    genome2Event mem (l1 ++ m0 :: l2) b = genome2Event mem (l1 ++ l2) b := by
  by_cases hb : b.selection_coeff_ = 0
  · simp [genome2Event, hb]
  · simp only [genome2Event, hasMatch_erase l1 l2 m0 b h0 hb]

theorem scanLoop_erase (factor : Mutation → ℚ) (m0 : Mutation) (h0 : m0.selection_coeff_ = 0)
    (l2 : List Mutation) :
    ∀ (l1 : List Mutation) (w : ℚ),
      scanLoop factor (l1 ++ l2) w = scanLoop factor (l1 ++ m0 :: l2) w := by
  intro l1
  induction l1 with
  | nil =>
    intro w
    simp [scanLoop, h0]
  | cons a t ih =>
    intro w
    show scanLoop factor (a :: (t ++ l2)) w = scanLoop factor (a :: (t ++ m0 :: l2)) w
    simp only [scanLoop, ih]

/-- Deleting a mutation with selection coefficient zero from genome 1 does not change the
outcome of the merge. -/
theorem mergeAll_erase_left (mem : Memory) (l1 l2 g2 : List Mutation) (m0 : Mutation)
    (h0 : m0.selection_coeff_ = 0) (hs1 : PositionSorted (l1 ++ m0 :: l2))
    (hs2 : PositionSorted g2) (w : ℚ) :
    mergeAll mem (l1 ++ l2) g2 w = mergeAll mem (l1 ++ m0 :: l2) g2 w := by
  have hs1e : PositionSorted (l1 ++ l2) :=
    List.Pairwise.sublist ((List.sublist_cons_self m0 l2).append_left l1) hs1
  have hl2 : ∀ a ∈ l2, m0.position_ ≤ a.position_ :=
    (List.pairwise_cons.1 (List.pairwise_append.1 hs1).2.1).1
  have he : genome1Event mem g2 m0 = Event.skip := by simp [genome1Event, h0]
  rw [mergeAll_order mem _ _ _ le_rfl hs1e hs2 w, mergeAll_order mem _ _ _ le_rfl hs1 hs2 w,
    mergeOrder_congr (genome1Event mem g2) (genome2Event mem (l1 ++ l2)) (genome1Event mem g2)
      (genome2Event mem (l1 ++ m0 :: l2)) (l1 ++ l2) g2 (fun _ _ => rfl)
      (fun b _ => (genome2Event_erase mem l1 l2 m0 b h0).symm),
    ← runEvents_filter_effective (mergeOrder (genome1Event mem g2)
      (genome2Event mem (l1 ++ m0 :: l2)) (l1 ++ l2) g2) w,
    ← runEvents_filter_effective (mergeOrder (genome1Event mem g2)
      (genome2Event mem (l1 ++ m0 :: l2)) (l1 ++ m0 :: l2) g2) w,
    mergeOrder_erase_left _ _ m0 he l2 hl2 l1 g2]

/-- Deleting a mutation with selection coefficient zero from genome 2 does not change the
outcome of the merge. -/
theorem mergeAll_erase_right (mem : Memory) (g1 l1 l2 : List Mutation) (m0 : Mutation)
    (h0 : m0.selection_coeff_ = 0) (hs1 : PositionSorted g1)
    (hs2 : PositionSorted (l1 ++ m0 :: l2)) (w : ℚ) :
    mergeAll mem g1 (l1 ++ l2) w = mergeAll mem g1 (l1 ++ m0 :: l2) w := by
  have hs2e : PositionSorted (l1 ++ l2) :=
    List.Pairwise.sublist ((List.sublist_cons_self m0 l2).append_left l1) hs2
  have hl2 : ∀ a ∈ l2, m0.position_ ≤ a.position_ :=
    (List.pairwise_cons.1 (List.pairwise_append.1 hs2).2.1).1
  have hl1 : ∀ b ∈ l1, b.position_ ≤ m0.position_ :=
    fun b hb => (List.pairwise_append.1 hs2).2.2 b hb m0 (List.mem_cons_self _ _)
  have he : genome2Event mem g1 m0 = Event.skip := by simp [genome2Event, h0]
  rw [mergeAll_order mem _ _ _ le_rfl hs1 hs2e w, mergeAll_order mem _ _ _ le_rfl hs1 hs2 w,
    mergeOrder_congr (genome1Event mem (l1 ++ l2)) (genome2Event mem g1)
      (genome1Event mem (l1 ++ m0 :: l2)) (genome2Event mem g1) g1 (l1 ++ l2)
      (fun a _ => (genome1Event_erase mem l1 l2 m0 a h0).symm) (fun _ _ => rfl),
    ← runEvents_filter_effective (mergeOrder (genome1Event mem (l1 ++ m0 :: l2))
      (genome2Event mem g1) g1 (l1 ++ l2)) w,
    ← runEvents_filter_effective (mergeOrder (genome1Event mem (l1 ++ m0 :: l2))
      (genome2Event mem g1) g1 (l1 ++ m0 :: l2)) w,
    mergeOrder_erase_right _ _ m0 he l2 hl2 g1 l1 hl1]

theorem fitnessOfGenomes_erase_left (mem : Memory) (xd : ℚ) (genome1 genome2 : Genome)
    (l1 l2 : List Nat) (p : Nat) (hm : genome1.mutations_ = l1 ++ p :: l2)
    (hp : (mem.mutation p).selection_coeff_ = 0)
    (hs1 : PositionSorted (genome1.records mem)) (hs2 : PositionSorted (genome2.records mem)) :
    fitnessOfGenomes mem xd { genome1 with mutations_ := l1 ++ l2 } genome2 =
      fitnessOfGenomes mem xd genome1 genome2 := by
  obtain ⟨t1, n1, ms1⟩ := genome1
  simp only at hm
  subst hm
  have hr1 : Genome.records mem ⟨t1, n1, l1 ++ p :: l2⟩ =
      l1.map mem.mutation ++ mem.mutation p :: l2.map mem.mutation := by
    simp [Genome.records]
  have hr2 : Genome.records mem ⟨t1, n1, l1 ++ l2⟩ =
      l1.map mem.mutation ++ l2.map mem.mutation := by
    simp [Genome.records]
  rw [hr1] at hs1
  cases n1 with
  | true =>
    cases h2 : genome2.is_null_ with
    | true => simp [fitnessOfGenomes, h2]
    | false => simp [fitnessOfGenomes, h2]
  | false =>
    cases h2 : genome2.is_null_ with
    | true =>
      simp only [fitnessOfGenomes, h2, hr1, hr2, Bool.false_eq_true, false_and, if_false,
        false_or, if_true]
      split <;>
        exact congrArg (fun o => Option.getD o 0) (scanLoop_erase _ (mem.mutation p) hp _ _ 1)
    | false =>
      rw [fitnessOfGenomes_nonnull mem xd _ genome2 rfl h2,
        fitnessOfGenomes_nonnull mem xd _ genome2 rfl h2, hr1, hr2,
        mergeAll_erase_left mem _ _ _ (mem.mutation p) hp hs1 hs2]

theorem fitnessOfGenomes_erase_right (mem : Memory) (xd : ℚ) (genome1 genome2 : Genome)
    (l1 l2 : List Nat) (p : Nat) (hm : genome2.mutations_ = l1 ++ p :: l2)
    (hp : (mem.mutation p).selection_coeff_ = 0)
    (hs1 : PositionSorted (genome1.records mem)) (hs2 : PositionSorted (genome2.records mem)) :
    fitnessOfGenomes mem xd genome1 { genome2 with mutations_ := l1 ++ l2 } =
      fitnessOfGenomes mem xd genome1 genome2 := by
  obtain ⟨t2, n2, ms2⟩ := genome2
  simp only at hm
  subst hm
  have hr1 : Genome.records mem ⟨t2, n2, l1 ++ p :: l2⟩ =
      l1.map mem.mutation ++ mem.mutation p :: l2.map mem.mutation := by
    simp [Genome.records]
  have hr2 : Genome.records mem ⟨t2, n2, l1 ++ l2⟩ =
      l1.map mem.mutation ++ l2.map mem.mutation := by
    simp [Genome.records]
  rw [hr1] at hs2
  cases n2 with
  | true =>
    cases h1 : genome1.is_null_ with
    | true => simp [fitnessOfGenomes, h1]
    | false => simp [fitnessOfGenomes, h1]
  | false =>
    cases h1 : genome1.is_null_ with
    | true =>
      simp only [fitnessOfGenomes, h1, hr1, hr2, Bool.false_eq_true, and_false, if_false,
        or_false, if_true]
      split <;>
        exact congrArg (fun o => Option.getD o 0) (scanLoop_erase _ (mem.mutation p) hp _ _ 1)
    | false =>
      rw [fitnessOfGenomes_nonnull mem xd genome1 _ h1 rfl,
        fitnessOfGenomes_nonnull mem xd genome1 _ h1 rfl, hr1, hr2,
        mergeAll_erase_right mem _ _ _ (mem.mutation p) hp hs1 hs2]

/-- Claim C11. Mutations with selection coefficient zero have no fitness effect: for two
parent genomes whose mutations are sorted by position, deleting a mutation with selection
coefficient zero from either genome (at any place `l1 ++ p :: l2` of its mutation list, shared
position or not) leaves the value of `FitnessOfParentWithGenomeIndices` unchanged. The
subpopulation `sp1` holds the genomes after the deletion at the indices `i1` and `j1`. -/
theorem fitness_zero_coefficient_deleted (sp sp1 : Subpopulation) (mem : Memory)
    (i j i1 j1 : Nat) (genome1 genome2 : Genome) (l1 l2 : List Nat) (p : Nat)
    (hx : sp1.x_chromosome_dominance_coeff_ = sp.x_chromosome_dominance_coeff_)
    (hi : sp.parent_genomes_[i]? = some genome1) (hj : sp.parent_genomes_[j]? = some genome2)
    (hs1 : PositionSorted (genome1.records mem)) (hs2 : PositionSorted (genome2.records mem))
    (hp : (mem.mutation p).selection_coeff_ = 0)
    (hdel : (genome1.mutations_ = l1 ++ p :: l2 ∧
        sp1.parent_genomes_[i1]? = some { genome1 with mutations_ := l1 ++ l2 } ∧
        sp1.parent_genomes_[j1]? = some genome2) ∨
      (genome2.mutations_ = l1 ++ p :: l2 ∧
        sp1.parent_genomes_[i1]? = some genome1 ∧
        sp1.parent_genomes_[j1]? = some { genome2 with mutations_ := l1 ++ l2 })) :
    FitnessOfParentWithGenomeIndices sp1 mem i1 j1 =
      FitnessOfParentWithGenomeIndices sp mem i j := by
  rw [FitnessOfParentWithGenomeIndices_eq sp mem i j genome1 genome2 hi hj]
  rcases hdel with ⟨hm, hi1, hj1⟩ | ⟨hm, hi1, hj1⟩
  · rw [FitnessOfParentWithGenomeIndices_eq sp1 mem i1 j1 _ _ hi1 hj1, hx,
      fitnessOfGenomes_erase_left mem _ genome1 genome2 l1 l2 p hm hp hs1 hs2]
  · rw [FitnessOfParentWithGenomeIndices_eq sp1 mem i1 j1 _ _ hi1 hj1, hx,
      fitnessOfGenomes_erase_right mem _ genome1 genome2 l1 l2 p hm hp hs1 hs2]

/-- The claim at genomes that share position 0 through two mutations with selection
coefficient zero (addresses 11 and 12): deleting address 11 from the first genome. -/
theorem fitness_zero_coefficient_deleted_witness :
    FitnessOfParentWithGenomeIndices
        (exSubpop 1 [⟨GenomeType.kAutosome, false, [0]⟩, ⟨GenomeType.kAutosome, false, [12, 1]⟩])
        exMem 0 1 =
      FitnessOfParentWithGenomeIndices
        (exSubpop 1 [⟨GenomeType.kAutosome, false, [11, 0]⟩,
          ⟨GenomeType.kAutosome, false, [12, 1]⟩]) exMem 0 1 :=
  fitness_zero_coefficient_deleted
    (exSubpop 1 [⟨GenomeType.kAutosome, false, [11, 0]⟩, ⟨GenomeType.kAutosome, false, [12, 1]⟩])
    (exSubpop 1 [⟨GenomeType.kAutosome, false, [0]⟩, ⟨GenomeType.kAutosome, false, [12, 1]⟩])
    exMem 0 1 0 1 ⟨GenomeType.kAutosome, false, [11, 0]⟩ ⟨GenomeType.kAutosome, false, [12, 1]⟩
    [] [0] 11 rfl rfl rfl
    (by simp [PositionSorted, Genome.records, exMem])
    (by simp [PositionSorted, Genome.records, exMem])
    (by simp [exMem])
    (Or.inl ⟨rfl, rfl, rfl⟩)

/-! ## The sex of a child and the chromosomes fitted -/

/-- Claim C32. After a successful sex-enabled `GenerateChildrenToFit` with modeled type X or Y,
for every child index `i` with `0 <= i < child_subpop_size_` the child genomes `2i` and `2i+1`
exist, `SexOfChild(i)` is male iff genome `2i+1` has type Y, and female iff genomes `2i` and
`2i+1` both have type X. -/
theorem sex_of_child_matches_chromosomes (sp sp1 : Subpopulation) (p_parents_also : Bool)
    (hsex : sp.sex_enabled_ = true)
    (hm : sp.modeled_chromosome_type_ = GenomeType.kXChromosome ∨
      sp.modeled_chromosome_type_ = GenomeType.kYChromosome)
    (h : GenerateChildrenToFit sp p_parents_also = Except.ok sp1)
    (i : Nat) (hi : (i : Int) < sp1.child_subpop_size_) :
    ∃ g1 g2, sp1.child_genomes_[2 * i]? = some g1 ∧ sp1.child_genomes_[2 * i + 1]? = some g2 ∧
      (SexOfChild sp1 (i : Int) = IndividualSex.kMale ↔
        g2.genome_type_ = GenomeType.kYChromosome) ∧
      (SexOfChild sp1 (i : Int) = IndividualSex.kFemale ↔
        g1.genome_type_ = GenomeType.kXChromosome ∧
          g2.genome_type_ = GenomeType.kXChromosome) := by
  obtain ⟨⟨hcond, hfits⟩, rfl⟩ := (GenerateChildrenToFit_ok_iff sp p_parents_also sp1).1 h
  have hma : sp.modeled_chromosome_type_ ≠ GenomeType.kAutosome := by
    rcases hm with hm | hm <;> rw [hm] <;> decide
  rcases hcond with ⟨_, h1, h2, _⟩ | ⟨hf, _⟩
  · have hlay := fitted_buffer_layout sp.modeled_chromosome_type_ sp.child_subpop_size_
      (child_index sp) hma h1.le h2.le
    have hbuf : (fitted sp p_parents_also).child_genomes_ =
        fitted_buffer true sp.modeled_chromosome_type_ sp.child_subpop_size_ (child_index sp) := by
      simp only [fitted, hsex]
    have hidx : (fitted sp p_parents_also).child_first_male_index_ = child_index sp := by
      simp only [fitted, hsex, if_true]
    have hse : (fitted sp p_parents_also).sex_enabled_ = true := hsex
    have hsz : (fitted sp p_parents_also).child_subpop_size_ = sp.child_subpop_size_ := rfl
    rw [hsz] at hi
    rw [hbuf]
    by_cases hlt : (i : Int) < child_index sp
    · obtain ⟨g1, g2, e1, e2, t1, t2⟩ := hlay.1 i hlt
      refine ⟨g1, g2, e1, e2, ?_, ?_⟩
      · simp [SexOfChild, hse, hidx, hlt, t2]
      · simp [SexOfChild, hse, hidx, hlt, t1, t2]
    · obtain ⟨g1, g2, e1, e2, t1, t2⟩ := hlay.2.1 i (not_lt.1 hlt) hi
      refine ⟨g1, g2, e1, e2, ?_, ?_⟩
      · simp [SexOfChild, hse, hidx, hlt, t2]
      · simp [SexOfChild, hse, hidx, hlt, t2]
  · rw [hsex] at hf
    cases hf

/-- The claim at the example subpopulation of size 4, sex ratio 1/2, modeled Y, child 3. -/
theorem sex_of_child_matches_chromosomes_witness :
    ∃ g1 g2,
      (fitted (exSexSubpop 4 (1 / 2) GenomeType.kYChromosome) false).child_genomes_[2 * 3]? =
        some g1 ∧
      (fitted (exSexSubpop 4 (1 / 2) GenomeType.kYChromosome) false).child_genomes_[2 * 3 + 1]? =
        some g2 ∧
      (SexOfChild (fitted (exSexSubpop 4 (1 / 2) GenomeType.kYChromosome) false) ((3 : Nat) : Int) =
          IndividualSex.kMale ↔ g2.genome_type_ = GenomeType.kYChromosome) ∧
      (SexOfChild (fitted (exSexSubpop 4 (1 / 2) GenomeType.kYChromosome) false) ((3 : Nat) : Int) =
          IndividualSex.kFemale ↔
        g1.genome_type_ = GenomeType.kXChromosome ∧
          g2.genome_type_ = GenomeType.kXChromosome) :=
  sex_of_child_matches_chromosomes (exSexSubpop 4 (1 / 2) GenomeType.kYChromosome) _ false rfl
    (Or.inr rfl) (exSexSubpop_fit GenomeType.kYChromosome false) 3
    (by show ((3 : Nat) : Int) < 4; decide)

/-! ## Fitting twice -/

/-- What the child generation holds never reaches the fit: the buffer is cleared first. -/
theorem GenerateChildrenToFit_child_genomes (sp : Subpopulation) (v : List Genome)
    (p_parents_also : Bool) :
    GenerateChildrenToFit { sp with child_genomes_ := v } p_parents_also =
      GenerateChildrenToFit sp p_parents_also := rfl

/-- The closed form of a fit is a fixed point of the closed form. -/
theorem fitted_fitted (sp : Subpopulation) (p_parents_also : Bool) :
    fitted (fitted sp p_parents_also) p_parents_also = fitted sp p_parents_also := by
  cases hs : sp.sex_enabled_ <;> cases p_parents_also <;>
    simp [fitted, child_index, parent_index, hs]

theorem fitted_fitted_children (sp : Subpopulation) (p_parents_also : Bool) :
    fitted (fitted sp p_parents_also) false = fitted sp p_parents_also := by
  cases hs : sp.sex_enabled_ <;> cases p_parents_also <;>
    simp [fitted, child_index, parent_index, hs]

/-- Claim C33 fails as stated: with sex disabled the fit does not touch
`child_first_male_index_`, so two states with the same sex flag, modeled type, child size and
child sex ratio keep their different first male indices (0 and 7 here). -/
theorem fit_keeps_first_male_index_when_sex_disabled :
    GenerateChildrenToFit (exSubpop 1 [default_genome, default_genome]) false =
        Except.ok (fitted (exSubpop 1 [default_genome, default_genome]) false) ∧
      GenerateChildrenToFit { exSubpop 1 [default_genome, default_genome] with child_first_male_index_ := 7 } false =
        Except.ok (fitted { exSubpop 1 [default_genome, default_genome] with child_first_male_index_ := 7 } false) ∧
      (fitted (exSubpop 1 [default_genome, default_genome]) false).child_first_male_index_ = 0 ∧
      (fitted { exSubpop 1 [default_genome, default_genome] with child_first_male_index_ := 7 } false).child_first_male_index_
        = 7 := by
  refine ⟨?_, ?_, rfl, rfl⟩
  · rw [GenerateChildrenToFit_ok_iff]
    exact ⟨⟨Or.inr ⟨rfl, by decide, fun h => by cases h⟩, by decide, fun h => by cases h⟩, rfl⟩
  · rw [GenerateChildrenToFit_ok_iff]
    exact ⟨⟨Or.inr ⟨rfl, by decide, fun h => by cases h⟩, by decide, fun h => by cases h⟩, rfl⟩

/-- Claim C33, amended. A successful `GenerateChildrenToFit` is idempotent (running it again,
with the same flag or for the children only, gives the same state) and does not depend on what
the child buffer held; the fitted child buffer is a function only of the sex flag, the modeled
chromosome type, the child size and the child sex ratio, and so is the child first male index
when sex is enabled; with sex disabled the fit leaves the child first male index as it was. -/
theorem fit_idempotent (sp sp1 : Subpopulation) (p_parents_also : Bool)
    (h : GenerateChildrenToFit sp p_parents_also = Except.ok sp1) :
    GenerateChildrenToFit sp1 p_parents_also = Except.ok sp1 ∧
      GenerateChildrenToFit sp1 false = Except.ok sp1 ∧
      (∀ v : List Genome,
        GenerateChildrenToFit { sp with child_genomes_ := v } p_parents_also = Except.ok sp1) ∧
      (∀ (sp2 sp3 : Subpopulation) (b : Bool),
        sp2.sex_enabled_ = sp.sex_enabled_ →
        sp2.modeled_chromosome_type_ = sp.modeled_chromosome_type_ →
        sp2.child_subpop_size_ = sp.child_subpop_size_ →
        sp2.child_sex_ratio_ = sp.child_sex_ratio_ →
        GenerateChildrenToFit sp2 b = Except.ok sp3 →
          sp3.child_genomes_ = sp1.child_genomes_ ∧
          (sp.sex_enabled_ = true →
            sp3.child_first_male_index_ = sp1.child_first_male_index_)) ∧
      (sp.sex_enabled_ = false → sp1.child_first_male_index_ = sp.child_first_male_index_) := by
  obtain ⟨⟨hcond, hfits⟩, rfl⟩ := (GenerateChildrenToFit_ok_iff sp p_parents_also sp1).1 h
  have hse : (fitted sp p_parents_also).sex_enabled_ = sp.sex_enabled_ := rfl
  have hci : child_index (fitted sp p_parents_also) = child_index sp := rfl
  have hcs : (fitted sp p_parents_also).child_subpop_size_ = sp.child_subpop_size_ := rfl
  have hpi : parent_index (fitted sp p_parents_also) = parent_index sp := rfl
  have hps : (fitted sp p_parents_also).parent_subpop_size_ = sp.parent_subpop_size_ := rfl
  refine ⟨?_, ?_, fun v => ?_, fun sp2 sp3 b e1 e2 e3 e4 h2 => ?_, fun hs => ?_⟩
  · rw [GenerateChildrenToFit_ok_iff, hse, hci, hcs, hpi, hps]
    exact ⟨⟨hcond, hfits⟩, (fitted_fitted sp p_parents_also).symm⟩
  · rw [GenerateChildrenToFit_ok_iff, hse, hci, hcs]
    refine ⟨⟨?_, hfits.1, fun hb => by cases hb⟩,
      (fitted_fitted_children sp p_parents_also).symm⟩
    rcases hcond with ⟨c1, c2, c3, _⟩ | ⟨c1, c2, _⟩
    · exact Or.inl ⟨c1, c2, c3, fun hb => by cases hb⟩
    · exact Or.inr ⟨c1, c2, fun hb => by cases hb⟩
  · rw [GenerateChildrenToFit_child_genomes]
    exact h
  · obtain ⟨_, rfl⟩ := (GenerateChildrenToFit_ok_iff sp2 b sp3).1 h2
    have hidx : child_index sp2 = child_index sp := by
      simp only [child_index, e3, e4]
    constructor
    · simp only [fitted, e1, e2, e3, hidx]
    · intro hs
      simp only [fitted, e1, hs, if_true, hidx]
  · simp [fitted, hs]

/-- The amended claim at the example subpopulation of size 4 with sex ratio 1/2 and modeled
X: fitting the fitted state again changes nothing. -/
theorem fit_idempotent_witness :
    GenerateChildrenToFit (fitted (exSexSubpop 4 (1 / 2) GenomeType.kXChromosome) true) true =
      Except.ok (fitted (exSexSubpop 4 (1 / 2) GenomeType.kXChromosome) true) :=
  (fit_idempotent (exSexSubpop 4 (1 / 2) GenomeType.kXChromosome) _ true
    (exSexSubpop_fit GenomeType.kXChromosome true)).1

/-! ## Command-line parsing -/

theorem not_usageForm_nil : ¬ UsageForm [] := by
  rintro ⟨groups, file, _, _, _, h⟩
  have := congrArg List.length h
  simp at this

theorem usageForm_time (rest : List String) : UsageForm ("-time" :: rest) ↔ UsageForm rest := by
  constructor
  · rintro ⟨groups, file, hg, h1, h2, h⟩
    cases groups with
    | nil =>
      simp only [List.flatten_nil, List.nil_append, List.cons.injEq] at h
      exact absurd h.1.symm h2
    | cons g gs =>
      have hgs : ∀ x ∈ gs, OptionGroup x := fun x hx => hg x (List.mem_cons_of_mem _ hx)
      cases hg g (List.mem_cons_self _ _) with
      | time =>
        simp only [List.flatten_cons, List.cons_append, List.nil_append, List.cons.injEq,
          true_and] at h
        exact ⟨gs, file, hgs, h1, h2, h⟩
      | seed value =>
        simp only [List.flatten_cons, List.cons_append, List.cons.injEq] at h
        exact absurd h.1 (by decide)
  · rintro ⟨groups, file, hg, h1, h2, h⟩
    refine ⟨["-time"] :: groups, file, ?_, h1, h2, ?_⟩
    · intro g hgm
      rcases List.mem_cons.1 hgm with rfl | hgm
      · exact OptionGroup.time
      · exact hg g hgm
    · simp [h]

theorem usageForm_seed (rest : List String) :
    UsageForm ("-seed" :: rest) ↔ ∃ value rest1, rest = value :: rest1 ∧ UsageForm rest1 := by
  constructor
  · rintro ⟨groups, file, hg, h1, h2, h⟩
    cases groups with
    | nil =>
      simp only [List.flatten_nil, List.nil_append, List.cons.injEq] at h
      exact absurd h.1.symm h1
    | cons g gs =>
      have hgs : ∀ x ∈ gs, OptionGroup x := fun x hx => hg x (List.mem_cons_of_mem _ hx)
      cases hg g (List.mem_cons_self _ _) with
      | time =>
        simp only [List.flatten_cons, List.cons_append, List.cons.injEq] at h
        exact absurd h.1 (by decide)
      | seed value =>
        simp only [List.flatten_cons, List.cons_append, List.nil_append, List.cons.injEq,
          true_and] at h
        exact ⟨value, gs.flatten ++ [file], h, gs, file, hgs, h1, h2, rfl⟩
  · rintro ⟨value, rest1, rfl, groups, file, hg, h1, h2, h⟩
    refine ⟨["-seed", value] :: groups, file, ?_, h1, h2, ?_⟩
    · intro g hgm
      rcases List.mem_cons.1 hgm with rfl | hgm
      · exact OptionGroup.seed value
      · exact hg g hgm
    · simp [h]

theorem usageForm_file (arg : String) (rest : List String) (h1 : arg ≠ "-seed")
    (h2 : arg ≠ "-time") : UsageForm (arg :: rest) ↔ rest = [] := by
  constructor
  · rintro ⟨groups, file, hg, _, _, h⟩
    cases groups with
    | nil =>
      simp only [List.flatten_nil, List.nil_append, List.cons.injEq] at h
      exact h.2
    | cons g gs =>
      cases hg g (List.mem_cons_self _ _) with
      | time =>
        simp only [List.flatten_cons, List.cons_append, List.cons.injEq] at h
        exact absurd h.1 h2
      | seed value =>
        simp only [List.flatten_cons, List.cons_append, List.cons.injEq] at h
        exact absurd h.1 h1
  · rintro rfl
    exact ⟨[], arg, by simp, h1, h2, by simp⟩

/-- The outcome of the argument loop, started without an input file: it ends with an input
file exactly on the argument lists of the usage form, and the file is the last argument. -/
theorem parse_arguments_spec (atoi : String → Int) :
    ∀ (n : Nat) (args : List String) (st : ParsedArguments), args.length ≤ n →
      st.input_file = none →
      (parse_arguments atoi args st = none ∧ ¬ UsageForm args) ∨
      (∃ st1, parse_arguments atoi args st = some st1 ∧ st1.input_file = none ∧
        ¬ UsageForm args) ∨
      (∃ st1 f, parse_arguments atoi args st = some st1 ∧ st1.input_file = some f ∧
        args.getLast? = some f ∧ UsageForm args) := by
  intro n
  induction n with
  | zero =>
    intro args st hlen hst
    have h0 : args = [] := List.length_eq_zero.1 (by omega)
    subst h0
    exact Or.inr (Or.inl ⟨st, rfl, hst, not_usageForm_nil⟩)
  | succ n ih =>
    intro args st hlen hst
    cases args with
    | nil => exact Or.inr (Or.inl ⟨st, rfl, hst, not_usageForm_nil⟩)
    | cons arg rest =>
      simp only [List.length_cons] at hlen
      by_cases hseed : arg = "-seed"
      · subst hseed
        cases rest with
        | nil =>
          left
          refine ⟨by simp [parse_arguments], ?_⟩
          rw [usageForm_seed]
          rintro ⟨value, rest1, h, _⟩
          cases h
        | cons value rest1 =>
          simp only [List.length_cons] at hlen
          have hp : parse_arguments atoi ("-seed" :: value :: rest1) st =
              parse_arguments atoi rest1 { st with override_seed_ptr := some (atoi value) } := by
            simp [parse_arguments]
          have hu : UsageForm ("-seed" :: value :: rest1) ↔ UsageForm rest1 := by
            rw [usageForm_seed]
            constructor
            · rintro ⟨v, r, h, hr⟩
              cases h
              exact hr
            · intro hr
              exact ⟨value, rest1, rfl, hr⟩
          rw [hp, hu]
          rcases ih rest1 { st with override_seed_ptr := some (atoi value) } (by omega) hst with
            h | h | ⟨st1, f, a1, a2, a3, a4⟩
          · exact Or.inl h
          · exact Or.inr (Or.inl h)
          · refine Or.inr (Or.inr ⟨st1, f, a1, a2, ?_, a4⟩)
            cases rest1 with
            | nil => exact absurd a4 not_usageForm_nil
            | cons x r => simpa using a3
      · by_cases htime : arg = "-time"
        · subst htime
          have hp : parse_arguments atoi ("-time" :: rest) st =
              parse_arguments atoi rest { st with keep_time := true } := by
            cases rest <;> simp [parse_arguments]
          rw [hp, usageForm_time]
          rcases ih rest { st with keep_time := true } (by omega) hst with
            h | h | ⟨st1, f, a1, a2, a3, a4⟩
          · exact Or.inl h
          · exact Or.inr (Or.inl h)
          · refine Or.inr (Or.inr ⟨st1, f, a1, a2, ?_, a4⟩)
            cases rest with
            | nil => exact absurd a4 not_usageForm_nil
            | cons x r => simpa using a3
        · rw [usageForm_file arg rest hseed htime]
          cases rest with
          | nil =>
            right
            right
            exact ⟨{ st with input_file := some arg }, arg,
              by simp [parse_arguments, hseed, htime], rfl, rfl, rfl⟩
          | cons x r =>
            left
            exact ⟨by simp [parse_arguments, hseed, htime], by simp⟩

/-- Claim C34. Command-line parsing in `main` accepts an argument list (goes on to create the
simulation) if and only if the list has the form
`( '-time' | '-seed' <any one argument> )* <parameter file>` with a parameter file that is
neither `-seed` nor `-time`, and the input file is then the last argument; on every other
argument list `main` prints the usage line and exits with failure, creating no simulation. -/
theorem main_accepts_usage_form (atoi : String → Int) (args : List String) :
    (UsageForm args ↔
      ∃ f s t, args.getLast? = some f ∧ main atoi args = MainOutcome.run f s t) ∧
    (¬ UsageForm args ↔ main atoi args = MainOutcome.usage_and_die) := by
  unfold main
  rcases parse_arguments_spec atoi args.length args ⟨none, none, false⟩ le_rfl rfl with
    ⟨h, hu⟩ | ⟨st1, h, hf, hu⟩ | ⟨st1, f, h, hf, hl, hu⟩
  · rw [h]
    simp [hu]
  · rw [h]
    simp [hf, hu]
  · rw [h]
    simp only [hf, hu, true_iff, not_true_eq_false, false_iff]
    exact ⟨⟨f, _, _, hl, rfl⟩, fun h => by cases h⟩

/-- The claim at `-seed` given as the last argument: the list is not of the usage form. -/
theorem main_accepts_usage_form_witness : ¬ UsageForm ["-time", "-seed"] :=
  (main_accepts_usage_form (fun _ => 0) ["-time", "-seed"]).2.2 (by decide)

/-! ## The constructors and the first samplers -/

/-- Two genomes without mutations make an individual of fitness 1. -/
theorem fitnessOfGenomes_of_no_mutations (mem : Memory) (xd : ℚ) (genome1 genome2 : Genome)
    (h1 : genome1.mutations_ = []) (h2 : genome2.mutations_ = []) :
    fitnessOfGenomes mem xd genome1 genome2 = 1 := by
  have r1 : genome1.records mem = [] := by simp [Genome.records, h1]
  have r2 : genome2.records mem = [] := by simp [Genome.records, h2]
  cases n1 : genome1.is_null_ <;> cases n2 : genome2.is_null_
  · rw [fitnessOfGenomes_nonnull mem xd genome1 genome2 n1 n2, r1, r2, mergeAll_nil_left]
    rfl
  · simp only [fitnessOfGenomes, n1, n2, r1, Bool.false_eq_true, false_and, if_false,
      false_or, if_true, scanLoop]
    split <;> rfl
  · simp only [fitnessOfGenomes, n1, n2, r2, Bool.false_eq_true, and_false, if_false,
      or_false, if_true, scanLoop]
    split <;> rfl
  · simp [fitnessOfGenomes, n1, n2]

/-- Over a parent buffer without mutations every weight is 1. -/
theorem fitness_weights_of_no_mutations (sp : Subpopulation) (mem : Memory) (first : Nat)
    (hg : ∀ g ∈ sp.parent_genomes_, g.mutations_ = []) :
    ∀ count : Nat, 2 * (first + count) ≤ sp.parent_genomes_.length →
      fitness_weights sp mem first count = some (List.replicate count 1) := by
  intro count
  induction count with
  | zero => intro _; rfl
  | succ n ih =>
    intro h
    have h1 : 2 * (n + first) < sp.parent_genomes_.length := by omega
    have h2 : 2 * (n + first) + 1 < sp.parent_genomes_.length := by omega
    rw [fitness_weights, ih (by omega),
      FitnessOfParentWithGenomeIndices_eq sp mem _ _ _ _ (List.getElem?_eq_getElem h1)
        (List.getElem?_eq_getElem h2),
      fitnessOfGenomes_of_no_mutations mem _ _ _ (hg _ (List.getElem_mem _))
        (hg _ (List.getElem_mem _))]
    simp only [List.replicate_succ']

theorem fitted_parent_length (sp : Subpopulation) (h0 : 0 ≤ sp.parent_subpop_size_)
    (h : sp.sex_enabled_ = true →
      0 ≤ parent_index sp ∧ parent_index sp ≤ sp.parent_subpop_size_) :
    ((fitted sp true).parent_genomes_.length : Int) = 2 * sp.parent_subpop_size_ :=
  fitted_buffer_length sp.sex_enabled_ sp.modeled_chromosome_type_ sp.parent_subpop_size_
    (parent_index sp) h0 h

theorem fitted_parent_mutations (sp : Subpopulation) :
    ∀ g ∈ (fitted sp true).parent_genomes_, g.mutations_ = [] :=
  fitted_buffer_mutations sp.sex_enabled_ sp.modeled_chromosome_type_ sp.parent_subpop_size_
    (parent_index sp)

/-- On a sex-disabled state without mutations whose sampler holds equal weights,
`UpdateFitness` changes nothing. -/
theorem UpdateFitness_of_equal_weights (sp : Subpopulation) (mem : Memory)
    (hsex : sp.sex_enabled_ = false) (hN : 0 ≤ sp.parent_subpop_size_)
    (hmut : ∀ g ∈ sp.parent_genomes_, g.mutations_ = [])
    (hlen : (sp.parent_genomes_.length : Int) = 2 * sp.parent_subpop_size_)
    (hl : sp.lookup_parent_ = List.replicate sp.parent_subpop_size_.toNat 1) :
    UpdateFitness sp mem = some sp := by
  have hw := fitness_weights_of_no_mutations sp mem 0 hmut sp.parent_subpop_size_.toNat
    (by omega)
  have hlt : ¬ sp.parent_subpop_size_ < 0 := not_lt.2 hN
  have hs : ¬ sp.sex_enabled_ = true := by rw [hsex]; decide
  unfold UpdateFitness
  rw [if_neg hs, if_neg hlt, hw, ← hl]

/-- On a sex-enabled state without mutations whose samplers hold equal weights,
`UpdateFitness` changes nothing. -/
theorem UpdateFitness_of_equal_weights_sex (sp : Subpopulation) (mem : Memory)
    (hsex : sp.sex_enabled_ = true) (h1 : 0 ≤ sp.parent_first_male_index_)
    (h2 : sp.parent_first_male_index_ ≤ sp.parent_subpop_size_)
    (hmut : ∀ g ∈ sp.parent_genomes_, g.mutations_ = [])
    (hlen : (sp.parent_genomes_.length : Int) = 2 * sp.parent_subpop_size_)
    (hlA : sp.lookup_female_parent_ = List.replicate sp.parent_first_male_index_.toNat 1)
    (hlB : sp.lookup_male_parent_ =
      List.replicate (sp.parent_subpop_size_ - sp.parent_first_male_index_).toNat 1) :
    UpdateFitness sp mem = some sp := by
  have hwA := fitness_weights_of_no_mutations sp mem 0 hmut sp.parent_first_male_index_.toNat
    (by omega)
  have hwB := fitness_weights_of_no_mutations sp mem sp.parent_first_male_index_.toNat hmut
    (sp.parent_subpop_size_ - sp.parent_first_male_index_).toNat (by omega)
  have hl1 : ¬ sp.parent_first_male_index_ < 0 := not_lt.2 h1
  have hl2 : ¬ sp.parent_subpop_size_ - sp.parent_first_male_index_ < 0 := by omega
  unfold UpdateFitness
  rw [if_pos hsex, if_neg hl1, hwA]
  simp only [hl2, if_false, hwB]
  rw [← hlA, ← hlB]

/-- The body of the first constructor on a sex-disabled object whose sizes are at least 0 and
below `2^30`. -/
theorem Subpopulation_new_body_spec (sp0 : Subpopulation) (mem : Memory)
    (hsex : sp0.sex_enabled_ = false) (hN : 0 ≤ sp0.parent_subpop_size_)
    (hc : 0 ≤ sp0.child_subpop_size_) (hN2 : sp0.parent_subpop_size_ < 1073741824)
    (hc2 : sp0.child_subpop_size_ < 1073741824) :
    ∃ sp, Subpopulation_new_body sp0 = Except.ok (some sp) ∧
      (sp.lookup_parent_.length : Int) = sp0.parent_subpop_size_ ∧
      (∀ w ∈ sp.lookup_parent_, w = 1) ∧ UpdateFitness sp mem = some sp := by
  have hfit : GenerateChildrenToFit sp0 true = Except.ok (fitted sp0 true) := by
    rw [GenerateChildrenToFit_ok_iff]
    exact ⟨⟨Or.inr ⟨hsex, hc, fun _ => hN⟩, hc2, fun _ => hN2⟩, rfl⟩
  have hlt : ¬ sp0.parent_subpop_size_ < 0 := not_lt.2 hN
  have hsz : (fitted sp0 true).parent_subpop_size_ = sp0.parent_subpop_size_ := rfl
  refine ⟨{ fitted sp0 true with
    lookup_parent_ := List.replicate sp0.parent_subpop_size_.toNat 1 }, ?_, ?_, ?_, ?_⟩
  · unfold Subpopulation_new_body
    rw [hfit]
    simp only [equal_weights, hsz, hlt, if_false]
  · simp only [List.length_replicate]
    omega
  · intro w hw
    exact List.eq_of_mem_replicate hw
  · exact UpdateFitness_of_equal_weights _ mem hsex hN (fitted_parent_mutations sp0)
      (fitted_parent_length sp0 hN (fun h => by rw [hsex] at h; cases h)) rfl

/-- The body of the sex-enabled constructor on an object whose sex ratios leave both sexes and
whose sizes are below `2^30`. -/
theorem Subpopulation_new_sex_body_spec (sp0 : Subpopulation) (mem : Memory)
    (hsex : sp0.sex_enabled_ = true) (h1 : 0 < parent_index sp0)
    (h2 : parent_index sp0 < sp0.parent_subpop_size_) (c1 : 0 < child_index sp0)
    (c2 : child_index sp0 < sp0.child_subpop_size_)
    (hN2 : sp0.parent_subpop_size_ < 1073741824) (hc2 : sp0.child_subpop_size_ < 1073741824) :
    ∃ sp, Subpopulation_new_sex_body sp0 = Except.ok (some sp) ∧
      sp.parent_first_male_index_ = parent_index sp0 ∧
      (sp.lookup_female_parent_.length : Int) = sp.parent_first_male_index_ ∧
      (sp.lookup_male_parent_.length : Int) =
        sp0.parent_subpop_size_ - sp.parent_first_male_index_ ∧
      (∀ w ∈ sp.lookup_female_parent_, w = 1) ∧ (∀ w ∈ sp.lookup_male_parent_, w = 1) ∧
      UpdateFitness sp mem = some sp := by
  have hfit : GenerateChildrenToFit sp0 true = Except.ok (fitted sp0 true) := by
    rw [GenerateChildrenToFit_ok_iff]
    exact ⟨⟨Or.inl ⟨hsex, c1, c2, fun _ => ⟨h1, h2⟩⟩, hc2, fun _ => hN2⟩, rfl⟩
  have hsz : (fitted sp0 true).parent_subpop_size_ = sp0.parent_subpop_size_ := rfl
  have hix : (fitted sp0 true).parent_first_male_index_ = parent_index sp0 := by
    simp [fitted, hsex]
  have hl1 : ¬ parent_index sp0 < 0 := by omega
  have hl2 : ¬ sp0.parent_subpop_size_ - parent_index sp0 < 0 := by omega
  have hix1 : ({ fitted sp0 true with
      lookup_female_parent_ := List.replicate (parent_index sp0).toNat 1
      lookup_male_parent_ := List.replicate (sp0.parent_subpop_size_ - parent_index sp0).toNat 1 } :
      Subpopulation).parent_first_male_index_ = parent_index sp0 := hix
  refine ⟨{ fitted sp0 true with
    lookup_female_parent_ := List.replicate (parent_index sp0).toNat 1
    lookup_male_parent_ := List.replicate (sp0.parent_subpop_size_ - parent_index sp0).toNat 1 },
    ?_, hix1, ?_, ?_, ?_, ?_, ?_⟩
  · unfold Subpopulation_new_sex_body
    rw [hfit]
    simp only [equal_weights, hsz, hix, hl1, hl2, if_false]
  · rw [hix1]
    simp only [List.length_replicate]
    omega
  · rw [hix1]
    simp only [List.length_replicate]
    omega
  · intro w hw
    exact List.eq_of_mem_replicate hw
  · intro w hw
    exact List.eq_of_mem_replicate hw
  · refine UpdateFitness_of_equal_weights_sex _ mem hsex ?_ ?_ (fitted_parent_mutations sp0)
      (fitted_parent_length sp0 (le_trans h1.le h2.le) (fun _ => ⟨h1.le, h2.le⟩)) ?_ ?_
    · rw [hix1]
      exact h1.le
    · rw [hix1]
      exact h2.le
    · rw [hix1]
    · rw [hix1]
      rfl

/-- A constructor body that returns has fitted both generations: the size of the children
is below `2^30`. -/
theorem Subpopulation_new_body_bound (sp0 : Subpopulation) (o : Option Subpopulation)
    (h : Subpopulation_new_body sp0 = Except.ok o) : sp0.child_subpop_size_ < 1073741824 := by
  unfold Subpopulation_new_body at h
  cases hf : GenerateChildrenToFit sp0 true with
  | error e =>
    rw [hf] at h
    cases h
  | ok sp => exact ((GenerateChildrenToFit_ok_iff sp0 true sp).1 hf).1.2.1

/-- A sex-enabled constructor body that returns has fitted both generations: the size of the
children is below `2^30`. -/
theorem Subpopulation_new_sex_body_bound (sp0 : Subpopulation) (o : Option Subpopulation)
    (h : Subpopulation_new_sex_body sp0 = Except.ok o) :
    sp0.child_subpop_size_ < 1073741824 := by
  unfold Subpopulation_new_sex_body at h
  cases hf : GenerateChildrenToFit sp0 true with
  | error e =>
    rw [hf] at h
    cases h
  | ok sp => exact ((GenerateChildrenToFit_ok_iff sp0 true sp).1 hf).1.2.1

/-- Claim C31. The samplers the constructors install agree with the fitness function. Without
sex (the member `sex_enabled_` starts as `false`) and with a size `N >= 0`, and with sex and a
sex ratio that gives `0 < firstMaleIndex < N`, the constructor returns exactly when `N` is
below `2^30` (from there on the product `2 * N` does not fit an `int`), and then every weight
it installs is `1.0`; the weight vectors have the lengths `N` (sex disabled),
`firstMaleIndex` and `N - firstMaleIndex` (sex enabled); and `UpdateFitness` on the fresh
state leaves the state, weight vectors included, as it is. -/
theorem constructor_samplers (members : Subpopulation) (mem : Memory) :
    (∀ N : Int, members.sex_enabled_ = false → 0 ≤ N →
      (N < 1073741824 ↔
        ∃ sp, Subpopulation_new members N = Except.ok (some sp) ∧
          (sp.lookup_parent_.length : Int) = N ∧ (∀ w ∈ sp.lookup_parent_, w = 1) ∧
          UpdateFitness sp mem = some sp)) ∧
    (∀ (N : Int) (ratio : ℚ) (modeled : GenomeType) (xd : ℚ),
      0 < lround ((1 - ratio) * (N : ℚ)) → lround ((1 - ratio) * (N : ℚ)) < N →
      (N < 1073741824 ↔
        ∃ sp, Subpopulation_new_sex members N ratio modeled xd = Except.ok (some sp) ∧
          sp.parent_first_male_index_ = lround ((1 - ratio) * (N : ℚ)) ∧
          (sp.lookup_female_parent_.length : Int) = sp.parent_first_male_index_ ∧
          (sp.lookup_male_parent_.length : Int) = N - sp.parent_first_male_index_ ∧
          (∀ w ∈ sp.lookup_female_parent_, w = 1) ∧ (∀ w ∈ sp.lookup_male_parent_, w = 1) ∧
          UpdateFitness sp mem = some sp)) := by
  constructor
  · intro N hsex hN
    constructor
    · intro hN2
      exact Subpopulation_new_body_spec
        { members with parent_subpop_size_ := N, child_subpop_size_ := N } mem hsex hN hN hN2 hN2
    · rintro ⟨sp, e, _⟩
      exact Subpopulation_new_body_bound
        { members with parent_subpop_size_ := N, child_subpop_size_ := N } _ e
  · intro N ratio modeled xd h1 h2
    constructor
    · intro hN2
      have hfit := to_int_of_fits (lround ((1 - ratio) * (N : ℚ))) (by omega) (by omega)
      have hpi : parent_index { members with
          sex_enabled_ := true
          parent_subpop_size_ := N
          child_subpop_size_ := N
          parent_sex_ratio_ := ratio
          child_sex_ratio_ := ratio
          modeled_chromosome_type_ := modeled
          x_chromosome_dominance_coeff_ := xd } = lround ((1 - ratio) * (N : ℚ)) := hfit
      have hci : child_index { members with
          sex_enabled_ := true
          parent_subpop_size_ := N
          child_subpop_size_ := N
          parent_sex_ratio_ := ratio
          child_sex_ratio_ := ratio
          modeled_chromosome_type_ := modeled
          x_chromosome_dominance_coeff_ := xd } = lround ((1 - ratio) * (N : ℚ)) := hfit
      obtain ⟨sp, e1, e2, e3⟩ := Subpopulation_new_sex_body_spec
        { members with
          sex_enabled_ := true
          parent_subpop_size_ := N
          child_subpop_size_ := N
          parent_sex_ratio_ := ratio
          child_sex_ratio_ := ratio
          modeled_chromosome_type_ := modeled
          x_chromosome_dominance_coeff_ := xd } mem rfl (by rw [hpi]; exact h1)
        (by rw [hpi]; exact h2) (by rw [hci]; exact h1) (by rw [hci]; exact h2) hN2 hN2
      exact ⟨sp, e1, e2.trans hpi, e3⟩
    · rintro ⟨sp, e, _⟩
      exact Subpopulation_new_sex_body_bound
        { members with
          sex_enabled_ := true
          parent_subpop_size_ := N
          child_subpop_size_ := N
          parent_sex_ratio_ := ratio
          child_sex_ratio_ := ratio
          modeled_chromosome_type_ := modeled
          x_chromosome_dominance_coeff_ := xd } _ e

/-- The claim at a sex-disabled subpopulation of size 3 (the members start as those of
`exSubpop 1 []`): the constructor returns a state with three weights, all 1, on which
`UpdateFitness` changes nothing. -/
theorem constructor_samplers_witness :
    ∃ sp, Subpopulation_new (exSubpop 1 []) 3 = Except.ok (some sp) ∧
      (sp.lookup_parent_.length : Int) = 3 ∧ (∀ w ∈ sp.lookup_parent_, w = 1) ∧
      UpdateFitness sp exMem = some sp :=
  ((constructor_samplers (exSubpop 1 []) exMem).1 3 rfl (by decide)).1 (by decide)

/-! ## The merge with explicit iterators agrees with the merge on lists -/

theorem deref_of_getElem? (g : List Mutation) (i : Nat) (m : Mutation) (h : g[i]? = some m) :
    deref g i = Except.ok m := by
  simp [deref, h]

/-- The check is real: a read at the end of a genome is a fault. -/
theorem deref_at_end (g : List Mutation) :
    deref g g.length = Except.error Fault.read_past_end := by
  simp [deref]

/-- An iterator with a current mutation stands inside its genome, and what is left of the
genome is the current mutation followed by what is left after one step. -/
theorem drop_of_getElem? (g : List Mutation) (i : Nat) (m : Mutation) (h : g[i]? = some m) :
    i < g.length ∧ g.drop i = m :: g.drop (i + 1) := by
  obtain ⟨hi, rfl⟩ := List.getElem?_eq_some.1 h
  exact ⟨hi, List.drop_eq_getElem_cons hi⟩

theorem getElem?_of_drop (g : List Mutation) (i : Nat) (m : Mutation) (rest : List Mutation)
    (h : g.drop i = m :: rest) : g[i]? = some m ∧ g.drop (i + 1) = rest := by
  have hi : i < g.length := by
    by_contra hc
    rw [List.drop_eq_nil_of_le (not_lt.1 hc)] at h
    cases h
  rw [List.drop_eq_getElem_cons hi] at h
  simp only [List.cons.injEq] at h
  exact ⟨by rw [List.getElem?_eq_getElem hi, h.1], h.2⟩

/-- The checked match scan never faults inside the genome and finds what the scan on the list
finds. -/
theorem matchscan_checked_eq (g : List Mutation) (p : Int) (tp : Nat) (s : ℚ) :
    ∀ (fuel scan : Nat), scan ≤ g.length → g.length - scan < fuel →
      matchscan_checked g p tp s fuel scan = Except.ok (matchscan p tp s (g.drop scan)) := by
  intro fuel
  induction fuel with
  | zero => intro scan _ h; omega
  | succ n ih =>
    intro scan hle hfuel
    rw [matchscan_checked]
    by_cases hend : scan = g.length
    · subst hend
      simp [matchscan]
    · have hlt : scan < g.length := by omega
      have hd := List.drop_eq_getElem_cons hlt
      rw [if_pos hend, deref_of_getElem? g scan _ (List.getElem?_eq_getElem hlt), hd, matchscan]
      simp only
      by_cases hp : g[scan].position_ = p
      · rw [if_pos hp, if_pos hp]
        by_cases hm : tp = g[scan].mutation_type_ptr_ ∧ s = g[scan].selection_coeff_
        · rw [if_pos hm, if_pos hm]
        · rw [if_neg hm, if_neg hm]
          exact ih (scan + 1) (by omega) (by omega)
      · rw [if_neg hp, if_neg hp]

/-- The checked finishing loop never faults inside the genome and computes what the scan on
the list computes. -/
theorem scan_checked_eq (factor : Mutation → ℚ) (g : List Mutation) :
    ∀ (fuel iter : Nat) (w : ℚ), iter ≤ g.length → g.length - iter < fuel →
      scan_checked factor g fuel iter w = Except.ok (scanLoop factor (g.drop iter) w) := by
  intro fuel
  induction fuel with
  | zero => intro iter _ _ h; omega
  | succ n ih =>
    intro iter w hle hfuel
    rw [scan_checked]
    by_cases hend : iter = g.length
    · subst hend
      simp [scanLoop]
    · have hlt : iter < g.length := by omega
      have hd := List.drop_eq_getElem_cons hlt
      rw [if_pos hend, deref_of_getElem? g iter _ (List.getElem?_eq_getElem hlt), hd, scanLoop]
      simp only
      by_cases hs : g[iter].selection_coeff_ ≠ 0
      · rw [if_pos hs, if_pos hs]
        by_cases hw : w * factor g[iter] ≤ 0
        · rw [if_pos hw, if_pos hw]
        · rw [if_neg hw, if_neg hw]
          exact ih (iter + 1) _ (by omega) (by omega)
      · rw [if_neg hs, if_neg hs]
        exact ih (iter + 1) _ (by omega) (by omega)

theorem genome1_tied_step_checked_eq (mem : Memory) (g2 : List Mutation) (p : Int)
    (genome2_iter bound : Nat) (m : Mutation) (w : ℚ) (h1 : genome2_iter ≤ g2.length)
    (h2 : g2.length - genome2_iter < bound) :
    genome1_tied_step_checked mem g2 p genome2_iter bound m w =
      Except.ok (genome1_tied_step mem p (g2.drop genome2_iter) m w) := by
  unfold genome1_tied_step_checked genome1_tied_step
  by_cases hs : m.selection_coeff_ ≠ 0
  · rw [if_pos hs, if_pos hs, matchscan_checked_eq g2 p _ _ bound genome2_iter h1 h2]
    cases matchscan p m.mutation_type_ptr_ m.selection_coeff_ (g2.drop genome2_iter) with
    | true => simp
    | false =>
      by_cases hw : w * hetFactor mem m ≤ 0
      · simp [hw]
      · simp [hw]
  · rw [if_neg hs, if_neg hs]

theorem genome2_tied_step_checked_eq (mem : Memory) (g1 : List Mutation) (p : Int)
    (genome1_start bound : Nat) (m : Mutation) (w : ℚ) (h1 : genome1_start ≤ g1.length)
    (h2 : g1.length - genome1_start < bound) :
    genome2_tied_step_checked mem g1 p genome1_start bound m w =
      Except.ok (genome2_tied_step mem p (g1.drop genome1_start) m w) := by
  unfold genome2_tied_step_checked genome2_tied_step
  by_cases hs : m.selection_coeff_ ≠ 0
  · rw [if_pos hs, if_pos hs, matchscan_checked_eq g1 p _ _ bound genome1_start h1 h2]
    cases matchscan p m.mutation_type_ptr_ m.selection_coeff_ (g1.drop genome1_start) with
    | true => simp
    | false =>
      by_cases hw : w * hetFactor mem m ≤ 0
      · simp [hw]
      · simp [hw]
  · rw [if_neg hs, if_neg hs]

/-- Advancing an iterator that has a current mutation never reads past the end: it either
reaches the end or reads the next mutation. -/
theorem advance_eq (g : List Mutation) (c : Iterator) (hc : g[c.iter]? = some c.mutation) :
    (g.drop (c.iter + 1) = [] →
      c.iter + 1 = g.length ∧ advance g c = Except.ok (true, { c with iter := c.iter + 1 })) ∧
    (∀ m rest, g.drop (c.iter + 1) = m :: rest →
      c.iter + 1 < g.length ∧ g[c.iter + 1]? = some m ∧
        advance g c = Except.ok (false, ⟨c.iter + 1, m, m.position_⟩)) := by
  have hi := (drop_of_getElem? g c.iter c.mutation hc).1
  constructor
  · intro h
    have hlen : c.iter + 1 = g.length := by
      have := List.drop_eq_nil_iff.1 h
      omega
    exact ⟨hlen, by rw [advance, if_pos hlen]⟩
  · intro m rest h
    obtain ⟨h1, _⟩ := getElem?_of_drop g (c.iter + 1) m rest h
    have hlt := (drop_of_getElem? g (c.iter + 1) m h1).1
    have hne : ¬ c.iter + 1 = g.length := by omega
    exact ⟨hlt, h1, by rw [advance, if_neg hne, deref_of_getElem? g _ m h1]⟩

/-- The checked tied run never faults and does what the tied run on the list does. -/
theorem tied_run_checked_eq (g : List Mutation)
    (stepc : Mutation → ℚ → Except Fault (Option ℚ)) (step : Mutation → ℚ → Option ℚ)
    (p : Int) (hstep : ∀ m w, stepc m w = Except.ok (step m w)) :
    ∀ (fuel : Nat) (c : Iterator) (w : ℚ), g[c.iter]? = some c.mutation →
      g.length - c.iter ≤ fuel →
      (tiedRun step p (g.drop c.iter) w = none →
        tied_run_checked g stepc p fuel c w = Except.ok none) ∧
      (∀ l w1, tiedRun step p (g.drop c.iter) w = some (l, w1) →
        ∃ c1, tied_run_checked g stepc p fuel c w = Except.ok (some (c1, w1)) ∧
          g.drop c1.iter = l ∧ c.iter < c1.iter ∧ c1.iter ≤ g.length ∧
          (c1.iter ≠ g.length →
            g[c1.iter]? = some c1.mutation ∧ c1.position = c1.mutation.position_)) := by
  intro fuel
  induction fuel with
  | zero =>
    intro c w hc hfuel
    have := (drop_of_getElem? g c.iter c.mutation hc).1
    omega
  | succ n ih =>
    intro c w hc hfuel
    obtain ⟨hi, hd⟩ := drop_of_getElem? g c.iter c.mutation hc
    obtain ⟨adv_end, adv_next⟩ := advance_eq g c hc
    rw [hd, tied_run_checked, hstep]
    cases hs : step c.mutation w with
    | none =>
      constructor
      · intro _
        rfl
      · intro l w1 h
        simp [tiedRun, hs] at h
    | some w2 =>
      cases hrest : g.drop (c.iter + 1) with
      | nil =>
        obtain ⟨hlen, hadv⟩ := adv_end hrest
        constructor
        · intro h
          simp [tiedRun, hs] at h
        · intro l w1 h
          simp only [tiedRun, hs, Option.some.injEq, Prod.mk.injEq] at h
          obtain ⟨rfl, rfl⟩ := h
          refine ⟨{ c with iter := c.iter + 1 }, ?_, hrest, Nat.lt_succ_self _, hlen.le, ?_⟩
          · simp only [hadv]
          · intro hne
            exact absurd hlen hne
      | cons m1 rest1 =>
        obtain ⟨hlt, hm1, hadv⟩ := adv_next m1 rest1 hrest
        simp only [hadv]
        by_cases hp : m1.position_ = p
        · have hrec := ih ⟨c.iter + 1, m1, m1.position_⟩ w2 hm1 (by simp only; omega)
          simp only [hrest] at hrec
          have ht : tiedRun step p (c.mutation :: m1 :: rest1) w =
              tiedRun step p (m1 :: rest1) w2 := by
            rw [tiedRun]
            simp only [hs, if_pos hp]
          rw [ht, if_pos hp]
          constructor
          · exact hrec.1
          · intro l w1 h
            obtain ⟨c1, e1, e2, e3, e4, e5⟩ := hrec.2 l w1 h
            have e3a : c.iter + 1 < c1.iter := e3
            exact ⟨c1, e1, e2, by omega, e4, e5⟩
        · have ht : tiedRun step p (c.mutation :: m1 :: rest1) w =
              some (m1 :: rest1, w2) := by
            rw [tiedRun]
            simp only [hs, if_neg hp]
          rw [ht, if_neg hp]
          constructor
          · intro h
            cases h
          · intro l w1 h
            simp only [Option.some.injEq, Prod.mk.injEq] at h
            obtain ⟨rfl, rfl⟩ := h
            exact ⟨⟨c.iter + 1, m1, m1.position_⟩, rfl, hrest, Nat.lt_succ_self _, hlt.le,
              fun _ => ⟨hm1, rfl⟩⟩

/-- The checked merge loop never faults and does what the merge loop on the lists does; when
it ends at the `assert`, one of the two iterators is at the end of its genome. -/
theorem merge_loop_checked_eq (mem : Memory) (g1 g2 : List Mutation) (bound : Nat)
    (hb : g1.length + g2.length < bound) :
    ∀ (fuel : Nat) (c1 c2 : Iterator) (w : ℚ),
      g1[c1.iter]? = some c1.mutation → c1.position = c1.mutation.position_ →
      g2[c2.iter]? = some c2.mutation → c2.position = c2.mutation.position_ →
      (g1.length - c1.iter) + (g2.length - c2.iter) ≤ fuel →
      (mergeLoop mem (g1.drop c1.iter) (g2.drop c2.iter) w = none →
        merge_loop_checked mem g1 g2 bound fuel c1 c2 w = Except.ok none) ∧
      (∀ l1 l2 w1, mergeLoop mem (g1.drop c1.iter) (g2.drop c2.iter) w = some (l1, l2, w1) →
        ∃ d1 d2, merge_loop_checked mem g1 g2 bound fuel c1 c2 w =
            Except.ok (some (d1, d2, w1)) ∧
          g1.drop d1.iter = l1 ∧ g2.drop d2.iter = l2 ∧
          d1.iter ≤ g1.length ∧ d2.iter ≤ g2.length ∧
          (d1.iter = g1.length ∨ d2.iter = g2.length)) := by
  intro fuel
  induction fuel with
  | zero =>
    intro c1 c2 w hc1 _ hc2 _ hfuel
    have := (drop_of_getElem? g1 c1.iter c1.mutation hc1).1
    omega
  | succ n ih =>
    intro c1 c2 w hc1 hp1 hc2 hp2 hfuel
    obtain ⟨i1, m1, p1⟩ := c1
    obtain ⟨i2, m2, p2⟩ := c2
    dsimp only at hc1 hp1 hc2 hp2 hfuel ⊢
    subst hp1 hp2
    obtain ⟨hi1, hd1⟩ := drop_of_getElem? g1 i1 m1 hc1
    obtain ⟨hi2, hd2⟩ := drop_of_getElem? g2 i2 m2 hc2
    obtain ⟨end1, next1⟩ := advance_eq g1 ⟨i1, m1, m1.position_⟩ hc1
    obtain ⟨end2, next2⟩ := advance_eq g2 ⟨i2, m2, m2.position_⟩ hc2
    dsimp only at end1 next1 end2 next2
    rw [merge_loop_checked]
    dsimp only
    rcases lt_trichotomy m1.position_ m2.position_ with hlt | heq | hgt
    · -- genome 1 leads
      rw [if_pos hlt, hd1, hd2, mergeLoop_lt mem m1 m2 _ _ w hlt]
      cases hs : leading_step mem m1 w with
      | none =>
        exact ⟨fun _ => rfl, fun l1 l2 w1 h => by cases h⟩
      | some w2 =>
        dsimp only
        cases hrest : g1.drop (i1 + 1) with
        | nil =>
          obtain ⟨hlen, hadv⟩ := end1 hrest
          rw [hadv, mergeLoop_nil_left]
          refine ⟨fun h => (by cases h), fun l1 l2 w1 h => ?_⟩
          simp only [Option.some.injEq, Prod.mk.injEq] at h
          obtain ⟨rfl, rfl, rfl⟩ := h
          exact ⟨⟨i1 + 1, m1, m1.position_⟩, ⟨i2, m2, m2.position_⟩, rfl, hrest, hd2, hlen.le,
            hi2.le, Or.inl hlen⟩
        | cons m rest =>
          obtain ⟨hlt1, hm, hadv⟩ := next1 m rest hrest
          rw [hadv]
          dsimp only
          have hrec := ih ⟨i1 + 1, m, m.position_⟩ ⟨i2, m2, m2.position_⟩ w2 hm rfl hc2 rfl
            (by dsimp only; omega)
          dsimp only at hrec
          rw [hrest, hd2] at hrec
          exact hrec
    · -- tied positions
      have hn1 : ¬ m1.position_ < m2.position_ := by omega
      have hn2 : ¬ m1.position_ > m2.position_ := by omega
      rw [if_neg hn1, if_neg hn2, hd1, hd2, mergeLoop_tie mem m1 m2 _ _ w heq]
      have run1 := tied_run_checked_eq g1
        (genome1_tied_step_checked mem g2 m1.position_ i2 bound)
        (genome1_tied_step mem m1.position_ (g2.drop i2)) m1.position_
        (fun m w => genome1_tied_step_checked_eq mem g2 m1.position_ i2 bound m w hi2.le
          (by omega))
        bound ⟨i1, m1, m1.position_⟩ w hc1 (by dsimp only; omega)
      dsimp only at run1
      rw [hd1, hd2] at run1
      cases ht1 : tiedRun (genome1_tied_step mem m1.position_ (m2 :: g2.drop (i2 + 1)))
          m1.position_ (m1 :: g1.drop (i1 + 1)) w with
      | none =>
        rw [run1.1 ht1]
        exact ⟨fun _ => rfl, fun l1 l2 w1 h => by cases h⟩
      | some x =>
        obtain ⟨a1, w2⟩ := x
        obtain ⟨c1a, e1, ea1, eadv1, ele1, eval1⟩ := run1.2 a1 w2 ht1
        rw [e1]
        dsimp only
        have run2 := tied_run_checked_eq g2
          (genome2_tied_step_checked mem g1 m1.position_ i1 bound)
          (genome2_tied_step mem m1.position_ (g1.drop i1)) m1.position_
          (fun m w => genome2_tied_step_checked_eq mem g1 m1.position_ i1 bound m w hi1.le
            (by omega))
          bound ⟨i2, m2, m2.position_⟩ w2 hc2 (by dsimp only; omega)
        dsimp only at run2
        rw [hd1, hd2] at run2
        cases ht2 : tiedRun (genome2_tied_step mem m1.position_ (m1 :: g1.drop (i1 + 1)))
            m1.position_ (m2 :: g2.drop (i2 + 1)) w2 with
        | none =>
          rw [run2.1 ht2]
          exact ⟨fun _ => rfl, fun l1 l2 w1 h => by cases h⟩
        | some y =>
          obtain ⟨a2, w3⟩ := y
          obtain ⟨c2a, e2, ea2, eadv2, ele2, eval2⟩ := run2.2 a2 w3 ht2
          rw [e2]
          dsimp only
          by_cases hend : c1a.iter = g1.length ∨ c2a.iter = g2.length
          · rw [if_pos hend]
            have hml : mergeLoop mem a1 a2 w3 = some (a1, a2, w3) := by
              rcases hend with h | h
              · have : a1 = [] := by rw [← ea1, h, List.drop_length]
                rw [this, mergeLoop_nil_left]
              · have : a2 = [] := by rw [← ea2, h, List.drop_length]
                rw [this, mergeLoop_nil_right]
            rw [hml]
            refine ⟨fun h => (by cases h), fun l1 l2 w1 h => ?_⟩
            simp only [Option.some.injEq, Prod.mk.injEq] at h
            obtain ⟨rfl, rfl, rfl⟩ := h
            exact ⟨c1a, c2a, rfl, ea1, ea2, ele1, ele2, hend⟩
          · rw [if_neg hend]
            have hne1 : c1a.iter ≠ g1.length := fun h => hend (Or.inl h)
            have hne2 : c2a.iter ≠ g2.length := fun h => hend (Or.inr h)
            have eadv1a : i1 < c1a.iter := eadv1
            have eadv2a : i2 < c2a.iter := eadv2
            have hrec := ih c1a c2a w3 (eval1 hne1).1 (eval1 hne1).2 (eval2 hne2).1
              (eval2 hne2).2 (by omega)
            rw [ea1, ea2] at hrec
            exact hrec
    · -- genome 2 leads
      have hn1 : ¬ m1.position_ < m2.position_ := by omega
      rw [if_neg hn1, if_pos hgt, hd1, hd2, mergeLoop_gt mem m1 m2 _ _ w hgt]
      cases hs : leading_step mem m2 w with
      | none =>
        exact ⟨fun _ => rfl, fun l1 l2 w1 h => by cases h⟩
      | some w2 =>
        dsimp only
        cases hrest : g2.drop (i2 + 1) with
        | nil =>
          obtain ⟨hlen, hadv⟩ := end2 hrest
          rw [hadv, mergeLoop_nil_right]
          refine ⟨fun h => (by cases h), fun l1 l2 w1 h => ?_⟩
          simp only [Option.some.injEq, Prod.mk.injEq] at h
          obtain ⟨rfl, rfl, rfl⟩ := h
          exact ⟨⟨i1, m1, m1.position_⟩, ⟨i2 + 1, m2, m2.position_⟩, rfl, hd1, hrest, hi1.le,
            hlen.le, Or.inr hlen⟩
        | cons m rest =>
          obtain ⟨hlt1, hm, hadv⟩ := next2 m rest hrest
          rw [hadv]
          dsimp only
          have hrec := ih ⟨i1, m1, m1.position_⟩ ⟨i2 + 1, m, m.position_⟩ w2 hc1 rfl hm rfl
            (by dsimp only; omega)
          dsimp only at hrec
          rw [hd1, hrest] at hrec
          exact hrec

/-- Lines 298-460 with explicit iterators never fault and reach the `assert` in the state the
merge loop on the lists reaches, with one of the two iterators at the end of its genome. -/
theorem merge_checked_eq (mem : Memory) (g1 g2 : List Mutation) (fuel : Nat)
    (hfuel : g1.length + g2.length < fuel) :
    (mergeLoop mem g1 g2 1 = none → merge_checked mem g1 g2 fuel = Except.ok none) ∧
    (∀ l1 l2 w, mergeLoop mem g1 g2 1 = some (l1, l2, w) →
      ∃ i1 i2, merge_checked mem g1 g2 fuel = Except.ok (some (i1, i2, w)) ∧
        g1.drop i1 = l1 ∧ g2.drop i2 = l2 ∧ i1 ≤ g1.length ∧ i2 ≤ g2.length ∧
        (i1 = g1.length ∨ i2 = g2.length)) := by
  cases g1 with
  | nil =>
    rw [mergeLoop_nil_left]
    refine ⟨fun h => (by cases h), fun l1 l2 w h => ?_⟩
    simp only [Option.some.injEq, Prod.mk.injEq] at h
    obtain ⟨rfl, rfl, rfl⟩ := h
    exact ⟨0, 0, by simp [merge_checked], rfl, rfl, le_refl _, Nat.zero_le _, Or.inl rfl⟩
  | cons m1 r1 =>
    cases g2 with
    | nil =>
      rw [mergeLoop_nil_right]
      refine ⟨fun h => (by cases h), fun l1 l2 w h => ?_⟩
      simp only [Option.some.injEq, Prod.mk.injEq] at h
      obtain ⟨rfl, rfl, rfl⟩ := h
      exact ⟨0, 0, by simp [merge_checked], rfl, rfl, Nat.zero_le _, le_refl _, Or.inr rfl⟩
    | cons m2 r2 =>
      have hloop := merge_loop_checked_eq mem (m1 :: r1) (m2 :: r2) fuel hfuel fuel
        ⟨0, m1, m1.position_⟩ ⟨0, m2, m2.position_⟩ 1 (by simp) rfl (by simp) rfl
        (by dsimp only; omega)
      dsimp only [List.drop_zero] at hloop
      have hm : merge_checked mem (m1 :: r1) (m2 :: r2) fuel =
          match merge_loop_checked mem (m1 :: r1) (m2 :: r2) fuel fuel
              ⟨0, m1, m1.position_⟩ ⟨0, m2, m2.position_⟩ 1 with
          | Except.error e => Except.error e
          | Except.ok none => Except.ok none
          | Except.ok (some (c1, c2, w)) => Except.ok (some (c1.iter, c2.iter, w)) := by
        simp [merge_checked, deref]
      rw [hm]
      constructor
      · intro h
        rw [hloop.1 h]
      · intro l1 l2 w h
        obtain ⟨d1, d2, e, a1, a2, b1, b2, hend⟩ := hloop.2 l1 l2 w h
        rw [e]
        exact ⟨d1.iter, d2.iter, rfl, a1, a2, b1, b2, hend⟩

/-- The branch for two non-null genomes, run with explicit iterators, checked reads and the
`assert` as a test, never faults and returns the value of the merge on the lists. -/
theorem fitness_checked_eq (mem : Memory) (g1 g2 : List Mutation) (fuel : Nat)
    (hfuel : g1.length + g2.length < fuel) :
    fitness_checked mem g1 g2 fuel = Except.ok ((mergeAll mem g1 g2 1).getD 0) := by
  obtain ⟨hnone, hsome⟩ := merge_checked_eq mem g1 g2 fuel hfuel
  unfold fitness_checked mergeAll
  cases hml : mergeLoop mem g1 g2 1 with
  | none =>
    rw [hnone hml]
    rfl
  | some x =>
    obtain ⟨l1, l2, w⟩ := x
    obtain ⟨i1, i2, e, a1, a2, b1, b2, hend⟩ := hsome l1 l2 w hml
    have hassert : ¬ (i1 ≠ g1.length ∧ i2 ≠ g2.length) := by
      rintro ⟨n1, n2⟩
      rcases hend with h | h
      · exact n1 h
      · exact n2 h
    rw [e]
    dsimp only
    rw [if_neg hassert, scan_checked_eq (hetFactor mem) g1 fuel i1 w b1 (by omega), a1]
    cases hs1 : scanLoop (hetFactor mem) l1 w with
    | none => rfl
    | some w1 =>
      dsimp only
      rw [scan_checked_eq (hetFactor mem) g2 fuel i2 w1 b2 (by omega), a2]
      cases hs2 : scanLoop (hetFactor mem) l2 w1 with
      | none => rfl
      | some w2 => rfl

/-- Claim C28. For every pair of non-null parent genomes, sorted or not, the fitness function
run with explicit iterators and checked reads (enough passes allowed) never dereferences an
iterator or a match-scan pointer at or past the end of its genome and never fails the
`assert`: it returns the value of `FitnessOfParentWithGenomeIndices`; and when control reaches
the `assert`, at least one of the two iterators is at the end of its genome. -/
theorem fitness_reads_in_bounds (sp : Subpopulation) (mem : Memory) (i j : Nat)
    (genome1 genome2 : Genome) (fuel : Nat)
    (hi : sp.parent_genomes_[i]? = some genome1) (hj : sp.parent_genomes_[j]? = some genome2)
    (h1 : genome1.is_null_ = false) (h2 : genome2.is_null_ = false)
    (hfuel : (genome1.records mem).length + (genome2.records mem).length < fuel) :
    (∃ v, fitness_checked mem (genome1.records mem) (genome2.records mem) fuel = Except.ok v ∧
      FitnessOfParentWithGenomeIndices sp mem i j = some v) ∧
    (∃ r, merge_checked mem (genome1.records mem) (genome2.records mem) fuel = Except.ok r ∧
      ∀ genome1_iter genome2_iter w, r = some (genome1_iter, genome2_iter, w) →
        genome1_iter = (genome1.records mem).length ∨
          genome2_iter = (genome2.records mem).length) := by
  constructor
  · refine ⟨_, fitness_checked_eq mem _ _ fuel hfuel, ?_⟩
    rw [FitnessOfParentWithGenomeIndices_eq sp mem i j genome1 genome2 hi hj,
      fitnessOfGenomes_nonnull mem _ genome1 genome2 h1 h2]
  · obtain ⟨hnone, hsome⟩ := merge_checked_eq mem (genome1.records mem) (genome2.records mem)
      fuel hfuel
    cases hml : mergeLoop mem (genome1.records mem) (genome2.records mem) 1 with
    | none =>
      refine ⟨none, hnone hml, fun a b w h => ?_⟩
      cases h
    | some x =>
      obtain ⟨l1, l2, w⟩ := x
      obtain ⟨i1, i2, e, _, _, _, _, hend⟩ := hsome l1 l2 w hml
      refine ⟨some (i1, i2, w), e, fun a b w1 h => ?_⟩
      simp only [Option.some.injEq, Prod.mk.injEq] at h
      obtain ⟨rfl, rfl, _⟩ := h
      exact hend

/-- The claim at the unsorted genome `[6, 4]` (positions 200, 100) paired with `[0]`
(position 100), with 4 passes allowed. -/
theorem fitness_reads_in_bounds_witness :
    ∃ v, fitness_checked exMem
        (Genome.records exMem ⟨GenomeType.kAutosome, false, [6, 4]⟩)
        (Genome.records exMem ⟨GenomeType.kAutosome, false, [0]⟩) 4 = Except.ok v ∧
      FitnessOfParentWithGenomeIndices
        (exSubpop 0 [⟨GenomeType.kAutosome, false, [6, 4]⟩, ⟨GenomeType.kAutosome, false, [0]⟩])
        exMem 0 1 = some v :=
  (fitness_reads_in_bounds
    (exSubpop 0 [⟨GenomeType.kAutosome, false, [6, 4]⟩, ⟨GenomeType.kAutosome, false, [0]⟩])
    exMem 0 1 ⟨GenomeType.kAutosome, false, [6, 4]⟩ ⟨GenomeType.kAutosome, false, [0]⟩ 4
    rfl rfl rfl rfl (by decide)).1

end SLiM
